import Mathlib

/-!
Verification of resolve-avahi-compat: resolver address selection, the
publish engine, the string lists, the client and the browsers.

A shallow embedding of `src/ga-service-resolver.c` (address extraction from a
`ResolveService` reply, worker and completion), `src/ga-entry-group.c` (the
`.dnssd` file based entry group), `src/ga-client.c`,
`src/ga-service-browser.c` and `src/ga-record-browser.c`, with the
properties proved about them.

Conventions.
* C strings are modelled as `String` (the text before the terminating NUL),
  their lengths are counted in bytes of the UTF-8 encoding (`strlen`);
  the character classes used by the code are ASCII only, so a non-ASCII
  character is treated like the bytes of its UTF-8 encoding (none of them is
  alphanumeric, `-`, `_`, ` ` or `.`).
* `for` loops over an array become left folds over the list of elements.
* Fixed width integers are `Nat`/`Int` with an explicit modulus where the code
  casts (`(uint16_t)`, `(uint8_t)`).
* A hash table is the list of its entries in iteration order.
* What the operating system answers (whether a write or an `unlink`
  succeeds) is a parameter of the operations, and so is what the varlink
  connection answers (results of the calls, replies, error ids).
* The signals an object emits are kept as a list of events, oldest first.
* The attach of the service browser and its reply callback call each other;
  each takes the other as a parameter, so what is proved of one holds for
  every behaviour of the other.
-/

namespace GaCompat


/-! ## The JSON values of the reply (`sd_json_variant`) -/

/-- A JSON value as handed out by the varlink reply.  `number` holds every
number with an integral value, `real` every other number. -/
inductive JsonVariant where
  | null : JsonVariant
  | boolean (b : Bool) : JsonVariant
  | number (i : Int) : JsonVariant
  | real (text : String) : JsonVariant
  | string (s : String) : JsonVariant
  | array (xs : List JsonVariant) : JsonVariant
  | object (fields : List (String × JsonVariant)) : JsonVariant

/-- The function `sd_json_variant_is_array`. -/
def sd_json_variant_is_array : JsonVariant → Bool
  | .array _ => true
  | _ => false

/-- The function `sd_json_variant_is_object`. -/
def sd_json_variant_is_object : JsonVariant → Bool
  | .object _ => true
  | _ => false

/-- The function `sd_json_variant_is_integer`: an integral number that fits `int64_t`. -/
def sd_json_variant_is_integer : JsonVariant → Bool
  | .number i => decide (-(2 : Int) ^ 63 ≤ i ∧ i < (2 : Int) ^ 63)
  | _ => false

/-- The function `sd_json_variant_is_unsigned`: an integral number that fits `uint64_t`. -/
def sd_json_variant_is_unsigned : JsonVariant → Bool
  | .number i => decide (0 ≤ i ∧ i < (2 : Int) ^ 64)
  | _ => false

/-- The function `sd_json_variant_integer` (0 when the value is no `int64_t`). -/
def sd_json_variant_integer : JsonVariant → Int
  | .number i => if -(2 : Int) ^ 63 ≤ i ∧ i < (2 : Int) ^ 63 then i else 0
  | _ => 0

/-- The function `sd_json_variant_unsigned` (0 when the value is no `uint64_t`). -/
def sd_json_variant_unsigned : JsonVariant → Nat
  | .number i => if 0 ≤ i ∧ i < (2 : Int) ^ 64 then i.toNat else 0
  | _ => 0

/-- The function `sd_json_variant_elements`: number of elements of an array, twice the
number of fields of an object, 0 otherwise. -/
def sd_json_variant_elements : JsonVariant → Nat
  | .array xs => xs.length
  | .object fields => 2 * fields.length
  | _ => 0

/-- The function `sd_json_variant_by_key`: the value of the first field with that key. -/
def sd_json_variant_by_key : JsonVariant → String → Option JsonVariant
  | .object fields, key => (fields.find? (fun f => f.1 == key)).map (fun f => f.2)
  | _, _ => none

/-- The elements of an array in index order, i.e. the values
`sd_json_variant_by_index(v, 0)`, ..., `sd_json_variant_by_index(v, n-1)`. -/
def array_elements : JsonVariant → List JsonVariant
  | .array xs => xs
  | _ => []

/-! ## `GaAddress` and the protocol constants -/

/-- The constant `GA_PROTOCOL_INET`. -/
def GA_PROTOCOL_INET : Int := 0
/-- The constant `GA_PROTOCOL_INET6`. -/
def GA_PROTOCOL_INET6 : Int := 1
/-- The constant `GA_PROTOCOL_UNSPEC`. -/
def GA_PROTOCOL_UNSPEC : Int := -1
/-- The constant `AF_INET` of the socket API. -/
def AF_INET : Int := 2
/-- The constant `AF_INET6` of the socket API (Linux). -/
def AF_INET6 : Int := 10

/-- The type `GaAddress`: the protocol tag and the 16 octets of the `data` union; an
IPv4 address occupies the first four octets. -/
structure GaAddress where
  proto : Int
  data : List Nat
  deriving DecidableEq, Repr

/-- The octets an address denotes under its own protocol tag. -/
def GaAddress.octets (a : GaAddress) : List Nat :=
  if a.proto = GA_PROTOCOL_INET then a.data.take 4 else a.data.take 16

/-! ## `extract_address_from_services` -/

/-- The local variables of `extract_address_from_services`. -/
structure ExtractState where
  ipv4_addr : List Nat
  ipv6_addr : List Nat
  have_ipv4 : Bool
  have_ipv6 : Bool
  port : Nat
  deriving DecidableEq, Repr

/-- The byte loop `for (bi = 0; bi < n; bi++)`: element `bi` of the JSON
array overwrites octet `bi` when it is an unsigned number (cast to
`uint8_t`), and leaves the octet as it was otherwise. -/
def store_bytes : List Nat → List JsonVariant → List Nat
  | old :: buf, b :: elems =>
      (if sd_json_variant_is_unsigned b then sd_json_variant_unsigned b % 256 else old)
        :: store_bytes buf elems
  | buf, [] => buf
  | [], _ :: _ => []

/-- Body of the inner loop over the `addresses` array of one service entry. -/
def addr_step (st : ExtractState) (addr_entry : JsonVariant) : ExtractState :=
  if !sd_json_variant_is_object addr_entry then st else
  match sd_json_variant_by_key addr_entry "family",
        sd_json_variant_by_key addr_entry "address" with
  | some family_v, some address_v =>
      if !sd_json_variant_is_integer family_v then st
      else if !sd_json_variant_is_array address_v then st
      else
        let family := sd_json_variant_integer family_v
        let bn := sd_json_variant_elements address_v
        if family = AF_INET ∧ bn = 4 then
          { st with ipv4_addr := store_bytes st.ipv4_addr (array_elements address_v),
                    have_ipv4 := true }
        else if family = AF_INET6 ∧ bn = 16 then
          { st with ipv6_addr := store_bytes st.ipv6_addr (array_elements address_v),
                    have_ipv6 := true }
        else st
  | _, _ => st

/-- Body of the outer loop over the services array. -/
def srv_step (st : ExtractState) (srv_entry : JsonVariant) : ExtractState :=
  if !sd_json_variant_is_object srv_entry then st else
  let st1 : ExtractState :=
    match sd_json_variant_by_key srv_entry "port" with
    | some port_v =>
        if sd_json_variant_is_unsigned port_v then
          { st with port := sd_json_variant_unsigned port_v % 65536 }
        else st
    | none => st
  match sd_json_variant_by_key srv_entry "addresses" with
  | some addr_array =>
      if !sd_json_variant_is_array addr_array then st1
      else (array_elements addr_array).foldl addr_step st1
  | none => st1

/-- The initial values of the locals. -/
def extract_init : ExtractState :=
  { ipv4_addr := List.replicate 16 0, ipv6_addr := List.replicate 16 0,
    have_ipv4 := false, have_ipv6 := false, port := 0 }

/-- The selection after the loops. -/
def select_address (st : ExtractState) (preferred_proto : Int) : Option (GaAddress × Nat) :=
  if preferred_proto = GA_PROTOCOL_INET ∧ st.have_ipv4 = true then
    some (⟨GA_PROTOCOL_INET, st.ipv4_addr⟩, st.port)
  else if preferred_proto = GA_PROTOCOL_INET6 ∧ st.have_ipv6 = true then
    some (⟨GA_PROTOCOL_INET6, st.ipv6_addr⟩, st.port)
  else if st.have_ipv4 = true then
    some (⟨GA_PROTOCOL_INET, st.ipv4_addr⟩, st.port)
  else if st.have_ipv6 = true then
    some (⟨GA_PROTOCOL_INET6, st.ipv6_addr⟩, st.port)
  else none

/-- The function `extract_address_from_services`: `none` is the return value `FALSE`,
`some (address, port)` is `TRUE` with the two out parameters. -/
def extract_address_from_services (services_array : Option JsonVariant)
    (preferred_proto : Int) : Option (GaAddress × Nat) :=
  match services_array with
  | none => none
  | some v =>
      if !sd_json_variant_is_array v then none
      else select_address ((array_elements v).foldl srv_step extract_init) preferred_proto

/-! ### Candidates of a reply, written independently of the loop -/

/-- The entries of the `addresses` array of a service entry that the loop
looks at: none unless the entry is an object with an array `addresses`. -/
def service_addresses (srv_entry : JsonVariant) : List JsonVariant :=
  match srv_entry with
  | .object fields =>
      match sd_json_variant_by_key (.object fields) "addresses" with
      | some (.array xs) => xs
      | _ => []
  | _ => []

/-- All address entries of a services array in response order: services
array order, then addresses array order within a service entry. -/
def address_entries (services : List JsonVariant) : List JsonVariant :=
  services.flatMap service_addresses

/-- The `address` array of an address entry (empty when there is none). -/
def entry_address (addr_entry : JsonVariant) : List JsonVariant :=
  match sd_json_variant_by_key addr_entry "address" with
  | some (.array xs) => xs
  | _ => []

/-- A well-formed candidate of socket family `af` with `n` address
elements: an object whose `family` is the integer `af` and whose `address`
is an array of `n` elements. -/
def is_candidate (af : Int) (n : Nat) (addr_entry : JsonVariant) : Bool :=
  match addr_entry with
  | .object fields =>
      match sd_json_variant_by_key (.object fields) "family",
            sd_json_variant_by_key (.object fields) "address" with
      | some (.number f), some (.array xs) =>
          decide (-(2 : Int) ^ 63 ≤ f ∧ f < (2 : Int) ^ 63) && decide (f = af)
            && decide (xs.length = n)
      | _, _ => false
  | _ => false

/-- The well-formed IPv4 candidates in response order. -/
def ipv4_candidates (services : List JsonVariant) : List JsonVariant :=
  (address_entries services).filter (is_candidate AF_INET 4)

/-- The well-formed IPv6 candidates in response order. -/
def ipv6_candidates (services : List JsonVariant) : List JsonVariant :=
  (address_entries services).filter (is_candidate AF_INET6 16)

/-! ### The loop bodies restated per entry -/

/-- The port a service entry carries, as the loop reads it: present when the
entry is an object whose `port` is an unsigned number, cast to `uint16_t`. -/
def service_port (srv_entry : JsonVariant) : Option Nat :=
  match srv_entry with
  | .object fields =>
      match sd_json_variant_by_key (.object fields) "port" with
      | some (.number p) =>
          if 0 ≤ p ∧ p < (2 : Int) ^ 64 then some (p.toNat % 65536) else none
      | _ => none
  | _ => none

/-- The loop body on one address entry, by candidate kind. -/
def addr_update (st : ExtractState) (a : JsonVariant) : ExtractState :=
  if is_candidate AF_INET 4 a then
    { st with ipv4_addr := store_bytes st.ipv4_addr (entry_address a), have_ipv4 := true }
  else if is_candidate AF_INET6 16 a then
    { st with ipv6_addr := store_bytes st.ipv6_addr (entry_address a), have_ipv6 := true }
  else st

/-- The loop body on one service entry: the port update, then the address
entries. -/
def port_update (st : ExtractState) (srv : JsonVariant) : ExtractState :=
  match service_port srv with
  | some p => { st with port := p }
  | none => st

/-- Storing the address elements of one candidate into an octet buffer. -/
def store_candidate (buf : List Nat) (c : JsonVariant) : List Nat :=
  store_bytes buf (entry_address c)

/-- The octets a candidate denotes: its address elements cast to `uint8_t`. -/
def candidate_octets (c : JsonVariant) : List Nat :=
  (entry_address c).map (fun b => sd_json_variant_unsigned b % 256)

/-- The well-formed candidates of the family an address is tagged with. -/
def family_candidates (services : List JsonVariant) (proto : Int) : List JsonVariant :=
  if proto = GA_PROTOCOL_INET then ipv4_candidates services else ipv6_candidates services

/-! ## The entry group (`src/ga-entry-group.c`) -/

/-- The type `GaEntryGroupState`. -/
inductive GaEntryGroupState where
  | UNCOMMITED : GaEntryGroupState
  | REGISTERING : GaEntryGroupState
  | ESTABLISHED : GaEntryGroupState
  | COLLISION : GaEntryGroupState
  | FAILURE : GaEntryGroupState
  deriving DecidableEq, Repr

/-- The error codes of the `GA_ERROR` domain that the sources use. -/
inductive GaErrorCode where
  | OK : GaErrorCode
  | FAILURE : GaErrorCode
  | COLLISION : GaErrorCode
  | NOT_PERMITTED : GaErrorCode
  | NOT_SUPPORTED : GaErrorCode
  | NO_DAEMON : GaErrorCode
  | NOT_FOUND : GaErrorCode
  | DISCONNECTED : GaErrorCode
  deriving DecidableEq, Repr

/-- The type `GaEntryGroupServicePrivate`: the public fields of `GaEntryGroupService`
followed by the private ones.  `txt_entries` lists the entries of the hash
table (unique keys) in its iteration order; a `none` value is a bare key. -/
structure GaEntryGroupService where
  interface : Int
  protocol : Int
  flags : Nat
  name : String
  type : String
  domain : Option String
  host : Option String
  port : Nat
  frozen : Bool
  txt_entries : List (String × Option String)
  dnssd_filename : Option String
  deriving DecidableEq, Repr

/-- The files on disk: the content stored under each path. -/
abbrev FileSystem := String → Option String

/-- A successful `g_file_set_contents`. -/
def fs_write (files : FileSystem) (filepath content : String) : FileSystem :=
  fun q => if q = filepath then some content else files q

/-- A successful `unlink`. -/
def fs_remove (files : FileSystem) (filepath : String) : FileSystem :=
  fun q => if q = filepath then none else files q

/-- An entry group together with what it acts on: the fields of
`GaEntryGroupPrivate` (`services` in hash table iteration order), the files
on disk, the `state-changed` signals emitted so far (oldest first), the
paths passed to `unlink` so far, the number of `ReloadDNSSD` requests, and
the paths for which `g_file_set_contents` succeeded in the commit loop so
far (oldest first). -/
structure World where
  state : GaEntryGroupState
  services : List GaEntryGroupService
  created_files : List String
  dispose_has_run : Bool
  files : FileSystem
  signals : List GaEntryGroupState
  unlink_calls : List String
  reload_calls : Nat
  commit_writes : List String

/-- What the environment answers during one call: whether
`g_mkdir_with_parents` succeeds, whether the write for the `k`-th service
visited succeeds, and whether `unlink` of an existing path succeeds. -/
structure Env where
  dir_ok : Bool
  write_ok : Nat → Bool
  unlink_ok : String → Bool

/-- The constant `DNSSD_RUNTIME_DIR`. -/
def DNSSD_RUNTIME_DIR : String := "/run/systemd/dnssd"

/-- The function `g_build_filename` of a directory and a file name that carry no
separator at the joint. -/
def g_build_filename (dir file : String) : String :=
  dir ++ "/" ++ file

/-- The function `g_ascii_isalnum`. -/
def g_ascii_isalnum (c : Char) : Bool :=
  ('0' ≤ c && c ≤ '9') || ('A' ≤ c && c ≤ 'Z') || ('a' ≤ c && c ≤ 'z')

/-- Body of the loop over the characters of the name. -/
def name_step (filename : List Char) (p : Char) : List Char :=
  if g_ascii_isalnum p || p == '-' || p == '_' then filename ++ [p]
  else if p == ' ' then filename ++ ['_']
  else filename

/-- Body of the loop over the characters of the type. -/
def type_step (filename : List Char) (p : Char) : List Char :=
  if g_ascii_isalnum p || p == '-' then filename ++ [p]
  else if p == '_' || p == '.' then filename ++ ['-']
  else filename

/-- The function `generate_dnssd_filename`. -/
def generate_dnssd_filename (name type : String) : String :=
  let filename : List Char := []
  let filename := name.data.foldl name_step filename
  let filename := filename ++ ['-']
  let filename := type.data.foldl type_step filename
  String.mk (filename ++ ".dnssd".data)

/-- Body of the loop over the TXT entries in `generate_dnssd_content`. -/
def txt_step (content : String) (entry : String × Option String) : String :=
  match entry.2 with
  | some value => content ++ "TxtText=" ++ entry.1 ++ "=" ++ value ++ "\n"
  | none => content ++ "TxtText=" ++ entry.1 ++ "\n"

/-- The function `generate_dnssd_content`. -/
def generate_dnssd_content (service : GaEntryGroupService) : String :=
  let content := "[Service]\n"
  let content := content ++ "Name=" ++ service.name ++ "\n"
  let content := content ++ "Type=" ++ service.type ++ "\n"
  let content := content ++ "Port=" ++ Nat.repr service.port ++ "\n"
  if service.txt_entries.length > 0 then
    service.txt_entries.foldl txt_step content
  else content

/-- Emission of `state-changed` carrying the current state. -/
def emit_state_changed (w : World) : World :=
  { w with signals := w.signals ++ [w.state] }

/-- The function `signal_resolved_reload`. -/
def signal_resolved_reload (w : World) : World :=
  { w with reload_calls := w.reload_calls + 1 }

/-- One `unlink(filepath)` of `cleanup_dnssd_files`: a missing file
(`ENOENT`) and a failing `unlink` (a warning) both leave the files as they
are. -/
def unlink_file (unlink_ok : String → Bool) (w : World) (filepath : String) : World :=
  let w1 := { w with unlink_calls := w.unlink_calls ++ [filepath] }
  match w.files filepath with
  | none => w1
  | some _ =>
      if unlink_ok filepath then { w1 with files := fs_remove w.files filepath }
      else w1

/-- The function `cleanup_dnssd_files`. -/
def cleanup_dnssd_files (unlink_ok : String → Bool) (w : World) : World :=
  if w.created_files.length = 0 then w
  else
    let w1 := w.created_files.foldl (unlink_file unlink_ok) w
    let w2 := { w1 with created_files := [] }
    { w2 with reload_calls := w2.reload_calls + 1 }

/-- The path under which `ga_entry_group_commit` writes a service. -/
def service_path (service : GaEntryGroupService) : String :=
  g_build_filename DNSSD_RUNTIME_DIR (generate_dnssd_filename service.name service.type)

/-- The `while (g_hash_table_iter_next ...)` loop of `ga_entry_group_commit`
from the `k`-th service on: the world after the loop, the services visited
and not visited with their `dnssd_filename` as the loop leaves it, and
`success`. -/
def commit_loop (write_ok : Nat → Bool) :
    Nat → List GaEntryGroupService → World → World × List GaEntryGroupService × Bool
  | _, [], w => (w, [], true)
  | k, service :: rest, w =>
      let filename := generate_dnssd_filename service.name service.type
      let filepath := g_build_filename DNSSD_RUNTIME_DIR filename
      let content := generate_dnssd_content service
      if write_ok k then
        let w1 := { w with files := fs_write w.files filepath content,
                           commit_writes := w.commit_writes ++ [filepath],
                           created_files := w.created_files ++ [filepath] }
        let r := commit_loop write_ok (k + 1) rest w1
        (r.1, { service with dnssd_filename := some filename } :: r.2.1, r.2.2)
      else
        (w, service :: rest, false)

/-- The function `ga_entry_group_commit`: the world after the call and the return value
(`Except.ok ()` is `TRUE`, `Except.error c` is `FALSE` with error code `c`). -/
def ga_entry_group_commit (env : Env) (w : World) : World × Except GaErrorCode Unit :=
  let w := emit_state_changed { w with state := GaEntryGroupState.REGISTERING }
  if !env.dir_ok then
    (emit_state_changed { w with state := GaEntryGroupState.FAILURE },
      Except.error GaErrorCode.FAILURE)
  else
    let r := commit_loop env.write_ok 0 w.services w
    let w1 := { r.1 with services := r.2.1 }
    if r.2.2 then
      let w2 := signal_resolved_reload w1
      (emit_state_changed { w2 with state := GaEntryGroupState.ESTABLISHED }, Except.ok ())
    else
      let w2 := cleanup_dnssd_files env.unlink_ok w1
      (emit_state_changed { w2 with state := GaEntryGroupState.FAILURE },
        Except.error GaErrorCode.FAILURE)

/-- The function `ga_entry_group_reset`. -/
def ga_entry_group_reset (env : Env) (w : World) : World × Except GaErrorCode Unit :=
  let w1 := cleanup_dnssd_files env.unlink_ok w
  let w2 := { w1 with services := [] }
  (emit_state_changed { w2 with state := GaEntryGroupState.UNCOMMITED }, Except.ok ())

/-- The function `ga_entry_group_new` on a given disk: `ga_entry_group_init`. -/
def ga_entry_group_new (files : FileSystem) : World :=
  { state := GaEntryGroupState.UNCOMMITED, services := [], created_files := [],
    dispose_has_run := false, files := files, signals := [], unlink_calls := [],
    reload_calls := 0, commit_writes := [] }

/-- The distinct paths of the created-artifact set that exist on disk. -/
def artifacts_on_disk (w : World) : List String :=
  w.created_files.dedup.filter (fun p => (w.files p).isSome)

/-! ### Registering services -/

/-- The function `g_hash_table_insert` on the TXT table: the value of an existing key is
replaced in place, a new key gets a new entry.  The list stands for the
iteration order of the table; the model puts a new entry last, whereas the
order of a `GHashTable` follows the hashes of the keys, so nothing proved
here may be read as fixing the order of the entries. -/
def txt_insert (entries : List (String × Option String)) (key : String)
    (value : Option String) : List (String × Option String) :=
  if entries.any (fun e => e.1 == key) then
    entries.map (fun e => if e.1 == key then (e.1, value) else e)
  else entries ++ [(key, value)]

/-- The split of a TXT string at its first `=` (`strchr(s, '=')`): key and
value, or the whole string as a bare key. -/
def split_txt (s : String) : String × Option String :=
  match s.data.span (fun c => c != '=') with
  | (key, []) => (String.mk key, none)
  | (key, _ :: value) => (String.mk key, some (String.mk value))

/-- The function `ga_entry_group_add_service_full_strlist`; the new service is the last
element of `services`.  The list stands for the iteration order of the
table of services; the model takes the order of registration, whereas the
table is keyed by the address of the service, so the order in which a
commit visits the services is not fixed by the code. -/
def ga_entry_group_add_service_full_strlist (w : World) (interface protocol : Int)
    (flags : Nat) (name type : String) (domain host : Option String) (port : Nat)
    (txt : List String) : World :=
  let service : GaEntryGroupService :=
    { interface := interface, protocol := protocol, flags := flags, name := name,
      type := type, domain := domain, host := host, port := port % 65536, frozen := false,
      txt_entries := txt.foldl (fun t s => txt_insert t (split_txt s).1 (split_txt s).2) [],
      dnssd_filename := none }
  { w with services := w.services ++ [service] }

/-- The function `ga_entry_group_add_service_strlist`. -/
def ga_entry_group_add_service_strlist (w : World) (name type : String) (port : Nat)
    (txt : List String) : World :=
  ga_entry_group_add_service_full_strlist w (-1) GA_PROTOCOL_UNSPEC 0 name type none none port txt

/-! ### File name and content in the words of the specification -/

/-- The characters the name contributes, in the words of the
specification: ASCII alphanumerics, `-` and `_` verbatim, a space as `_`,
nothing for any other character. -/
def sanitized_name (name : String) : String :=
  String.mk (name.data.filterMap (fun c =>
    if c.isAlphanum || c = '-' || c = '_' then some c
    else if c = ' ' then some '_'
    else none))

/-- The characters the type contributes, in the words of the
specification: ASCII alphanumerics and `-` verbatim, `.` and `_` as `-`,
nothing for any other character. -/
def sanitized_type (type : String) : String :=
  String.mk (type.data.filterMap (fun c =>
    if c.isAlphanum || c = '-' then some c
    else if c = '.' || c = '_' then some '-'
    else none))

/-- One `TxtText` line, in the words of the specification. -/
def txt_line (entry : String × Option String) : String :=
  match entry with
  | (key, some value) => "TxtText=" ++ key ++ "=" ++ value ++ "\n"
  | (key, none) => "TxtText=" ++ key ++ "\n"

/-- Concatenation of lines. -/
def concat_lines : List String → String
  | [] => ""
  | l :: ls => l ++ concat_lines ls

/-! ### The effects of commit and cleanup on the files -/

/-- The write of one service file by the commit loop. -/
def write_service (files : FileSystem) (service : GaEntryGroupService) : FileSystem :=
  fs_write files (service_path service) (generate_dnssd_content service)

/-- A service after the commit loop has written its file. -/
def mark_written (service : GaEntryGroupService) : GaEntryGroupService :=
  { service with dnssd_filename := some (generate_dnssd_filename service.name service.type) }

/-- The effect of one `unlink` call on the files. -/
def unlink_step (unlink_ok : String → Bool) (files : FileSystem) (filepath : String) :
    FileSystem :=
  match files filepath with
  | none => files
  | some _ => if unlink_ok filepath then fs_remove files filepath else files

/-- The commit succeeds: the runtime directory is ensured and the write of
each of the `n` services succeeds. -/
def commit_succeeds (env : Env) (n : Nat) : Bool :=
  env.dir_ok && (List.range n).all env.write_ok

/-! ### The other operations of the entry group -/

/-- The function `ga_entry_group_dispose`. -/
def ga_entry_group_dispose (env : Env) (w : World) : World :=
  if w.dispose_has_run then w
  else cleanup_dnssd_files env.unlink_ok { w with dispose_has_run := true }

/-- The function `ga_entry_group_add_service`; the variable arguments are
not read by the code. -/
def ga_entry_group_add_service (w : World) (name type : String) (port : Nat)
    (_varargs : List String) : World :=
  ga_entry_group_add_service_full_strlist w (-1) GA_PROTOCOL_UNSPEC 0 name type none none port []

/-- The function `ga_entry_group_add_service_full`; the variable arguments
are not read by the code. -/
def ga_entry_group_add_service_full (w : World) (interface protocol : Int) (flags : Nat)
    (name type : String) (domain host : Option String) (port : Nat)
    (_varargs : List String) : World :=
  ga_entry_group_add_service_full_strlist w interface protocol flags name type domain host
    port []

/-- The service behind the handle `i` (its position among the services of
the group) is replaced by `f` of it; a handle that denotes no service of the
group changes nothing. -/
def update_service (w : World) (i : Nat)
    (f : GaEntryGroupService → GaEntryGroupService) : World :=
  match w.services[i]? with
  | some service => { w with services := w.services.set i (f service) }
  | none => w

/-- The function `ga_entry_group_service_freeze`. -/
def ga_entry_group_service_freeze (w : World) (i : Nat) : World :=
  update_service w i (fun service => { service with frozen := true })

/-- The function `ga_entry_group_service_set`. -/
def ga_entry_group_service_set (w : World) (i : Nat) (key : String)
    (value : Option String) : World × Except GaErrorCode Unit :=
  (update_service w i (fun service =>
    { service with txt_entries := txt_insert service.txt_entries key value }), Except.ok ())

/-- The number of bytes of a text: the sum of the sizes of the UTF-8
encodings of its characters. -/
def utf8_bytes (text : List Char) : Nat :=
  (text.map Char.utf8Size).sum

/-- The function `strlen`: the number of bytes of the string. -/
def strlen (s : String) : Nat :=
  utf8_bytes s.data

/-- The characters that lie within the first `n` bytes of a text.  A
character that the `n`-th byte cuts in the middle is left out: its leading
bytes alone are no character. -/
def take_bytes : Nat → List Char → List Char
  | _, [] => []
  | n, c :: rest =>
      if c.utf8Size ≤ n then c :: take_bytes (n - c.utf8Size) rest else []

/-- The function `g_strndup`: at most `n` bytes, up to the first NUL. -/
def g_strndup (s : String) (n : Nat) : String :=
  String.mk ((take_bytes n s.data).takeWhile (fun c => c != Char.ofNat 0))

/-- The function `ga_entry_group_service_set_arbitrary`. -/
def ga_entry_group_service_set_arbitrary (w : World) (i : Nat) (key : String)
    (value : String) (size : Nat) : World × Except GaErrorCode Unit :=
  (update_service w i (fun service =>
    { service with
      txt_entries := txt_insert service.txt_entries key (some (g_strndup value size)) }),
    Except.ok ())

/-- The function `ga_entry_group_service_remove_key`. -/
def ga_entry_group_service_remove_key (w : World) (i : Nat) (key : String) :
    World × Except GaErrorCode Unit :=
  (update_service w i (fun service =>
    { service with txt_entries := service.txt_entries.filter (fun e => !(e.1 == key)) }),
    Except.ok ())

/-- The function `ga_entry_group_service_thaw`; `write_ok` tells whether
`g_file_set_contents` succeeds. -/
def ga_entry_group_service_thaw (write_ok : Bool) (w : World) (i : Nat) :
    World × Except GaErrorCode Unit :=
  match w.services[i]? with
  | none => (w, Except.ok ())
  | some service0 =>
      let service := { service0 with frozen := false }
      let w1 := { w with services := w.services.set i service }
      match decide (w1.state = GaEntryGroupState.ESTABLISHED), service.dnssd_filename with
      | true, some dnssd_filename =>
          let filepath := g_build_filename DNSSD_RUNTIME_DIR dnssd_filename
          let content := generate_dnssd_content service
          if write_ok then
            (signal_resolved_reload { w1 with files := fs_write w1.files filepath content },
              Except.ok ())
          else (w1, Except.error GaErrorCode.FAILURE)
      | _, _ => (w1, Except.ok ())

/-- One call on an entry group, with what the environment answers in it. -/
inductive GroupOp where
  | add_service (interface protocol : Int) (flags : Nat) (name type : String)
      (domain host : Option String) (port : Nat) (txt : List String) : GroupOp
  | freeze (i : Nat) : GroupOp
  | set (i : Nat) (key : String) (value : Option String) : GroupOp
  | set_arbitrary (i : Nat) (key : String) (value : String) (size : Nat) : GroupOp
  | remove_key (i : Nat) (key : String) : GroupOp
  | thaw (i : Nat) (write_ok : Bool) : GroupOp
  | commit (env : Env) : GroupOp
  | reset (env : Env) : GroupOp
  | dispose (env : Env) : GroupOp

/-- The world after one call. -/
def apply_op (w : World) : GroupOp → World
  | .add_service interface protocol flags name type domain host port txt =>
      ga_entry_group_add_service_full_strlist w interface protocol flags name type domain host
        port txt
  | .freeze i => ga_entry_group_service_freeze w i
  | .set i key value => (ga_entry_group_service_set w i key value).1
  | .set_arbitrary i key value size => (ga_entry_group_service_set_arbitrary w i key value size).1
  | .remove_key i key => (ga_entry_group_service_remove_key w i key).1
  | .thaw i write_ok => (ga_entry_group_service_thaw write_ok w i).1
  | .commit env => (ga_entry_group_commit env w).1
  | .reset env => (ga_entry_group_reset env w).1
  | .dispose env => ga_entry_group_dispose env w

/-- The world after a sequence of calls. -/
def run_ops (w : World) (ops : List GroupOp) : World :=
  ops.foldl apply_op w

/-- The number of services that were part of the most recent successful
commit, after one more call: a successful commit covers all registered
services, a reset discards them, every other call changes nothing. -/
def committed_after (w : World) (n : Nat) : GroupOp → Nat
  | .commit env =>
      match (ga_entry_group_commit env w).2 with
      | Except.ok _ => w.services.length
      | Except.error _ => n
  | .reset _ => 0
  | _ => n

/-- The world after a sequence of calls on a new group, together with the
number of (leading) services that were part of the most recent successful
commit. -/
def run_tracked (files : FileSystem) (ops : List GroupOp) : World × Nat :=
  ops.foldl (fun st op => (apply_op st.1 op, committed_after st.1 st.2 op))
    (ga_entry_group_new files, 0)

/-- The artifact of a service according to the books of the group exists:
the service has the file name of an artifact (`dnssd_filename`) and a file
is stored under it in the runtime directory.  A file under the artifact path
of a service without that file name does not count here; `artifact_on_disk`
looks at the disk alone. -/
def artifact_exists (w : World) (service : GaEntryGroupService) : Bool :=
  match service.dnssd_filename with
  | none => false
  | some dnssd_filename => (w.files (g_build_filename DNSSD_RUNTIME_DIR dnssd_filename)).isSome

/-- The outcome of the commit loop inside `ga_entry_group_commit`, which
runs after the transition to REGISTERING. -/
def commit_loop_result (env : Env) (w : World) :
    World × List GaEntryGroupService × Bool :=
  commit_loop env.write_ok 0 w.services
    (emit_state_changed { w with state := GaEntryGroupState.REGISTERING })

/-- The calls that write service files: thaw and commit. -/
def GroupOp.writes_files : GroupOp → Bool
  | .thaw _ _ => true
  | .commit _ => true
  | _ => false

/-- The calls in which the environment lets the group keep its books: a
commit that can ensure the runtime directory and whose deletions succeed,
and every other call except dispose. -/
def GroupOp.admissible : GroupOp → Prop
  | .commit env => env.dir_ok = true ∧ ∀ p, env.unlink_ok p = true
  | .dispose _ => False
  | _ => True

/-- What holds of a group and the number `n` of services of its most recent
successful commit in the states reached through admissible calls. -/
structure GroupInv (w : World) (n : Nat) : Prop where
  bound : n ≤ w.services.length
  named : ∀ s ∈ w.services, ∀ fn, s.dnssd_filename = some fn →
    fn = generate_dnssd_filename s.name s.type
  recorded : ∀ s ∈ w.services, artifact_exists w s = true →
    service_path s ∈ w.created_files
  established : w.state = GaEntryGroupState.ESTABLISHED →
    ∀ i s, w.services[i]? = some s →
      (i < n → artifact_exists w s = true) ∧ (n ≤ i → s.dnssd_filename = none)
  cleared : w.state ≠ GaEntryGroupState.ESTABLISHED → w.created_files = []

/-- A file is stored under the artifact path of a service, whatever the
books of the group say. -/
def artifact_on_disk (w : World) (service : GaEntryGroupService) : Bool :=
  (w.files (service_path service)).isSome

/-- The calls in which every deletion succeeds: a commit that can ensure
the runtime directory and whose rollback deletions succeed, a reset whose
deletions succeed, and every other call except dispose. -/
def GroupOp.deletions_succeed : GroupOp → Prop
  | .commit env => env.dir_ok = true ∧ ∀ p, env.unlink_ok p = true
  | .reset env => ∀ p, env.unlink_ok p = true
  | .dispose _ => False
  | _ => True

/-- What holds of the disk in the states reached through calls whose
deletions succeed, `files0` being the disk when the group was created and
`n` the number of services of the most recent successful commit: a file is
either one of `files0` or recorded in the created-artifact set, and every
recorded path is the artifact path of one of the first `n` services. -/
structure DiskInv (files0 : FileSystem) (w : World) (n : Nat) : Prop where
  written : ∀ p, (w.files p).isSome = true →
    (files0 p).isSome = true ∨ p ∈ w.created_files
  covered : ∀ p ∈ w.created_files,
    ∃ i s, i < n ∧ w.services[i]? = some s ∧ service_path s = p

/-! ## String lists (`GaStringList`) -/

/-- The type `GaStringList`: the texts of the nodes in list order, the empty
list being `NULL`.  The `size` of a node is the length of its text in bytes
(`strlen`); the nodes are built from C strings, so a text contains no
NUL. -/
abbrev GaStringList := List String

/-- The strings of an argument list or array up to the first `NULL`. -/
def read_until_null : List (Option String) → List String
  | some s :: rest => s :: read_until_null rest
  | _ => []

/-- The function `ga_string_list_new`: `txt` and the variable arguments that
follow it. -/
def ga_string_list_new (txt : Option String) (varargs : List (Option String)) :
    GaStringList :=
  match txt with
  | none => []
  | some s => s :: read_until_null varargs

/-- The function `ga_string_list_new_from_array`. -/
def ga_string_list_new_from_array (array : Option (List (Option String))) (length : Int) :
    GaStringList :=
  match array with
  | none => []
  | some a =>
      if length < 0 then read_until_null a
      else read_until_null (a.take length.toNat)

/-- The `while (list)` loop of `ga_string_list_find`.  The three tests are
made on characters; on UTF-8 texts they hold together exactly when they hold
on bytes, as the byte `=` is no part of a longer character. -/
def string_list_find_loop : GaStringList → String → Option GaStringList
  | [], _ => none
  | text :: next, key =>
      let key_len := key.length
      if decide (text.length > key_len) && (text.data[key_len]? == some '=')
          && (text.data.take key_len == key.data) then
        some (text :: next)
      else string_list_find_loop next key

/-- The function `ga_string_list_find`: the node found (the list from that
node on) or `none` for `NULL`. -/
def ga_string_list_find (list : GaStringList) (key : Option String) : Option GaStringList :=
  match list, key with
  | [], _ => none
  | _, none => none
  | list, some key => string_list_find_loop list key

/-- The function `ga_string_list_get_pair`: `none` is the return value -1,
`some (key, value, size)` is 0 with the three out parameters.  `memchr`
finds the first `=`; `key_len` and `list->size` count bytes. -/
def ga_string_list_get_pair (list : GaStringList) : Option (String × String × Nat) :=
  match list with
  | [] => none
  | text :: _ =>
      match text.data.span (fun c => c != '=') with
      | (before, _ :: after) =>
          let key_len := utf8_bytes before
          some (String.mk (take_bytes key_len text.data), String.mk after,
            strlen text - key_len - 1)
      | (_, []) => some (String.mk (take_bytes (strlen text) text.data), "", 0)

/-- The text starts with the key followed by `=`. -/
def starts_with_key (key text : String) : Bool :=
  (key.data ++ ['=']).isPrefixOf text.data

/-- The first node whose text starts with the key followed by `=`, in the
words of the specification. -/
def first_entry_with_key (list : GaStringList) (key : String) : Option GaStringList :=
  match list.dropWhile (fun text => !starts_with_key key text) with
  | [] => none
  | node => some node

/-! ## The client (`src/ga-client.c`) -/

/-- The type `GaClientState`. -/
inductive GaClientState where
  | NOT_STARTED : GaClientState
  | S_REGISTERING : GaClientState
  | S_RUNNING : GaClientState
  | S_COLLISION : GaClientState
  | FAILURE : GaClientState
  | CONNECTING : GaClientState
  deriving DecidableEq, Repr

/-- A client: the fields of `GaClientPrivate` (the main context as a handle)
and the `state-changed` signals emitted so far, oldest first. -/
structure GaClient where
  flags : Nat
  state : GaClientState
  context : Option Nat
  dispose_has_run : Bool
  signals : List GaClientState
  deriving DecidableEq, Repr

/-- The function `ga_client_new`. -/
def ga_client_new (flags : Nat) : GaClient :=
  { flags := flags, state := GaClientState.NOT_STARTED, context := none,
    dispose_has_run := false, signals := [] }

/-- Emission of the client signal `state-changed` carrying the current
state. -/
def client_emit_state_changed (client : GaClient) : GaClient :=
  { client with signals := client.signals ++ [client.state] }

/-- The function `ga_client_start_in_context`; `r` is what
`sd_varlink_connect_address` returns. -/
def ga_client_start_in_context (r : Int) (client : GaClient) (context : Option Nat) :
    GaClient × Except GaErrorCode Unit :=
  let client := client_emit_state_changed { client with state := GaClientState.CONNECTING }
  if r < 0 then
    (client_emit_state_changed { client with state := GaClientState.FAILURE },
      Except.error GaErrorCode.NO_DAEMON)
  else
    let client :=
      match context with
      | some c => { client with context := some c }
      | none => client
    (client_emit_state_changed { client with state := GaClientState.S_RUNNING }, Except.ok ())

/-- The function `ga_client_start`. -/
def ga_client_start (r : Int) (client : GaClient) : GaClient × Except GaErrorCode Unit :=
  ga_client_start_in_context r client none

/-! ## The service browser (`src/ga-service-browser.c`) -/

/-- The function `sd_json_variant_is_string`. -/
def sd_json_variant_is_string : JsonVariant → Bool
  | .string _ => true
  | _ => false

/-- The function `sd_json_variant_string` (empty when the value is no
string). -/
def sd_json_variant_string : JsonVariant → String
  | .string s => s
  | _ => ""

/-- The constant `GA_LOOKUP_RESULT_MULTICAST`. -/
def GA_LOOKUP_RESULT_MULTICAST : Nat := 4

/-- The signals of a service browser with their arguments. -/
inductive BrowserEvent where
  | new_service (interface protocol : Int) (name type domain : Option String)
      (flags : Nat) : BrowserEvent
  | removed_service (interface protocol : Int) (name type domain : Option String)
      (flags : Nat) : BrowserEvent
  | all_for_now : BrowserEvent
  | cache_exhausted : BrowserEvent
  | failure (code : GaErrorCode) : BrowserEvent
  deriving DecidableEq, Repr

/-- The parameters of one `io.systemd.Resolve.BrowseServices` call. -/
structure BrowseRequest where
  domain : String
  type : Option String
  ifindex : Int
  flags : Nat
  deriving DecidableEq, Repr

/-- A service browser: the fields of `GaServiceBrowserPrivate` (the client
as a flag, the varlink connection and its watch as handles), the signals
emitted so far, oldest first, and the `BrowseServices` calls made so far. -/
structure GaServiceBrowser where
  client : Bool
  link : Option Nat
  varlink_fd : Int
  varlink_source : Option Nat
  interface : Int
  protocol : Int
  type : Option String
  domain : Option String
  flags : Nat
  dispose_has_run : Bool
  initial_snapshot_done : Bool
  events : List BrowserEvent
  requests : List BrowseRequest
  deriving DecidableEq, Repr

/-- The function `disconnect_from_resolved`. -/
def disconnect_from_resolved (browser : GaServiceBrowser) : GaServiceBrowser :=
  { browser with varlink_source := none, link := none, varlink_fd := -1 }

/-- The cast `(gint)` of an `int64_t`. -/
def gint_cast (i : Int) : Int :=
  (i + 2 ^ 31) % 2 ^ 32 - 2 ^ 31

/-- The string read from a field of an entry: `NULL` unless the field is
there and is a string. -/
def string_field (entry : JsonVariant) (key : String) : Option String :=
  match sd_json_variant_by_key entry key with
  | some v => if sd_json_variant_is_string v then some (sd_json_variant_string v) else none
  | none => none

/-- Body of the loop of `browse_notify_cb` over the entries of a batch. -/
def notify_step (browser : GaServiceBrowser) (entry : JsonVariant) : GaServiceBrowser :=
  if !sd_json_variant_is_object entry then browser else
  let update_flag := string_field entry "updateFlag"
  let name := string_field entry "name"
  let type := string_field entry "type"
  let domain := string_field entry "domain"
  let ifindex : Int :=
    match sd_json_variant_by_key entry "ifindex" with
    | some v => if sd_json_variant_is_integer v then sd_json_variant_integer v else 0
    | none => 0
  let mismatch : Bool :=
    match browser.type, type with
    | some want, some t => want != t
    | _, _ => false
  if mismatch then browser
  else
    let result_flags := GA_LOOKUP_RESULT_MULTICAST
    if update_flag = some "added" then
      { browser with
        initial_snapshot_done := true,
        events := browser.events ++
          [.new_service (gint_cast ifindex) browser.protocol name type domain result_flags] }
    else if update_flag = some "removed" then
      { browser with
        events := browser.events ++
          [.removed_service (gint_cast ifindex) browser.protocol name type domain result_flags] }
    else browser

/-- The function `browse_notify_cb` (it always returns 0).  `attach` is the
call `ga_service_browser_attach(browser, priv->client, ...)` of the reconnect
branch, with what its environment answers. -/
def browse_notify_cb
    (attach : GaServiceBrowser → GaServiceBrowser × Except GaErrorCode Unit)
    (browser : GaServiceBrowser) (parameters : Option JsonVariant)
    (error_id : Option String) : GaServiceBrowser :=
  match error_id with
  | some id =>
      if id = "io.systemd.TimedOut" ∨ id = "io.systemd.Disconnected" then
        let r := attach (disconnect_from_resolved browser)
        match r.2 with
        | Except.error _ =>
            { r.1 with events := r.1.events ++ [.failure GaErrorCode.FAILURE] }
        | Except.ok _ => r.1
      else
        { browser with events := browser.events ++ [.failure GaErrorCode.FAILURE] }
  | none =>
      match parameters.bind (fun p => sd_json_variant_by_key p "browserServiceData") with
      | some array =>
          if !sd_json_variant_is_array array then browser
          else (array_elements array).foldl notify_step browser
      | none => browser

/-- The entries of a notification batch: the elements of the array
`browserServiceData` of the parameters. -/
def batch_entries (parameters : Option JsonVariant) : List JsonVariant :=
  match parameters.bind (fun p => sd_json_variant_by_key p "browserServiceData") with
  | some (.array entries) => entries
  | _ => []

/-- The string a field of an entry holds, in the words of the
specification. -/
def entry_string (entry : JsonVariant) (key : String) : Option String :=
  match sd_json_variant_by_key entry key with
  | some (.string s) => some s
  | _ => none

/-- The interface index of an entry as a `gint`: 0 unless the field is an
integer. -/
def entry_ifindex (entry : JsonVariant) : Int :=
  match sd_json_variant_by_key entry "ifindex" with
  | some (.number i) =>
      if -(2 : Int) ^ 63 ≤ i ∧ i < (2 : Int) ^ 63 then gint_cast i else 0
  | _ => 0

/-- The type of an entry matches the filter: there is no filter, or the
entry names no type, or the entry names the type of the filter. -/
def type_matches (filter : Option String) (entry : JsonVariant) : Bool :=
  match filter, entry_string entry "type" with
  | some want, some t => decide (want = t)
  | _, _ => true

/-- The event an entry of a batch gives rise to, in the words of the
specification: for an object whose type matches the filter, new-service when
tagged "added" and removed-service when tagged "removed", carrying the
entry's interface index, name, type and domain, the protocol of the
subscription and the result flags {multicast}; no event otherwise. -/
def entry_event (filter : Option String) (protocol : Int) (entry : JsonVariant) :
    Option BrowserEvent :=
  match entry with
  | .object fields =>
      if type_matches filter (.object fields) then
        if entry_string (.object fields) "updateFlag" = some "added" then
          some (.new_service (entry_ifindex (.object fields)) protocol
            (entry_string (.object fields) "name") (entry_string (.object fields) "type")
            (entry_string (.object fields) "domain") GA_LOOKUP_RESULT_MULTICAST)
        else if entry_string (.object fields) "updateFlag" = some "removed" then
          some (.removed_service (entry_ifindex (.object fields)) protocol
            (entry_string (.object fields) "name") (entry_string (.object fields) "type")
            (entry_string (.object fields) "domain") GA_LOOKUP_RESULT_MULTICAST)
        else none
      else none
  | _ => none

/-- A notification with the given entries. -/
def batch_of (entries : List JsonVariant) : Option JsonVariant :=
  some (.object [("browserServiceData", .array entries)])

/-! ## The service browser: attaching and the transport watch -/

/-- The signals of a record browser with their arguments.  An octet of
`rdata` is `none` where the buffer was never written (its value is whatever
the allocation held). -/
inductive RecordEvent where
  | new_record (interface protocol : Int) (name : Option String) (clazz type : Nat)
      (rdata : List (Option Nat)) (size : Nat) : RecordEvent
  | removed_record (interface protocol : Int) (name : Option String) (clazz type : Nat)
      (rdata : List (Option Nat)) (size : Nat) : RecordEvent
  | cache_exhausted : RecordEvent
  | all_for_now : RecordEvent
  | failure (code : GaErrorCode) : RecordEvent
  deriving DecidableEq, Repr

/-- A record browser: the fields of `GaRecordBrowserPrivate` (the client as
a flag, the varlink connection and its watch as handles) and the signals
emitted so far, oldest first. -/
structure GaRecordBrowser where
  client : Bool
  link : Option Nat
  varlink_fd : Int
  varlink_source : Option Nat
  interface : Int
  protocol : Int
  name : Option String
  clazz : Nat
  type : Nat
  flags : Nat
  dispose_has_run : Bool
  events : List RecordEvent
  deriving DecidableEq, Repr

/-- What the environment answers during one `ga_record_browser_attach`:
the result of `sd_varlink_connect_address` and the new connection, the
result of `sd_json_buildo`, and the result, the error id and the reply of
`sd_varlink_call`. -/
structure RecordEnv where
  connect_r : Int
  link : Nat
  build_r : Int
  call_r : Int
  error_id : Option String
  reply : Option JsonVariant

/-- The function `disconnect_from_resolved` of the record browser. -/
def record_disconnect_from_resolved (browser : GaRecordBrowser) : GaRecordBrowser :=
  { browser with varlink_source := none, link := none, varlink_fd := -1 }

/-- Body of the loop that converts an rdata array to bytes: an unsigned
element is stored as `(guint8)`, the byte of any other element is left as
allocated. -/
def rdata_byte (b : JsonVariant) : Option Nat :=
  if sd_json_variant_is_unsigned b then some (sd_json_variant_unsigned b % 256) else none

/-- Body of the loop of `ga_record_browser_attach` over the records of the
reply. -/
def record_step (browser : GaRecordBrowser) (rr : JsonVariant) : GaRecordBrowser :=
  if !sd_json_variant_is_object rr then browser
  else
    match sd_json_variant_by_key rr "rdata" with
    | none => browser
    | some rdata_v =>
        if !sd_json_variant_is_array rdata_v then browser
        else
          let rdata_len := sd_json_variant_elements rdata_v
          let rdata := (array_elements rdata_v).map rdata_byte
          { browser with events := browser.events ++
              [.new_record browser.interface browser.protocol browser.name
                browser.clazz browser.type rdata (rdata_len % 2 ^ 32)] }

/-- The function `ga_record_browser_attach`. -/
def ga_record_browser_attach (env : RecordEnv) (browser : GaRecordBrowser) :
    GaRecordBrowser × Except GaErrorCode Unit :=
  let b := { browser with client := true }
  if env.connect_r < 0 then (b, Except.error GaErrorCode.NO_DAEMON)
  else
    let b := { b with link := some env.link }
    if env.build_r < 0 then
      (record_disconnect_from_resolved b, Except.error GaErrorCode.FAILURE)
    else if env.call_r < 0 ∨ env.error_id.isSome then
      (record_disconnect_from_resolved b, Except.error GaErrorCode.NOT_FOUND)
    else
      let b :=
        match env.reply.bind (fun reply => sd_json_variant_by_key reply "rrs") with
        | some rrs =>
            if sd_json_variant_is_array rrs then (array_elements rrs).foldl record_step b
            else b
        | none => b
      let b := { b with events := b.events ++ [.all_for_now] }
      (record_disconnect_from_resolved b, Except.ok ())

/-- The records of a reply: the elements of its array `rrs`. -/
def reply_records (reply : Option JsonVariant) : List JsonVariant :=
  match reply.bind (fun r => sd_json_variant_by_key r "rrs") with
  | some (.array records) => records
  | _ => []

/-- The rdata array a record carries, if it carries one. -/
def record_rdata (rr : JsonVariant) : Option (List JsonVariant) :=
  match rr with
  | .object fields =>
      match sd_json_variant_by_key (.object fields) "rdata" with
      | some (.array elems) => some elems
      | _ => none
  | _ => none

/-- The event a record of the reply gives rise to, in the words of the
specification: for a record that carries an rdata array, a new-record event
with the interface, protocol, name, class and type of the query, the bytes
of the array and their count (as a `guint`). -/
def record_event (browser : GaRecordBrowser) (rr : JsonVariant) : Option RecordEvent :=
  (record_rdata rr).map (fun elems =>
    .new_record browser.interface browser.protocol browser.name browser.clazz browser.type
      (elems.map rdata_byte) (elems.length % 2 ^ 32))

/-! ## The service resolver: worker, completion and `get_address` -/

/-- The signals of a service resolver with their arguments. -/
inductive ResolverEvent where
  | found (interface protocol : Int) (name type domain : Option String) (host_name : String)
      (address : GaAddress) (port : Int) (txt : GaStringList) (flags : Nat) : ResolverEvent
  | failure (code : GaErrorCode) : ResolverEvent
  deriving DecidableEq, Repr

/-- A service resolver: the fields of `GaServiceResolverPrivate` (the client
as a flag) and the signals emitted so far, oldest first. -/
structure GaServiceResolver where
  client : Bool
  interface : Int
  protocol : Int
  address : GaAddress
  port : Nat
  name : Option String
  type : Option String
  domain : Option String
  host : Option String
  aprotocol : Int
  flags : Nat
  txt : GaStringList
  dispose_has_run : Bool
  resolved : Bool
  events : List ResolverEvent
  deriving DecidableEq, Repr

/-- The type `ResolveTaskData` (without the back pointer to the resolver). -/
structure ResolveTaskData where
  name : Option String
  type : Option String
  domain : String
  ifindex : Int
  aprotocol : Int
  deriving DecidableEq, Repr

/-- The dictionary the worker returns on success: its entries "port",
"proto", "address" and "txt", each there or not. -/
structure ResolveResponse where
  port : Option Nat
  proto : Option Int
  address : Option (List Nat)
  txt : Option (List String)
  deriving DecidableEq, Repr

/-- What the environment answers to the worker: the results of
`sd_varlink_connect_address`, of `sd_json_buildo` and of `sd_varlink_call`,
with the error id and the reply of the call. -/
structure ResolveEnv where
  connect_r : Int
  build_r : Int
  call_r : Int
  error_id : Option String
  reply : Option JsonVariant

/-- The function `ga_service_resolver_new`: the instance as `g_object_new`
zero-fills it, as `ga_service_resolver_init` sets it, and with the
properties given. -/
def ga_service_resolver_new (interface protocol : Int) (name type domain : Option String)
    (address_protocol : Int) (flags : Nat) : GaServiceResolver :=
  { client := false, interface := interface, protocol := protocol,
    address := ⟨0, List.replicate 16 0⟩, port := 0, name := name, type := type,
    domain := domain, host := none, aprotocol := address_protocol, flags := flags,
    txt := [], dispose_has_run := false, resolved := false, events := [] }

/-- The function `resolve_task_thread`: the error or the dictionary handed
to the task. -/
def resolve_task_thread (env : ResolveEnv) (data : ResolveTaskData) :
    Except GaErrorCode ResolveResponse :=
  if env.connect_r < 0 then Except.error GaErrorCode.NO_DAEMON
  else if env.build_r < 0 then Except.error GaErrorCode.FAILURE
  else if env.call_r < 0 then Except.error GaErrorCode.FAILURE
  else if env.error_id.isSome then Except.error GaErrorCode.NOT_FOUND
  else
    let services := env.reply.bind (fun reply => sd_json_variant_by_key reply "services")
    let txt := env.reply.bind (fun reply => sd_json_variant_by_key reply "txt")
    let found := extract_address_from_services services data.aprotocol
    let txt_entry : Option (List String) :=
      match txt with
      | some t =>
          if sd_json_variant_is_array t then
            some ((array_elements t).filterMap (fun entry =>
              if sd_json_variant_is_string entry then some (sd_json_variant_string entry)
              else none))
          else none
      | none => none
    match found with
    | some (address, port) =>
        Except.ok
          { port := some port, proto := some address.proto,
            address := some (if address.proto = GA_PROTOCOL_INET then address.data.take 4
                             else address.data.take 16),
            txt := txt_entry }
    | none => Except.ok { port := none, proto := none, address := none, txt := txt_entry }

/-- The function `resolve_complete_cb`, on what the task propagates. -/
def resolve_complete_cb (resolver : GaServiceResolver)
    (result : Except GaErrorCode ResolveResponse) : GaServiceResolver :=
  match result with
  | Except.error code => { resolver with events := resolver.events ++ [.failure code] }
  | Except.ok response =>
      let port := match response.port with
        | some p => p
        | none => resolver.port
      let proto := match response.proto with
        | some p => p
        | none => resolver.address.proto
      let data := match response.address with
        | some bytes =>
            if proto = GA_PROTOCOL_INET ∧ 4 ≤ bytes.length then
              bytes.take 4 ++ resolver.address.data.drop 4
            else if proto = GA_PROTOCOL_INET6 ∧ 16 ≤ bytes.length then
              bytes.take 16 ++ resolver.address.data.drop 16
            else resolver.address.data
        | none => resolver.address.data
      let txt := match response.txt with
        | some strings => strings
        | none => resolver.txt
      { resolver with
        port := port, address := ⟨proto, data⟩, txt := txt, resolved := true,
        events := resolver.events ++
          [.found resolver.interface resolver.protocol resolver.name resolver.type
            resolver.domain (resolver.host.getD "") ⟨proto, data⟩ (Int.ofNat port) txt
            GA_LOOKUP_RESULT_MULTICAST] }

/-- The function `ga_service_resolver_attach` up to the start of the task:
the resolver with its client and the task data (it returns `TRUE`). -/
def ga_service_resolver_attach (resolver : GaServiceResolver) :
    GaServiceResolver × ResolveTaskData :=
  ({ resolver with client := true },
   { name := resolver.name, type := resolver.type, domain := resolver.domain.getD "local",
     ifindex := resolver.interface, aprotocol := resolver.aprotocol })

/-- One resolve operation: `ga_service_resolver_attach`, the worker
`resolve_task_thread` and the completion `resolve_complete_cb`. -/
def resolve_operation (env : ResolveEnv) (resolver : GaServiceResolver) : GaServiceResolver :=
  let started := ga_service_resolver_attach resolver
  resolve_complete_cb started.1 (resolve_task_thread env started.2)

/-- The function `ga_service_resolver_get_address`: `none` is the return
value `FALSE`, `some (address, port)` is `TRUE` with the two out
parameters. -/
def ga_service_resolver_get_address (resolver : GaServiceResolver) :
    Option (GaAddress × Nat) :=
  if !resolver.resolved || resolver.port == 0 then none
  else some (resolver.address, resolver.port)

/-- The services of a reply: the elements of its array `services`, none
when there is no such array. -/
def reply_services (reply : Option JsonVariant) : List JsonVariant :=
  match reply.bind (fun r => sd_json_variant_by_key r "services") with
  | some (.array services) => services
  | _ => []

/-- A resolver after a sequence of resolve operations, one per
environment. -/
def run_resolves (envs : List ResolveEnv) (resolver : GaServiceResolver) : GaServiceResolver :=
  envs.foldl (fun r env => resolve_operation env r) resolver

/-- Invariant of a resolver: once `resolved` is set, a found event carrying
the stored address and port has been emitted. -/
def ResolvedHasEvent (resolver : GaServiceResolver) : Prop :=
  resolver.resolved = true →
    ∃ interface protocol name type domain host_name txt flags,
      ResolverEvent.found interface protocol name type domain host_name resolver.address
        (Int.ofNat resolver.port) txt flags ∈ resolver.events

/-! ## Example inputs -/

/-- A reply with one service entry holding an IPv4 and an IPv6 candidate. -/
def dual_stack_reply : List JsonVariant :=
  [ .object [("port", .number 8080),
      ("addresses", .array
        [ .object [("family", .number 2),
            ("address", .array [.number 192, .number 0, .number 2, .number 1])],
          .object [("family", .number 10),
            ("address", .array (List.replicate 15 (.number 0) ++ [.number 1]))] ])] ]

/-- A reply whose only candidate is an IPv6 address. -/
def ipv6_only_reply : List JsonVariant :=
  [ .object [("port", .number 631),
      ("addresses", .array
        [ .object [("family", .number 10),
            ("address", .array (List.replicate 15 (.number 0) ++ [.number 1]))] ])] ]

/-- A reply with two well-formed IPv4 candidates, the second holding
elements that are no unsigned numbers. -/
def blended_ipv4_reply : List JsonVariant :=
  [ .object [("port", .number 80),
      ("addresses", .array
        [ .object [("family", .number 2),
            ("address", .array [.number 192, .number 0, .number 2, .number 1])],
          .object [("family", .number 2),
            ("address", .array [.number 10, .null, .number (-5), .string "x"])] ])] ]

/-- A reply with two well-formed IPv4 candidates in one service entry. -/
def two_ipv4_reply : List JsonVariant :=
  [ .object [("port", .number 80),
      ("addresses", .array
        [ .object [("family", .number 2),
            ("address", .array [.number 192, .number 0, .number 2, .number 1])],
          .object [("family", .number 2),
            ("address", .array [.number 198, .number 51, .number 100, .number 7])] ])] ]

/-- A reply whose first service entry holds the only address candidate and
whose second service entry carries another port. -/
def two_port_reply : List JsonVariant :=
  [ .object [("port", .number 80),
      ("addresses", .array
        [ .object [("family", .number 2),
            ("address", .array [.number 192, .number 0, .number 2, .number 1])] ])],
    .object [("port", .number 443), ("addresses", .array [])] ]

/-- The service of the publishing example: "My Test Service" of type
`_http._tcp` on port 8080 with the TXT entry `path=/`. -/
def example_service_world : World :=
  ga_entry_group_add_service_strlist (ga_entry_group_new (fun _ => none))
    "My Test Service" "_http._tcp" 8080 ["path=/"]

/-- An environment in which every operation succeeds. -/
def all_ok_env : Env :=
  { dir_ok := true, write_ok := fun _ => true, unlink_ok := fun _ => true }

/-- A fresh group on an empty disk with the services "a b" and "a_b" of
type `_http._tcp`. -/
def colliding_world : World :=
  ga_entry_group_add_service_strlist
    (ga_entry_group_add_service_strlist (ga_entry_group_new (fun _ => none))
      "a b" "_http._tcp" 80 [])
    "a_b" "_http._tcp" 81 []

/-- A fresh group on an empty disk with the services "a" and "b" of type
`_http._tcp`. -/
def two_service_world : World :=
  ga_entry_group_add_service_strlist
    (ga_entry_group_add_service_strlist (ga_entry_group_new (fun _ => none))
      "a" "_http._tcp" 80 [])
    "b" "_http._tcp" 81 []

/-- An environment in which the write of the second service visited fails
and every `unlink` succeeds. -/
def second_write_fails_env : Env :=
  { dir_ok := true, write_ok := fun k => k == 0, unlink_ok := fun _ => true }

/-- An environment in which the write of the second service visited fails
and every `unlink` fails as well (say, the file system turned read-only). -/
def read_only_after_first_env : Env :=
  { dir_ok := true, write_ok := fun k => k == 0, unlink_ok := fun _ => false }

/-- The calls of the freeze scenario: a service "a" is registered and
committed, then frozen, then given the TXT entry `k=v`. -/
def frozen_set_ops : List GroupOp :=
  [ .add_service (-1) GA_PROTOCOL_UNSPEC 0 "a" "_http._tcp" none none 80 [],
    .commit all_ok_env, .freeze 0, .set 0 "k" (some "v") ]

/-- The calls of the rollback scenario: the services "a" and "b" are
registered and committed while the file system turns read-only after the
first write. -/
def failed_rollback_ops : List GroupOp :=
  [ .add_service (-1) GA_PROTOCOL_UNSPEC 0 "a" "_http._tcp" none none 80 [],
    .add_service (-1) GA_PROTOCOL_UNSPEC 0 "b" "_http._tcp" none none 81 [],
    .commit read_only_after_first_env ]

/-- The calls of a publishing session: two services are registered and
committed, then a third one is registered. -/
def publish_session_ops : List GroupOp :=
  [ .add_service (-1) GA_PROTOCOL_UNSPEC 0 "a" "_http._tcp" none none 80 [],
    .add_service (-1) GA_PROTOCOL_UNSPEC 0 "b" "_http._tcp" none none 81 [],
    .commit all_ok_env,
    .add_service (-1) GA_PROTOCOL_UNSPEC 0 "c" "_http._tcp" none none 82 [] ]

/-- An environment in which every `unlink` fails. -/
def unlink_fails_env : Env :=
  { dir_ok := true, write_ok := fun _ => true, unlink_ok := fun _ => false }

/-- The calls of the failed-reset scenario: the service "a" is registered
and committed, the group is reset while the `unlink` fails, and "a" is
registered again. -/
def failed_reset_ops : List GroupOp :=
  [ .add_service (-1) GA_PROTOCOL_UNSPEC 0 "a" "_http._tcp" none none 80 [],
    .commit all_ok_env, .reset unlink_fails_env,
    .add_service (-1) GA_PROTOCOL_UNSPEC 0 "a" "_http._tcp" none none 80 [] ]

/-- The calls of the late-collision scenario: the service "a b" is
registered and committed, then "a_b" is registered. -/
def late_collision_ops : List GroupOp :=
  [ .add_service (-1) GA_PROTOCOL_UNSPEC 0 "a b" "_http._tcp" none none 80 [],
    .commit all_ok_env,
    .add_service (-1) GA_PROTOCOL_UNSPEC 0 "a_b" "_http._tcp" none none 81 [] ]

/-- A subscription for the type `_http._tcp`. -/
def http_browser : GaServiceBrowser :=
  { client := true, link := some 1, varlink_fd := 3, varlink_source := some 1,
    interface := -1, protocol := GA_PROTOCOL_UNSPEC, type := some "_http._tcp",
    domain := none, flags := 0, dispose_has_run := false, initial_snapshot_done := false,
    events := [], requests := [] }

/-- A batch entry: the service "Printer" of type `_ipp._tcp` was added. -/
def ipp_added_entry : JsonVariant :=
  .object [("updateFlag", .string "added"), ("name", .string "Printer"),
    ("type", .string "_ipp._tcp"), ("domain", .string "local"), ("ifindex", .number 2)]

/-- A batch entry: the service "Web" of type `_http._tcp` was added. -/
def http_added_entry : JsonVariant :=
  .object [("updateFlag", .string "added"), ("name", .string "Web"),
    ("type", .string "_http._tcp"), ("domain", .string "local"), ("ifindex", .number 2)]

/-- A record browser for the TXT records of `printer.local`, not attached. -/
def txt_record_browser : GaRecordBrowser :=
  { client := false, link := none, varlink_fd := 0, varlink_source := none,
    interface := -1, protocol := GA_PROTOCOL_UNSPEC, name := some "printer.local",
    clazz := 1, type := 16, flags := 0, dispose_has_run := false, events := [] }

/-- A reply with two records that carry rdata and one that does not. -/
def two_record_reply : JsonVariant :=
  .object [("rrs", .array
    [.object [("rdata", .array [.number 3, .number 97, .number 61, .number 98])],
     .object [("ifindex", .number 2)],
     .object [("rdata", .array [.number 0])]])]

/-- A record query in which everything succeeds, answered by
`two_record_reply`. -/
def record_ok_env : RecordEnv :=
  { connect_r := 0, link := 1, build_r := 0, call_r := 0, error_id := none,
    reply := some two_record_reply }

/-- A record query whose call reports the error id
`io.systemd.Resolve.NoSuchResourceRecord`. -/
def record_error_env : RecordEnv :=
  { connect_r := 0, link := 1, build_r := 0, call_r := 0,
    error_id := some "io.systemd.Resolve.NoSuchResourceRecord",
    reply := some two_record_reply }

/-- A resolver for the service "Web" of type `_http._tcp`, as created. -/
def web_resolver : GaServiceResolver :=
  ga_service_resolver_new (-1) GA_PROTOCOL_UNSPEC (some "Web") (some "_http._tcp") none
    GA_PROTOCOL_UNSPEC 0

/-- A resolve in which everything succeeds and the reply has no services
array, only TXT data. -/
def no_services_env : ResolveEnv :=
  { connect_r := 0, build_r := 0, call_r := 0, error_id := none,
    reply := some (.object [("txt", .array [.string "path=/"])]) }

/-- A resolve in which everything succeeds and the reply is
`dual_stack_reply`. -/
def dual_stack_env : ResolveEnv :=
  { connect_r := 0, build_r := 0, call_r := 0, error_id := none,
    reply := some (.object [("services", .array dual_stack_reply)]) }

/-- A resolve whose call reports the error id
`io.systemd.Resolve.ServiceNotFound`. -/
def not_found_env : ResolveEnv :=
  { connect_r := 0, build_r := 0, call_r := 0,
    error_id := some "io.systemd.Resolve.ServiceNotFound", reply := none }

/-! ## The resolver: the loops of `extract_address_from_services` -/

theorem addr_step_eq_update (st : ExtractState) (a : JsonVariant) :
    addr_step st a = addr_update st a := by
  cases a with
  | object fields =>
    simp only [addr_step, addr_update, is_candidate, entry_address, sd_json_variant_is_object]
    cases hf : sd_json_variant_by_key (.object fields) "family" with
    | none => simp
    | some fv =>
      cases ha : sd_json_variant_by_key (.object fields) "address" with
      | none => cases fv <;> simp
      | some av =>
        cases fv <;> cases av <;>
          simp [sd_json_variant_is_integer, sd_json_variant_is_array, sd_json_variant_integer,
            sd_json_variant_elements, array_elements, AF_INET, AF_INET6]
        rename_i i xs
        by_cases hr : -9223372036854775808 ≤ i ∧ i < 9223372036854775808
        · have h1 : ¬ (i < -9223372036854775808 ∨ 9223372036854775808 ≤ i) := by omega
          simp [hr, h1]
        · have h1 : (i < -9223372036854775808 ∨ 9223372036854775808 ≤ i) := by omega
          simp [hr, h1]
  | _ => simp [addr_step, addr_update, is_candidate, sd_json_variant_is_object]

theorem srv_step_eq (st : ExtractState) (srv : JsonVariant) :
    srv_step st srv = (service_addresses srv).foldl addr_step (port_update st srv) := by
  cases srv with
  | object fields =>
    have hp : (match sd_json_variant_by_key (.object fields) "port" with
        | some port_v =>
            if sd_json_variant_is_unsigned port_v then
              { st with port := sd_json_variant_unsigned port_v % 65536 }
            else st
        | none => st) = port_update st (.object fields) := by
      simp only [port_update, service_port]
      cases hq : sd_json_variant_by_key (.object fields) "port" with
      | none => rfl
      | some pv =>
        cases pv <;> simp [sd_json_variant_is_unsigned, sd_json_variant_unsigned]
        rename_i i
        by_cases hr : 0 ≤ i ∧ i < 18446744073709551616
        · simp [hr]
        · have h1 : ¬ (0 ≤ i ∧ i < 18446744073709551616) := hr
          simp only [h1]
          simp
    simp only [srv_step, sd_json_variant_is_object, service_addresses]
    simp only [hp]
    cases ha : sd_json_variant_by_key (.object fields) "addresses" with
    | none => simp
    | some av => cases av <;> simp [sd_json_variant_is_array, array_elements]
  | _ => simp [srv_step, service_addresses, port_update, service_port, sd_json_variant_is_object]

theorem foldl_addr_step_port (as : List JsonVariant) (st : ExtractState) :
    (as.foldl addr_step st).port = st.port := by
  induction as generalizing st with
  | nil => rfl
  | cons a as ih =>
    rw [List.foldl_cons, ih, addr_step_eq_update]
    unfold addr_update
    split_ifs <;> rfl

theorem foldl_addr_step_have_ipv4 (as : List JsonVariant) (st : ExtractState) :
    (as.foldl addr_step st).have_ipv4
      = (st.have_ipv4 || as.any (is_candidate AF_INET 4)) := by
  induction as generalizing st with
  | nil => simp
  | cons a as ih =>
    rw [List.foldl_cons, ih, addr_step_eq_update]
    unfold addr_update
    split_ifs with h1 h2 <;> simp [h1, Bool.or_assoc]

theorem is_candidate_exclusive (a : JsonVariant) (h : is_candidate AF_INET 4 a = true) :
    is_candidate AF_INET6 16 a = false := by
  cases a with
  | object fields =>
    simp only [is_candidate] at h ⊢
    cases hf : sd_json_variant_by_key (.object fields) "family" with
    | none => simp
    | some fv =>
      cases ha : sd_json_variant_by_key (.object fields) "address" with
      | none => cases fv <;> simp
      | some av =>
        rw [hf, ha] at h
        cases fv <;> cases av <;> simp_all [AF_INET, AF_INET6]
  | _ => simp [is_candidate]

theorem foldl_addr_step_have_ipv6 (as : List JsonVariant) (st : ExtractState) :
    (as.foldl addr_step st).have_ipv6
      = (st.have_ipv6 || as.any (is_candidate AF_INET6 16)) := by
  induction as generalizing st with
  | nil => simp
  | cons a as ih =>
    rw [List.foldl_cons, ih, addr_step_eq_update]
    unfold addr_update
    by_cases h1 : is_candidate AF_INET 4 a = true
    · simp [h1, is_candidate_exclusive a h1]
    · by_cases h2 : is_candidate AF_INET6 16 a = true
      · simp [h1, h2]
      · simp [h1, h2]

theorem foldl_addr_step_ipv4_addr (as : List JsonVariant) (st : ExtractState) :
    (as.foldl addr_step st).ipv4_addr
      = (as.filter (is_candidate AF_INET 4)).foldl store_candidate st.ipv4_addr := by
  induction as generalizing st with
  | nil => simp
  | cons a as ih =>
    rw [List.foldl_cons, ih, addr_step_eq_update]
    unfold addr_update
    by_cases h1 : is_candidate AF_INET 4 a = true
    · simp [h1, store_candidate]
    · by_cases h2 : is_candidate AF_INET6 16 a = true
      · simp [h1, h2]
      · simp [h1, h2]

theorem foldl_addr_step_ipv6_addr (as : List JsonVariant) (st : ExtractState) :
    (as.foldl addr_step st).ipv6_addr
      = (as.filter (is_candidate AF_INET6 16)).foldl store_candidate st.ipv6_addr := by
  induction as generalizing st with
  | nil => simp
  | cons a as ih =>
    rw [List.foldl_cons, ih, addr_step_eq_update]
    unfold addr_update
    by_cases h1 : is_candidate AF_INET 4 a = true
    · simp [h1, is_candidate_exclusive a h1]
    · by_cases h2 : is_candidate AF_INET6 16 a = true
      · simp [h1, h2, store_candidate]
      · simp [h1, h2]

theorem port_update_fields (st : ExtractState) (srv : JsonVariant) :
    (port_update st srv).have_ipv4 = st.have_ipv4 ∧
    (port_update st srv).have_ipv6 = st.have_ipv6 ∧
    (port_update st srv).ipv4_addr = st.ipv4_addr ∧
    (port_update st srv).ipv6_addr = st.ipv6_addr ∧
    (port_update st srv).port = (service_port srv).getD st.port := by
  unfold port_update
  cases service_port srv <;> simp

theorem foldl_srv_step_have_ipv4 (xs : List JsonVariant) (st : ExtractState) :
    (xs.foldl srv_step st).have_ipv4
      = (st.have_ipv4 || (address_entries xs).any (is_candidate AF_INET 4)) := by
  induction xs generalizing st with
  | nil => simp [address_entries]
  | cons x xs ih =>
    rw [List.foldl_cons, ih, srv_step_eq, foldl_addr_step_have_ipv4,
      (port_update_fields st x).1]
    simp [address_entries, List.any_append, Bool.or_assoc]

theorem foldl_srv_step_have_ipv6 (xs : List JsonVariant) (st : ExtractState) :
    (xs.foldl srv_step st).have_ipv6
      = (st.have_ipv6 || (address_entries xs).any (is_candidate AF_INET6 16)) := by
  induction xs generalizing st with
  | nil => simp [address_entries]
  | cons x xs ih =>
    rw [List.foldl_cons, ih, srv_step_eq, foldl_addr_step_have_ipv6,
      (port_update_fields st x).2.1]
    simp [address_entries, List.any_append, Bool.or_assoc]

theorem foldl_srv_step_ipv4_addr (xs : List JsonVariant) (st : ExtractState) :
    (xs.foldl srv_step st).ipv4_addr
      = (ipv4_candidates xs).foldl store_candidate st.ipv4_addr := by
  induction xs generalizing st with
  | nil => simp [ipv4_candidates, address_entries]
  | cons x xs ih =>
    rw [List.foldl_cons, ih, srv_step_eq, foldl_addr_step_ipv4_addr,
      (port_update_fields st x).2.2.1]
    simp [ipv4_candidates, address_entries, List.filter_append, List.foldl_append]

theorem foldl_srv_step_ipv6_addr (xs : List JsonVariant) (st : ExtractState) :
    (xs.foldl srv_step st).ipv6_addr
      = (ipv6_candidates xs).foldl store_candidate st.ipv6_addr := by
  induction xs generalizing st with
  | nil => simp [ipv6_candidates, address_entries]
  | cons x xs ih =>
    rw [List.foldl_cons, ih, srv_step_eq, foldl_addr_step_ipv6_addr,
      (port_update_fields st x).2.2.2.1]
    simp [ipv6_candidates, address_entries, List.filter_append, List.foldl_append]

theorem getLast?_cons_getD {α : Type} (p d : α) (l : List α) :
    ((p :: l).getLast?).getD d = (l.getLast?).getD p := by
  cases l with
  | nil => simp
  | cons a l =>
    rw [List.getLast?_cons_cons, List.getLast?_eq_getLast (a :: l) (by simp)]
    simp

theorem foldl_srv_step_port (xs : List JsonVariant) (st : ExtractState) :
    (xs.foldl srv_step st).port
      = ((xs.filterMap service_port).getLast?).getD st.port := by
  induction xs generalizing st with
  | nil => simp
  | cons x xs ih =>
    rw [List.foldl_cons, ih, srv_step_eq, foldl_addr_step_port,
      (port_update_fields st x).2.2.2.2]
    cases hx : service_port x with
    | none => simp [List.filterMap_cons, hx]
    | some p =>
      simp only [List.filterMap_cons, hx, Option.getD_some, getLast?_cons_getD]

theorem any_eq_filter_ne_nil {α : Type} (p : α → Bool) (l : List α) :
    l.any p = true ↔ l.filter p ≠ [] := by
  induction l with
  | nil => simp
  | cons a l ih =>
    by_cases h : p a = true
    · simp [h]
    · simp [h, ← ih]

/-- The state after the loops, in terms of the candidates of the reply. -/
theorem foldl_srv_step_init (services : List JsonVariant) :
    services.foldl srv_step extract_init =
      { ipv4_addr := (ipv4_candidates services).foldl store_candidate (List.replicate 16 0),
        ipv6_addr := (ipv6_candidates services).foldl store_candidate (List.replicate 16 0),
        have_ipv4 := (address_entries services).any (is_candidate AF_INET 4),
        have_ipv6 := (address_entries services).any (is_candidate AF_INET6 16),
        port := ((services.filterMap service_port).getLast?).getD 0 } := by
  have h1 := foldl_srv_step_have_ipv4 services extract_init
  have h2 := foldl_srv_step_have_ipv6 services extract_init
  have h3 := foldl_srv_step_ipv4_addr services extract_init
  have h4 := foldl_srv_step_ipv6_addr services extract_init
  have h5 := foldl_srv_step_port services extract_init
  generalize services.foldl srv_step extract_init = st at *
  cases st
  simp_all [extract_init]

theorem have_ipv4_iff (services : List JsonVariant) :
    (services.foldl srv_step extract_init).have_ipv4 = true ↔ ipv4_candidates services ≠ [] := by
  rw [foldl_srv_step_init]
  exact any_eq_filter_ne_nil _ _

theorem have_ipv6_iff (services : List JsonVariant) :
    (services.foldl srv_step extract_init).have_ipv6 = true ↔ ipv6_candidates services ≠ [] := by
  rw [foldl_srv_step_init]
  exact any_eq_filter_ne_nil _ _

theorem extract_array_eq (services : List JsonVariant) (preferred_proto : Int) :
    extract_address_from_services (some (.array services)) preferred_proto
      = select_address (services.foldl srv_step extract_init) preferred_proto := by
  simp [extract_address_from_services, sd_json_variant_is_array, array_elements]

/-! ## The resolver: address and port selection -/

/-- C1: a services array with at least one well-formed IPv4 candidate and at
least one well-formed IPv6 candidate, and a requested family INET or INET6:
`extract_address_from_services` succeeds and the proto tag of the returned
address is the requested family. -/
theorem extract_address_requested_family (services : List JsonVariant) (preferred_proto : Int)
    (h4 : ipv4_candidates services ≠ []) (h6 : ipv6_candidates services ≠ [])
    (hp : preferred_proto = GA_PROTOCOL_INET ∨ preferred_proto = GA_PROTOCOL_INET6) :
    ∃ addr port,
      extract_address_from_services (some (.array services)) preferred_proto = some (addr, port)
        ∧ addr.proto = preferred_proto := by
  rw [extract_array_eq]
  have e4 := (have_ipv4_iff services).mpr h4
  have e6 := (have_ipv6_iff services).mpr h6
  rcases hp with hp | hp
  · subst hp
    exact ⟨⟨GA_PROTOCOL_INET, (services.foldl srv_step extract_init).ipv4_addr⟩,
      (services.foldl srv_step extract_init).port, by simp [select_address, e4], rfl⟩
  · subst hp
    exact ⟨⟨GA_PROTOCOL_INET6, (services.foldl srv_step extract_init).ipv6_addr⟩,
      (services.foldl srv_step extract_init).port,
      by simp [select_address, e6, GA_PROTOCOL_INET, GA_PROTOCOL_INET6], rfl⟩

theorem extract_address_requested_family_witness :
    ∃ addr port,
      extract_address_from_services (some (.array dual_stack_reply)) GA_PROTOCOL_INET6
          = some (addr, port)
        ∧ addr.proto = GA_PROTOCOL_INET6 :=
  extract_address_requested_family dual_stack_reply GA_PROTOCOL_INET6
    (List.ne_nil_of_length_pos (by decide)) (List.ne_nil_of_length_pos (by decide)) (Or.inr rfl)

theorem store_bytes_length (buf : List Nat) (elems : List JsonVariant)
    (h : elems.length ≤ buf.length) : (store_bytes buf elems).length = buf.length := by
  induction elems generalizing buf with
  | nil => cases buf <;> simp [store_bytes]
  | cons b elems ih =>
    cases buf with
    | nil => simp at h
    | cons old buf =>
      simp only [store_bytes, List.length_cons]
      rw [ih buf (by simpa using h)]

theorem store_bytes_take (buf : List Nat) (elems : List JsonVariant)
    (h : elems.length ≤ buf.length)
    (hu : ∀ b ∈ elems, sd_json_variant_is_unsigned b = true) :
    (store_bytes buf elems).take elems.length
      = elems.map (fun b => sd_json_variant_unsigned b % 256) := by
  induction elems generalizing buf with
  | nil => simp
  | cons b elems ih =>
    cases buf with
    | nil => simp at h
    | cons old buf =>
      have hb : sd_json_variant_is_unsigned b = true := hu b (by simp)
      simp only [store_bytes, hb, if_true, List.length_cons, List.take_succ_cons, List.map_cons]
      rw [ih buf (by simpa using h) (fun x hx => hu x (by simp [hx]))]

theorem is_candidate_length (af : Int) (n : Nat) (c : JsonVariant)
    (h : is_candidate af n c = true) : (entry_address c).length = n := by
  cases c with
  | object fields =>
    simp only [is_candidate] at h
    simp only [entry_address]
    cases hf : sd_json_variant_by_key (.object fields) "family" with
    | none => simp [hf] at h
    | some fv =>
      cases ha : sd_json_variant_by_key (.object fields) "address" with
      | none => rw [hf, ha] at h; cases fv <;> simp at h
      | some av =>
        rw [hf, ha] at h
        cases fv <;> cases av <;> simp_all
  | _ => simp [is_candidate] at h

theorem foldl_store_candidate_length (n : Nat) (cs : List JsonVariant) (buf : List Nat)
    (hn : n ≤ buf.length) (hc : ∀ c ∈ cs, (entry_address c).length = n) :
    (cs.foldl store_candidate buf).length = buf.length := by
  induction cs generalizing buf with
  | nil => rfl
  | cons c cs ih =>
    have h1 : (store_candidate buf c).length = buf.length :=
      store_bytes_length buf _ (by rw [hc c (by simp)]; exact hn)
    rw [List.foldl_cons, ih (store_candidate buf c) (by rw [h1]; exact hn)
      (fun x hx => hc x (by simp [hx])), h1]

/-- After the candidates `cs` have been stored in order, the first `n`
octets of the buffer are those of the last candidate, when all its address
elements are unsigned numbers. -/
theorem foldl_store_candidate_last (n : Nat) (cs : List JsonVariant) (last : JsonVariant)
    (hn : n ≤ 16) (hc : ∀ c ∈ cs, (entry_address c).length = n)
    (hl : cs.getLast? = some last)
    (hu : ∀ b ∈ entry_address last, sd_json_variant_is_unsigned b = true) :
    (cs.foldl store_candidate (List.replicate 16 0)).take n = candidate_octets last := by
  obtain ⟨front, rfl⟩ : ∃ front, cs = front ++ [last] := by
    have hne : cs ≠ [] := by intro h; rw [h] at hl; simp at hl
    refine ⟨cs.dropLast, ?_⟩
    have h1 := List.dropLast_append_getLast hne
    rw [List.getLast?_eq_getLast cs hne] at hl
    rw [← Option.some.inj hl]
    exact h1.symm
  have hlen : (entry_address last).length = n := hc last (by simp)
  have hfront : (front.foldl store_candidate (List.replicate 16 0)).length = 16 := by
    rw [foldl_store_candidate_length n front _ (by simpa using hn)
      (fun x hx => hc x (by simp [hx]))]
    simp
  rw [List.foldl_append, List.foldl_cons, List.foldl_nil]
  have key := store_bytes_take (front.foldl store_candidate (List.replicate 16 0))
    (entry_address last) (by rw [hfront, hlen]; exact hn) hu
  rw [hlen] at key
  exact key

/-- C2 (as stated, refuted): in a reply with the IPv4 candidates
`[192, 0, 2, 1]` and `[10, null, -5, "x"]` and no requested family, the call
succeeds with the IPv4 address `10.0.2.1`, which is the address of no
candidate of the reply: the elements of the last candidate that are no
unsigned numbers left the octets of the one before in place. -/
theorem extract_address_blends_candidates :
    (extract_address_from_services (some (.array blended_ipv4_reply)) GA_PROTOCOL_UNSPEC).map
        (fun r => (r.1.proto, r.1.octets)) = some (GA_PROTOCOL_INET, [10, 0, 2, 1])
      ∧ (ipv4_candidates blended_ipv4_reply).map candidate_octets
          = [[192, 0, 2, 1], [10, 0, 0, 0]]
      ∧ [10, 0, 2, 1] ∉ (ipv4_candidates blended_ipv4_reply).map candidate_octets := by
  decide

/-- C2 (amended): when no well-formed candidate of the requested family
exists, or the requested family is neither INET nor INET6 (unspecified),
`extract_address_from_services` returns an IPv4 address (tag INET) if an
IPv4 candidate exists, otherwise an IPv6 address if an IPv6 candidate
exists, and fails exactly when there is no well-formed candidate of either
family; the address returned is a candidate of that family, the last one in
response order, provided the address elements of that candidate are all
unsigned numbers (in general its octets are those stored from the
candidates of that family in order). -/
theorem extract_address_fallback (services : List JsonVariant) (preferred_proto : Int)
    (h : (preferred_proto = GA_PROTOCOL_INET ∧ ipv4_candidates services = []) ∨
         (preferred_proto = GA_PROTOCOL_INET6 ∧ ipv6_candidates services = []) ∨
         (preferred_proto ≠ GA_PROTOCOL_INET ∧ preferred_proto ≠ GA_PROTOCOL_INET6)) :
    (ipv4_candidates services ≠ [] →
      ∃ addr port,
        extract_address_from_services (some (.array services)) preferred_proto
            = some (addr, port)
          ∧ addr.proto = GA_PROTOCOL_INET
          ∧ addr.data = (ipv4_candidates services).foldl store_candidate (List.replicate 16 0)
          ∧ ∀ last, (ipv4_candidates services).getLast? = some last →
              (∀ b ∈ entry_address last, sd_json_variant_is_unsigned b = true) →
              addr.octets = candidate_octets last) ∧
    (ipv4_candidates services = [] → ipv6_candidates services ≠ [] →
      ∃ addr port,
        extract_address_from_services (some (.array services)) preferred_proto
            = some (addr, port)
          ∧ addr.proto = GA_PROTOCOL_INET6
          ∧ addr.data = (ipv6_candidates services).foldl store_candidate (List.replicate 16 0)
          ∧ ∀ last, (ipv6_candidates services).getLast? = some last →
              (∀ b ∈ entry_address last, sd_json_variant_is_unsigned b = true) →
              addr.octets = candidate_octets last) ∧
    (extract_address_from_services (some (.array services)) preferred_proto = none
      ↔ ipv4_candidates services = [] ∧ ipv6_candidates services = []) := by
  rw [extract_array_eq]
  have i4 := have_ipv4_iff services
  have i6 := have_ipv6_iff services
  have d4 := foldl_srv_step_ipv4_addr services extract_init
  have d6 := foldl_srv_step_ipv6_addr services extract_init
  have c4 : (services.foldl srv_step extract_init).have_ipv4 = false
      ↔ ipv4_candidates services = [] := by
    rw [← not_iff_not, Bool.not_eq_false]; exact i4
  have c6 : (services.foldl srv_step extract_init).have_ipv6 = false
      ↔ ipv6_candidates services = [] := by
    rw [← not_iff_not, Bool.not_eq_false]; exact i6
  have k4 : ∀ c ∈ ipv4_candidates services, (entry_address c).length = 4 := fun c hc =>
    is_candidate_length AF_INET 4 c (List.mem_filter.mp hc).2
  have k6 : ∀ c ∈ ipv6_candidates services, (entry_address c).length = 16 := fun c hc =>
    is_candidate_length AF_INET6 16 c (List.mem_filter.mp hc).2
  generalize services.foldl srv_step extract_init = st at *
  simp only [extract_init] at d4 d6
  refine ⟨fun h4 => ?_, fun h4 h6 => ?_, ?_⟩
  · have e4 := i4.mpr h4
    refine ⟨⟨GA_PROTOCOL_INET, st.ipv4_addr⟩, st.port, ?_, rfl, d4, ?_⟩
    · rcases h with ⟨_, h0⟩ | ⟨hp, h0⟩ | ⟨hp1, hp2⟩
      · exact absurd h0 h4
      · have e6 := c6.mpr h0
        simp [select_address, e4, e6]
      · simp [select_address, e4, hp1, hp2]
    · intro last hl hu
      simp only [GaAddress.octets, if_true]
      rw [d4]
      exact foldl_store_candidate_last 4 _ last (by decide) k4 hl hu
  · have e4 := c4.mpr h4
    have e6 := i6.mpr h6
    refine ⟨⟨GA_PROTOCOL_INET6, st.ipv6_addr⟩, st.port, ?_, rfl, d6, ?_⟩
    · simp [select_address, e4, e6]
    · intro last hl hu
      have hne : ¬ (GA_PROTOCOL_INET6 = GA_PROTOCOL_INET) := by decide
      simp only [GaAddress.octets, hne, if_false]
      rw [d6]
      exact foldl_store_candidate_last 16 _ last (by decide) k6 hl hu
  · rw [← c4, ← c6]
    unfold select_address
    cases h4 : st.have_ipv4 <;> cases h6 : st.have_ipv6 <;> simp
    split_ifs <;> simp

theorem extract_address_fallback_witness :
    ∃ addr port,
      extract_address_from_services (some (.array ipv6_only_reply)) GA_PROTOCOL_INET
          = some (addr, port)
        ∧ addr.proto = GA_PROTOCOL_INET6
        ∧ addr.data
            = (ipv6_candidates ipv6_only_reply).foldl store_candidate (List.replicate 16 0)
        ∧ ∀ last, (ipv6_candidates ipv6_only_reply).getLast? = some last →
            (∀ b ∈ entry_address last, sd_json_variant_is_unsigned b = true) →
            addr.octets = candidate_octets last :=
  (extract_address_fallback ipv6_only_reply GA_PROTOCOL_INET
      (Or.inl ⟨rfl, List.eq_nil_of_length_eq_zero (by decide)⟩)).2.1
    (List.eq_nil_of_length_eq_zero (by decide)) (List.ne_nil_of_length_pos (by decide))

/-- C3 (as stated, refuted): on a reply with two well-formed IPv4 candidates
`192.0.2.1` then `198.51.100.7`, the call succeeds with an IPv4 address, the
first IPv4 candidate in response order is `192.0.2.1`, and the returned
address is `198.51.100.7`, not the first candidate. -/
theorem extract_address_not_first_candidate :
    (extract_address_from_services (some (.array two_ipv4_reply)) GA_PROTOCOL_INET).map
        (fun r => (r.1.proto, r.1.octets)) = some (GA_PROTOCOL_INET, [198, 51, 100, 7])
      ∧ (ipv4_candidates two_ipv4_reply).length = 2
      ∧ (ipv4_candidates two_ipv4_reply).head?.map candidate_octets = some [192, 0, 2, 1]
      ∧ (extract_address_from_services (some (.array two_ipv4_reply)) GA_PROTOCOL_INET).map
          (fun r => r.1.octets)
        ≠ (ipv4_candidates two_ipv4_reply).head?.map candidate_octets := by
  decide

/-- C3 (amended): when `extract_address_from_services` succeeds, the address
it returns is the last well-formed candidate of the winning family in
response order (its address elements cast to octets), provided the address
elements of that candidate are all unsigned numbers. -/
theorem extract_address_last_candidate (services : List JsonVariant) (preferred_proto : Int)
    (addr : GaAddress) (port : Nat) (last : JsonVariant)
    (h : extract_address_from_services (some (.array services)) preferred_proto
      = some (addr, port))
    (hl : (family_candidates services addr.proto).getLast? = some last)
    (hu : ∀ b ∈ entry_address last, sd_json_variant_is_unsigned b = true) :
    addr.octets = candidate_octets last := by
  rw [extract_array_eq, foldl_srv_step_init] at h
  have k4 : ∀ c ∈ ipv4_candidates services, (entry_address c).length = 4 := fun c hc =>
    is_candidate_length AF_INET 4 c (List.mem_filter.mp hc).2
  have k6 : ∀ c ∈ ipv6_candidates services, (entry_address c).length = 16 := fun c hc =>
    is_candidate_length AF_INET6 16 c (List.mem_filter.mp hc).2
  have r4 : addr = ⟨GA_PROTOCOL_INET,
      (ipv4_candidates services).foldl store_candidate (List.replicate 16 0)⟩
      → addr.octets = candidate_octets last := by
    intro e
    subst e
    simp only [family_candidates, if_true] at hl
    simp only [GaAddress.octets, if_true]
    exact foldl_store_candidate_last 4 _ last (by decide) k4 hl hu
  have r6 : addr = ⟨GA_PROTOCOL_INET6,
      (ipv6_candidates services).foldl store_candidate (List.replicate 16 0)⟩
      → addr.octets = candidate_octets last := by
    intro e
    subst e
    have hne : ¬ (GA_PROTOCOL_INET6 = GA_PROTOCOL_INET) := by decide
    simp only [family_candidates, hne, if_false] at hl
    simp only [GaAddress.octets, hne, if_false]
    exact foldl_store_candidate_last 16 _ last (by decide) k6 hl hu
  unfold select_address at h
  split_ifs at h
  · exact r4 (Prod.mk.inj (Option.some.inj h)).1.symm
  · exact r6 (Prod.mk.inj (Option.some.inj h)).1.symm
  · exact r4 (Prod.mk.inj (Option.some.inj h)).1.symm
  · exact r6 (Prod.mk.inj (Option.some.inj h)).1.symm

theorem extract_address_last_candidate_witness :
    (⟨GA_PROTOCOL_INET, [198, 51, 100, 7, 0, 0, 0, 0, 0, 0, 0, 0, 0, 0, 0, 0]⟩ : GaAddress).octets
      = candidate_octets (.object [("family", .number 2),
          ("address", .array [.number 198, .number 51, .number 100, .number 7])]) :=
  extract_address_last_candidate two_ipv4_reply GA_PROTOCOL_INET
    ⟨GA_PROTOCOL_INET, [198, 51, 100, 7, 0, 0, 0, 0, 0, 0, 0, 0, 0, 0, 0, 0]⟩ 80
    (.object [("family", .number 2),
      ("address", .array [.number 198, .number 51, .number 100, .number 7])])
    (by decide) rfl (by decide)

/-- C4 (as stated, refuted): in a reply whose only service entry with an
address candidate carries port 80 and whose later, address-less service
entry carries port 443, the call succeeds with the address of the first
entry and returns port 443. -/
theorem extract_port_not_of_selected_entry :
    extract_address_from_services (some (.array two_port_reply)) GA_PROTOCOL_INET
        = some (⟨GA_PROTOCOL_INET, [192, 0, 2, 1, 0, 0, 0, 0, 0, 0, 0, 0, 0, 0, 0, 0]⟩, 443)
      ∧ two_port_reply.map (fun s => ((service_addresses s).length, service_port s))
        = [(1, some 80), (0, some 443)] := by
  decide

/-- C4 (amended): when `extract_address_from_services` succeeds, the returned
port is the port of the last service entry of the array that carries one (an
object whose `port` is an unsigned number, cast to 16 bits), and 0 when no
entry carries one, whichever entry contains the selected address. -/
theorem extract_port_last_entry (services : List JsonVariant) (preferred_proto : Int)
    (addr : GaAddress) (port : Nat)
    (h : extract_address_from_services (some (.array services)) preferred_proto
      = some (addr, port)) :
    port = ((services.filterMap service_port).getLast?).getD 0 := by
  rw [extract_array_eq, foldl_srv_step_init] at h
  unfold select_address at h
  split_ifs at h <;> exact (Prod.mk.inj (Option.some.inj h)).2.symm

theorem extract_port_last_entry_witness :
    (443 : Nat) = ((two_port_reply.filterMap service_port).getLast?).getD 0 :=
  extract_port_last_entry two_port_reply GA_PROTOCOL_INET
    ⟨GA_PROTOCOL_INET, [192, 0, 2, 1, 0, 0, 0, 0, 0, 0, 0, 0, 0, 0, 0, 0]⟩ 443 (by decide)

/-! ## The entry group: file name and content -/

theorem g_ascii_isalnum_eq (c : Char) : g_ascii_isalnum c = c.isAlphanum := by
  simp only [g_ascii_isalnum, Char.isAlphanum, Char.isAlpha, Char.isUpper, Char.isLower,
    Char.isDigit]
  have h0 : ('0' ≤ c) = (c.val ≥ 48) := rfl
  have h9 : (c ≤ '9') = (c.val ≤ 57) := rfl
  have hA : ('A' ≤ c) = (c.val ≥ 65) := rfl
  have hZ : (c ≤ 'Z') = (c.val ≤ 90) := rfl
  have ha : ('a' ≤ c) = (c.val ≥ 97) := rfl
  have hz : (c ≤ 'z') = (c.val ≤ 122) := rfl
  simp only [h0, h9, hA, hZ, ha, hz]
  cases decide (c.val ≥ 48) <;> cases decide (c.val ≤ 57) <;> cases decide (c.val ≥ 65) <;>
    cases decide (c.val ≤ 90) <;> cases decide (c.val ≥ 97) <;> cases decide (c.val ≤ 122) <;> rfl

theorem foldl_name_step (name acc : List Char) :
    name.foldl name_step acc = acc ++ name.filterMap (fun c =>
      if c.isAlphanum || c = '-' || c = '_' then some c
      else if c = ' ' then some '_'
      else none) := by
  induction name generalizing acc with
  | nil => simp
  | cons c name ih =>
    rw [List.foldl_cons, ih, List.filterMap_cons]
    simp only [name_step, g_ascii_isalnum_eq]
    by_cases h1 : (c.isAlphanum || c = '-' || c = '_') = true
    · have h1' : (c.isAlphanum || c == '-' || c == '_') = true := by simpa using h1
      simp [h1, h1']
    · have h1' : ¬ (c.isAlphanum || c == '-' || c == '_') = true := by simpa using h1
      by_cases h2 : c = ' '
      · simp [h1, h1', h2]
      · simp [h1, h1', h2]

theorem foldl_type_step (type acc : List Char) :
    type.foldl type_step acc = acc ++ type.filterMap (fun c =>
      if c.isAlphanum || c = '-' then some c
      else if c = '.' || c = '_' then some '-'
      else none) := by
  induction type generalizing acc with
  | nil => simp
  | cons c type ih =>
    rw [List.foldl_cons, ih, List.filterMap_cons]
    simp only [type_step, g_ascii_isalnum_eq]
    by_cases h1 : (c.isAlphanum || c = '-') = true
    · have h1' : (c.isAlphanum || c == '-') = true := by simpa using h1
      simp [h1, h1']
    · have h1' : ¬ (c.isAlphanum || c == '-') = true := by simpa using h1
      by_cases h2 : (c = '.' || c = '_') = true
      · have h2' : (c == '_' || c == '.') = true := by
          simp only [Bool.or_eq_true, decide_eq_true_eq] at h2
          rcases h2 with h | h <;> simp [h]
        simp [h1, h1', h2, h2']
      · have h2' : ¬ (c == '_' || c == '.') = true := by
          simp only [Bool.or_eq_true, decide_eq_true_eq, not_or] at h2
          simp [h2.1, h2.2]
        simp [h1, h1', h2, h2']

/-- C10: `generate_dnssd_filename name type` is `S(name) ++ "-" ++ T(type) ++
".dnssd"` with `S` and `T` the sanitisations described by the specification;
("My Test Service", "_http._tcp") gives "My_Test_Service--http--tcp.dnssd";
equal inputs give equal filenames. -/
theorem generate_dnssd_filename_spec :
    (∀ name type : String,
      generate_dnssd_filename name type
        = sanitized_name name ++ "-" ++ sanitized_type type ++ ".dnssd")
    ∧ generate_dnssd_filename "My Test Service" "_http._tcp"
        = "My_Test_Service--http--tcp.dnssd"
    ∧ (∀ name name2 type type2 : String, name = name2 → type = type2 →
        generate_dnssd_filename name type = generate_dnssd_filename name2 type2) := by
  refine ⟨fun name type => ?_, by decide, fun _ _ _ _ h1 h2 => by rw [h1, h2]⟩
  apply String.ext
  simp only [generate_dnssd_filename, sanitized_name, sanitized_type, foldl_name_step,
    foldl_type_step, String.data_append, List.nil_append]

theorem foldl_txt_step (entries : List (String × Option String)) (content : String) :
    entries.foldl txt_step content = content ++ concat_lines (entries.map txt_line) := by
  induction entries generalizing content with
  | nil => simp [concat_lines]
  | cons e entries ih =>
    rw [List.foldl_cons, ih, List.map_cons, concat_lines]
    obtain ⟨key, value⟩ := e
    cases value <;> simp [txt_step, txt_line, String.append_assoc]

/-- C9: `generate_dnssd_content` returns "[Service]\n", the lines
`Name=<name>`, `Type=<type>`, `Port=<port in decimal>`, and then one TxtText
line per entry of the TXT mapping, `TxtText=<key>=<value>` or `TxtText=<key>`
for a bare key; for "My Test Service", `_http._tcp`, port 8080 and TXT
`path=/` the content consists of the lines `[Service]`,
`Name=My Test Service`, `Type=_http._tcp`, `Port=8080` and `TxtText=path=/`. -/
theorem generate_dnssd_content_spec :
    (∀ service : GaEntryGroupService,
      generate_dnssd_content service
        = "[Service]\n" ++ ("Name=" ++ service.name ++ "\n")
            ++ ("Type=" ++ service.type ++ "\n")
            ++ ("Port=" ++ Nat.repr service.port ++ "\n")
            ++ concat_lines (service.txt_entries.map txt_line))
    ∧ example_service_world.services.map generate_dnssd_content
        = ["[Service]\n" ++ "Name=My Test Service\n" ++ "Type=_http._tcp\n" ++ "Port=8080\n"
            ++ "TxtText=path=/\n"] := by
  refine ⟨fun service => ?_, by decide⟩
  unfold generate_dnssd_content
  by_cases h : service.txt_entries.length > 0
  · simp only [h, if_true, foldl_txt_step, String.append_assoc]
  · have h0 : service.txt_entries = [] := by
      cases hs : service.txt_entries with
      | nil => rfl
      | cons a l => rw [hs] at h; simp at h
    simp only [h0, List.length_nil, gt_iff_lt, lt_self_iff_false, if_false, List.map_nil,
      concat_lines, String.append_assoc, String.append_empty]

/-! ## The entry group: commit, rollback and reset -/

theorem commit_loop_ok (write_ok : Nat → Bool) (todo : List GaEntryGroupService) (k : Nat)
    (w : World) (h : ∀ i < todo.length, write_ok (k + i) = true) :
    commit_loop write_ok k todo w
      = ({ w with files := todo.foldl write_service w.files,
                  commit_writes := w.commit_writes ++ todo.map service_path,
                  created_files := w.created_files ++ todo.map service_path },
         todo.map mark_written, true) := by
  induction todo generalizing k w with
  | nil => simp [commit_loop]
  | cons s rest ih =>
    have h0 : write_ok k = true := by simpa using h 0 (by simp)
    have hr : ∀ i < rest.length, write_ok (k + 1 + i) = true := fun i hi => by
      have := h (i + 1) (by simpa using hi)
      rwa [show k + (i + 1) = k + 1 + i by omega] at this
    simp only [commit_loop, h0, if_true, ih _ _ hr]
    simp [write_service, service_path, mark_written, List.append_assoc]

theorem commit_loop_fail (write_ok : Nat → Bool) (j : Nat) (todo : List GaEntryGroupService)
    (k : Nat) (w : World) (hj : j < todo.length)
    (hb : ∀ i < j, write_ok (k + i) = true) (hf : write_ok (k + j) = false) :
    commit_loop write_ok k todo w
      = ({ w with files := (todo.take j).foldl write_service w.files,
                  commit_writes := w.commit_writes ++ (todo.take j).map service_path,
                  created_files := w.created_files ++ (todo.take j).map service_path },
         (todo.take j).map mark_written ++ todo.drop j, false) := by
  induction j generalizing todo k w with
  | zero =>
    cases todo with
    | nil => simp at hj
    | cons s rest =>
      have h0 : write_ok k = false := by simpa using hf
      simp [commit_loop, h0]
  | succ j ih =>
    cases todo with
    | nil => simp at hj
    | cons s rest =>
      have h0 : write_ok k = true := by simpa using hb 0 (by simp)
      have hb2 : ∀ i < j, write_ok (k + 1 + i) = true := fun i hi => by
        have := hb (i + 1) (by omega)
        rwa [show k + (i + 1) = k + 1 + i by omega] at this
      have hf2 : write_ok (k + 1 + j) = false := by
        rwa [show k + (j + 1) = k + 1 + j by omega] at hf
      simp only [commit_loop, h0, if_true, ih rest (k + 1) _ (by simpa using hj) hb2 hf2]
      simp [write_service, service_path, mark_written, List.append_assoc]

theorem commit_loop_success (write_ok : Nat → Bool) (todo : List GaEntryGroupService)
    (k : Nat) (w : World) :
    (commit_loop write_ok k todo w).2.2
      = (List.range todo.length).all (fun i => write_ok (k + i)) := by
  induction todo generalizing k w with
  | nil => simp [commit_loop]
  | cons s rest ih =>
    rw [List.length_cons, List.range_succ_eq_map, List.all_cons, List.all_map]
    by_cases h0 : write_ok k = true
    · simp only [commit_loop, h0, if_true, ih]
      simp [Function.comp_def, Nat.add_assoc, Nat.add_comm 1, h0]
    · simp [commit_loop, h0]

theorem commit_loop_frame (write_ok : Nat → Bool) (todo : List GaEntryGroupService)
    (k : Nat) (w : World) :
    (commit_loop write_ok k todo w).1.state = w.state ∧
    (commit_loop write_ok k todo w).1.signals = w.signals ∧
    (commit_loop write_ok k todo w).1.unlink_calls = w.unlink_calls ∧
    (commit_loop write_ok k todo w).1.reload_calls = w.reload_calls ∧
    (commit_loop write_ok k todo w).1.dispose_has_run = w.dispose_has_run := by
  induction todo generalizing k w with
  | nil => simp [commit_loop]
  | cons s rest ih =>
    by_cases h0 : write_ok k = true
    · simp only [commit_loop, h0, if_true]
      exact ih _ _
    · simp [commit_loop, h0]

theorem unlink_file_eq (unlink_ok : String → Bool) (w : World) (filepath : String) :
    unlink_file unlink_ok w filepath
      = { w with unlink_calls := w.unlink_calls ++ [filepath],
                 files := unlink_step unlink_ok w.files filepath } := by
  unfold unlink_file unlink_step
  cases h : w.files filepath with
  | none => simp
  | some c => by_cases ho : unlink_ok filepath = true <;> simp [ho]

theorem foldl_unlink_file (unlink_ok : String → Bool) (paths : List String) (w : World) :
    paths.foldl (unlink_file unlink_ok) w
      = { w with unlink_calls := w.unlink_calls ++ paths,
                 files := paths.foldl (unlink_step unlink_ok) w.files } := by
  induction paths generalizing w with
  | nil => simp
  | cons p paths ih =>
    rw [List.foldl_cons, ih, unlink_file_eq]
    simp

theorem cleanup_fields (unlink_ok : String → Bool) (w : World) :
    (cleanup_dnssd_files unlink_ok w).created_files = [] ∧
    (cleanup_dnssd_files unlink_ok w).files
      = w.created_files.foldl (unlink_step unlink_ok) w.files ∧
    (cleanup_dnssd_files unlink_ok w).unlink_calls = w.unlink_calls ++ w.created_files ∧
    (cleanup_dnssd_files unlink_ok w).state = w.state ∧
    (cleanup_dnssd_files unlink_ok w).signals = w.signals ∧
    (cleanup_dnssd_files unlink_ok w).services = w.services := by
  unfold cleanup_dnssd_files
  by_cases h : w.created_files.length = 0
  · have h0 : w.created_files = [] := List.eq_nil_of_length_eq_zero h
    simp [h0]
  · simp [h, foldl_unlink_file]

theorem foldl_unlink_step_apply (unlink_ok : String → Bool) (paths : List String)
    (files : FileSystem) (h : ∀ p ∈ paths, unlink_ok p = true) (q : String) :
    (paths.foldl (unlink_step unlink_ok) files) q = if q ∈ paths then none else files q := by
  induction paths generalizing files with
  | nil => simp
  | cons p paths ih =>
    rw [List.foldl_cons, ih _ (fun x hx => h x (by simp [hx]))]
    have hp : unlink_ok p = true := h p (by simp)
    by_cases hq : q ∈ paths
    · simp [hq]
    · simp only [hq, if_false, List.mem_cons, or_false]
      unfold unlink_step
      by_cases hqp : q = p
      · subst hqp
        cases hf : files q <;> simp [hf, hp, fs_remove]
      · cases hf : files p <;> simp [hp, fs_remove, hqp]

theorem foldl_write_service_not_mem (todo : List GaEntryGroupService) (files : FileSystem)
    (q : String) (h : q ∉ todo.map service_path) :
    (todo.foldl write_service files) q = files q := by
  induction todo generalizing files with
  | nil => rfl
  | cons s rest ih =>
    simp only [List.map_cons, List.mem_cons, not_or] at h
    rw [List.foldl_cons, ih _ h.2]
    simp [write_service, fs_write, h.1]

theorem foldl_write_service_mem (todo : List GaEntryGroupService) (files : FileSystem)
    (q : String) (h : q ∈ todo.map service_path) :
    ((todo.foldl write_service files) q).isSome = true := by
  induction todo generalizing files with
  | nil => simp at h
  | cons s rest ih =>
    rw [List.foldl_cons]
    by_cases hr : q ∈ rest.map service_path
    · exact ih _ hr
    · rw [foldl_write_service_not_mem rest _ q hr]
      simp only [List.map_cons, List.mem_cons] at h
      rcases h with h | h
      · simp [write_service, fs_write, h]
      · exact absurd h hr

/-- C8: `ga_entry_group_commit` emits one `state-changed` signal per
transition, each carrying the new state: first REGISTERING, then ESTABLISHED
when every write succeeds (the runtime directory is ensured and each service
file is written) and FAILURE otherwise; the final state is the last state
signalled, and the call returns success exactly when every write succeeds.
This holds from every state, in particular from UNCOMMITED. -/
theorem commit_state_events (env : Env) (w : World) :
    (ga_entry_group_commit env w).1.signals
        = w.signals ++ [GaEntryGroupState.REGISTERING,
            if commit_succeeds env w.services.length = true then GaEntryGroupState.ESTABLISHED
            else GaEntryGroupState.FAILURE]
      ∧ (ga_entry_group_commit env w).1.state
        = (if commit_succeeds env w.services.length = true then GaEntryGroupState.ESTABLISHED
            else GaEntryGroupState.FAILURE)
      ∧ ((ga_entry_group_commit env w).2 = Except.ok ()
          ↔ commit_succeeds env w.services.length = true) := by
  unfold ga_entry_group_commit commit_succeeds
  by_cases hd : env.dir_ok = true
  · have hs := commit_loop_success env.write_ok w.services 0
      (emit_state_changed { w with state := GaEntryGroupState.REGISTERING })
    have hf := commit_loop_frame env.write_ok w.services 0
      (emit_state_changed { w with state := GaEntryGroupState.REGISTERING })
    simp only [Nat.zero_add] at hs
    have hs2 : (commit_loop env.write_ok 0 w.services
        (emit_state_changed { w with state := GaEntryGroupState.REGISTERING })).2.2
        = (List.range w.services.length).all env.write_ok := hs
    simp only [hd, Bool.not_true, Bool.false_eq_true, if_false, emit_state_changed,
      Bool.true_and]
    rw [← hs2]
    cases hv : (commit_loop env.write_ok 0 w.services
        (emit_state_changed { w with state := GaEntryGroupState.REGISTERING })).2.2
    · simp only [emit_state_changed] at hv
      simp only [hv, Bool.false_eq_true, if_false, (cleanup_fields _ _).2.2.2.2.1]
      simp only [emit_state_changed] at hf
      simp [hf.2.1]
    · simp only [emit_state_changed] at hv
      simp only [hv, if_true, signal_resolved_reload]
      simp only [emit_state_changed] at hf
      simp [hf.2.1]
  · have hd' : env.dir_ok = false := by simpa using hd
    simp [hd', emit_state_changed]

theorem commit_ok_fields (env : Env) (w : World) (hdir : env.dir_ok = true)
    (hw : ∀ k < w.services.length, env.write_ok k = true) :
    (ga_entry_group_commit env w).2 = Except.ok () ∧
    (ga_entry_group_commit env w).1.state = GaEntryGroupState.ESTABLISHED ∧
    (ga_entry_group_commit env w).1.files = w.services.foldl write_service w.files ∧
    (ga_entry_group_commit env w).1.created_files
      = w.created_files ++ w.services.map service_path ∧
    (ga_entry_group_commit env w).1.services = w.services.map mark_written ∧
    (ga_entry_group_commit env w).1.unlink_calls = w.unlink_calls := by
  have hl := commit_loop_ok env.write_ok w.services 0
    (emit_state_changed { w with state := GaEntryGroupState.REGISTERING })
    (fun i hi => by simpa using hw i hi)
  simp only [emit_state_changed] at hl
  simp [ga_entry_group_commit, hdir, emit_state_changed, hl, signal_resolved_reload]

theorem commit_fail_fields (env : Env) (w : World) (k : Nat) (hdir : env.dir_ok = true)
    (hk : k < w.services.length) (hb : ∀ i < k, env.write_ok i = true)
    (hf : env.write_ok k = false) :
    (ga_entry_group_commit env w).2 = Except.error GaErrorCode.FAILURE ∧
    (ga_entry_group_commit env w).1.state = GaEntryGroupState.FAILURE ∧
    (ga_entry_group_commit env w).1.created_files = [] ∧
    (ga_entry_group_commit env w).1.files
      = (w.created_files ++ (w.services.take k).map service_path).foldl
          (unlink_step env.unlink_ok) ((w.services.take k).foldl write_service w.files) ∧
    (ga_entry_group_commit env w).1.services
      = (w.services.take k).map mark_written ++ w.services.drop k ∧
    (ga_entry_group_commit env w).1.unlink_calls
      = w.unlink_calls ++ (w.created_files ++ (w.services.take k).map service_path) := by
  have hl := commit_loop_fail env.write_ok k w.services 0
    (emit_state_changed { w with state := GaEntryGroupState.REGISTERING }) hk
    (fun i hi => by simpa using hb i hi) (by simpa using hf)
  simp only [emit_state_changed] at hl
  simp only [ga_entry_group_commit, hdir, emit_state_changed, hl, Bool.not_true,
    Bool.false_eq_true, if_false]
  refine ⟨trivial, trivial, ?_, ?_, ?_, ?_⟩
  · exact (cleanup_fields _ _).1
  · exact (cleanup_fields _ _).2.1
  · exact (cleanup_fields _ _).2.2.2.2.2
  · exact (cleanup_fields _ _).2.2.1

theorem reset_fields (env : Env) (w : World) :
    (ga_entry_group_reset env w).2 = Except.ok () ∧
    (ga_entry_group_reset env w).1.state = GaEntryGroupState.UNCOMMITED ∧
    (ga_entry_group_reset env w).1.created_files = [] ∧
    (ga_entry_group_reset env w).1.files
      = w.created_files.foldl (unlink_step env.unlink_ok) w.files ∧
    (ga_entry_group_reset env w).1.services = [] ∧
    (ga_entry_group_reset env w).1.unlink_calls = w.unlink_calls ++ w.created_files := by
  simp only [ga_entry_group_reset, emit_state_changed]
  refine ⟨trivial, trivial, ?_, ?_, trivial, ?_⟩
  · exact (cleanup_fields _ _).1
  · exact (cleanup_fields _ _).2.1
  · exact (cleanup_fields _ _).2.2.1

/-- C5 (as stated, refuted): a fresh group with the two services "a b" and
"a_b" of type `_http._tcp` commits successfully with every write succeeding,
and afterwards one artifact of the group is on disk, not two. -/
theorem commit_collision_artifact_count :
    (ga_entry_group_commit all_ok_env colliding_world).2 = Except.ok ()
      ∧ colliding_world.services.length = 2
      ∧ (artifacts_on_disk (ga_entry_group_commit all_ok_env colliding_world).1).length = 1 := by
  refine ⟨rfl, rfl, ?_⟩
  decide

/-- C5 (amended): for an entry group whose registered services have pairwise
distinct artifact paths (and whose created-artifact set holds only paths of
registered services, as in every state the operations reach), after a
`commit()` in which every write succeeds the number of on-disk artifacts
created by the group equals the number of registered services, and a
following `reset()` whose deletions succeed removes exactly that set: every
path of the set is gone, every other path is untouched, and no artifact of
the group is left. -/
theorem commit_then_reset_artifacts (env env2 : Env) (w : World)
    (hdir : env.dir_ok = true) (hw : ∀ k < w.services.length, env.write_ok k = true)
    (hnd : (w.services.map service_path).Nodup)
    (hcr : ∀ p ∈ w.created_files, p ∈ w.services.map service_path)
    (hun : ∀ p ∈ (ga_entry_group_commit env w).1.created_files, env2.unlink_ok p = true) :
    (ga_entry_group_commit env w).2 = Except.ok ()
      ∧ (artifacts_on_disk (ga_entry_group_commit env w).1).length = w.services.length
      ∧ (∀ p ∈ (ga_entry_group_commit env w).1.created_files,
          (ga_entry_group_reset env2 (ga_entry_group_commit env w).1).1.files p = none)
      ∧ (∀ p, p ∉ (ga_entry_group_commit env w).1.created_files →
          (ga_entry_group_reset env2 (ga_entry_group_commit env w).1).1.files p
            = (ga_entry_group_commit env w).1.files p)
      ∧ (ga_entry_group_reset env2 (ga_entry_group_commit env w).1).1.unlink_calls
          = (ga_entry_group_commit env w).1.unlink_calls
              ++ (ga_entry_group_commit env w).1.created_files
      ∧ (ga_entry_group_reset env2 (ga_entry_group_commit env w).1).1.created_files = [] := by
  obtain ⟨hret, -, hfiles, hcreated, -, -⟩ := commit_ok_fields env w hdir hw
  obtain ⟨-, -, rcreated, rfiles, -, runlink⟩ :=
    reset_fields env2 (ga_entry_group_commit env w).1
  refine ⟨hret, ?_, ?_, ?_, runlink, rcreated⟩
  · unfold artifacts_on_disk
    have hall : ∀ p ∈ (ga_entry_group_commit env w).1.created_files.dedup,
        (fun p => ((ga_entry_group_commit env w).1.files p).isSome) p = true := by
      intro p hp
      rw [List.mem_dedup, hcreated, List.mem_append] at hp
      have hp2 : p ∈ w.services.map service_path := hp.elim (hcr p) id
      rw [hfiles]
      exact foldl_write_service_mem _ _ _ hp2
    rw [List.filter_eq_self.mpr hall, ← List.card_toFinset, hcreated]
    have hset : (w.created_files ++ w.services.map service_path).toFinset
        = (w.services.map service_path).toFinset := by
      ext p
      simp only [List.mem_toFinset, List.mem_append]
      exact ⟨fun h => h.elim (hcr p) id, Or.inr⟩
    rw [hset, List.toFinset_card_of_nodup hnd, List.length_map]
  · intro p hp
    rw [rfiles, foldl_unlink_step_apply _ _ _ hun]
    simp [hp]
  · intro p hp
    rw [rfiles, foldl_unlink_step_apply _ _ _ hun]
    simp [hp]

theorem commit_then_reset_artifacts_witness :
    (ga_entry_group_commit all_ok_env example_service_world).2 = Except.ok ()
      ∧ (artifacts_on_disk (ga_entry_group_commit all_ok_env example_service_world).1).length
          = example_service_world.services.length
      ∧ (∀ p ∈ (ga_entry_group_commit all_ok_env example_service_world).1.created_files,
          (ga_entry_group_reset all_ok_env
            (ga_entry_group_commit all_ok_env example_service_world).1).1.files p = none)
      ∧ (∀ p, p ∉ (ga_entry_group_commit all_ok_env example_service_world).1.created_files →
          (ga_entry_group_reset all_ok_env
            (ga_entry_group_commit all_ok_env example_service_world).1).1.files p
            = (ga_entry_group_commit all_ok_env example_service_world).1.files p)
      ∧ (ga_entry_group_reset all_ok_env
            (ga_entry_group_commit all_ok_env example_service_world).1).1.unlink_calls
          = (ga_entry_group_commit all_ok_env example_service_world).1.unlink_calls
              ++ (ga_entry_group_commit all_ok_env example_service_world).1.created_files
      ∧ (ga_entry_group_reset all_ok_env
            (ga_entry_group_commit all_ok_env example_service_world).1).1.created_files = [] :=
  commit_then_reset_artifacts all_ok_env all_ok_env example_service_world rfl
    (fun _ _ => rfl) (by decide) (by decide) (fun _ _ => rfl)

/-- C6 (as stated, refuted): when the write of the second service fails and
the `unlink` of the rollback fails too, `commit()` returns failure, ends in
FAILURE with an empty created-artifact set, and the artifact written for the
first service is still on disk. -/
theorem commit_rollback_unlink_failure :
    (ga_entry_group_commit read_only_after_first_env two_service_world).2
        = Except.error GaErrorCode.FAILURE
      ∧ (ga_entry_group_commit read_only_after_first_env two_service_world).1.state
        = GaEntryGroupState.FAILURE
      ∧ (ga_entry_group_commit read_only_after_first_env two_service_world).1.created_files = []
      ∧ (ga_entry_group_commit read_only_after_first_env two_service_world).1.unlink_calls
        = ["/run/systemd/dnssd/a--http--tcp.dnssd"]
      ∧ ((ga_entry_group_commit read_only_after_first_env two_service_world).1.files
          "/run/systemd/dnssd/a--http--tcp.dnssd").isSome = true := by
  refine ⟨rfl, rfl, ?_, ?_, ?_⟩ <;> decide

/-- C6 (amended): if the runtime directory is ensured, the writes of the
services visited before the `k`-th succeed and the write of the `k`-th
fails, then `commit()` returns failure with a Failure error, marks exactly
the first `k` services as written and writes no further one, leaves the
created-artifact set empty and the group in the FAILURE state; and when the
deletions of the rollback succeed, every artifact of the created-artifact
set, those written earlier in the attempt included, is removed, every other
path is as before the call, and no artifact of the group remains. -/
theorem commit_failure_rollback (env : Env) (w : World) (k : Nat)
    (hdir : env.dir_ok = true) (hk : k < w.services.length)
    (hb : ∀ i < k, env.write_ok i = true) (hf : env.write_ok k = false)
    (hun : ∀ p ∈ w.created_files ++ (w.services.take k).map service_path,
      env.unlink_ok p = true) :
    (ga_entry_group_commit env w).2 = Except.error GaErrorCode.FAILURE
      ∧ (ga_entry_group_commit env w).1.services
          = (w.services.take k).map mark_written ++ w.services.drop k
      ∧ (∀ p ∈ w.created_files ++ (w.services.take k).map service_path,
          (ga_entry_group_commit env w).1.files p = none)
      ∧ (∀ p, p ∉ w.created_files ++ (w.services.take k).map service_path →
          (ga_entry_group_commit env w).1.files p = w.files p)
      ∧ (ga_entry_group_commit env w).1.created_files = []
      ∧ (ga_entry_group_commit env w).1.state = GaEntryGroupState.FAILURE
      ∧ artifacts_on_disk (ga_entry_group_commit env w).1 = [] := by
  obtain ⟨hret, hstate, hcreated, hfiles, hservices, -⟩ :=
    commit_fail_fields env w k hdir hk hb hf
  refine ⟨hret, hservices, ?_, ?_, hcreated, hstate, ?_⟩
  · intro p hp
    rw [hfiles, foldl_unlink_step_apply _ _ _ hun]
    simp only [hp, if_true]
  · intro p hp
    rw [hfiles, foldl_unlink_step_apply _ _ _ hun]
    simp only [hp, if_false]
    exact foldl_write_service_not_mem _ _ _ (fun h => hp (List.mem_append_right _ h))
  · simp [artifacts_on_disk, hcreated]

theorem commit_failure_rollback_witness :
    (ga_entry_group_commit second_write_fails_env two_service_world).2
        = Except.error GaErrorCode.FAILURE
      ∧ (ga_entry_group_commit second_write_fails_env two_service_world).1.services
          = (two_service_world.services.take 1).map mark_written
              ++ two_service_world.services.drop 1
      ∧ (∀ p ∈ two_service_world.created_files
            ++ (two_service_world.services.take 1).map service_path,
          (ga_entry_group_commit second_write_fails_env two_service_world).1.files p = none)
      ∧ (∀ p, p ∉ two_service_world.created_files
            ++ (two_service_world.services.take 1).map service_path →
          (ga_entry_group_commit second_write_fails_env two_service_world).1.files p
            = two_service_world.files p)
      ∧ (ga_entry_group_commit second_write_fails_env two_service_world).1.created_files = []
      ∧ (ga_entry_group_commit second_write_fails_env two_service_world).1.state
          = GaEntryGroupState.FAILURE
      ∧ artifacts_on_disk (ga_entry_group_commit second_write_fails_env two_service_world).1
          = [] :=
  commit_failure_rollback second_write_fails_env two_service_world 1 rfl (by decide)
    (by decide) rfl (fun _ _ => rfl)

/-- C7 (as stated, refuted): the services "a" and "b" are committed
successfully; a second `commit()` without a reset in between writes "a"
again and fails on "b".  The artifact of "b" was created by the earlier
successful commit and not during the failing attempt, and the rollback
deletes it (as it deletes the artifact of "a"). -/
theorem commit_rollback_deletes_earlier_commit :
    (ga_entry_group_commit all_ok_env two_service_world).2 = Except.ok ()
      ∧ (ga_entry_group_commit second_write_fails_env
            (ga_entry_group_commit all_ok_env two_service_world).1).2
          = Except.error GaErrorCode.FAILURE
      ∧ ((ga_entry_group_commit all_ok_env two_service_world).1.files
            "/run/systemd/dnssd/b--http--tcp.dnssd").isSome = true
      ∧ ((ga_entry_group_commit all_ok_env two_service_world).1.services.take 1).map
            service_path = ["/run/systemd/dnssd/a--http--tcp.dnssd"]
      ∧ (ga_entry_group_commit second_write_fails_env
            (ga_entry_group_commit all_ok_env two_service_world).1).1.files
          "/run/systemd/dnssd/b--http--tcp.dnssd" = none := by
  refine ⟨rfl, rfl, ?_, ?_, ?_⟩ <;> decide

/-- C7 (amended): if a `commit()` fails on a write after an earlier
`commit()` of the same group succeeded, with no reset in between, the
rollback deletes every artifact of the created-artifact set (its deletions
succeeding): the artifacts of the earlier successful commit, all on disk
before the failing attempt, are deleted together with those written during
the failing attempt, and the created-artifact set is left empty. -/
theorem commit_failure_deletes_earlier_artifacts (env1 env2 : Env) (w : World) (k : Nat)
    (hdir1 : env1.dir_ok = true) (hw1 : ∀ i < w.services.length, env1.write_ok i = true)
    (hdir2 : env2.dir_ok = true) (hk : k < w.services.length)
    (hb : ∀ i < k, env2.write_ok i = true) (hf : env2.write_ok k = false)
    (hun : ∀ p, env2.unlink_ok p = true) :
    (ga_entry_group_commit env1 w).2 = Except.ok ()
      ∧ (∀ s ∈ w.services,
          ((ga_entry_group_commit env1 w).1.files (service_path s)).isSome = true)
      ∧ (ga_entry_group_commit env2 (ga_entry_group_commit env1 w).1).2
          = Except.error GaErrorCode.FAILURE
      ∧ (∀ p ∈ (ga_entry_group_commit env1 w).1.created_files,
          (ga_entry_group_commit env2 (ga_entry_group_commit env1 w).1).1.files p = none)
      ∧ (∀ s ∈ w.services,
          (ga_entry_group_commit env2 (ga_entry_group_commit env1 w).1).1.files
            (service_path s) = none)
      ∧ (ga_entry_group_commit env2 (ga_entry_group_commit env1 w).1).1.created_files = [] := by
  obtain ⟨hret, -, hfiles, hcreated, hservices, -⟩ := commit_ok_fields env1 w hdir1 hw1
  have hk1 : k < (ga_entry_group_commit env1 w).1.services.length := by
    rw [hservices, List.length_map]; exact hk
  obtain ⟨fret, -, fcreated, ffiles, -, -⟩ :=
    commit_fail_fields env2 (ga_entry_group_commit env1 w).1 k hdir2 hk1 hb hf
  have hgone : ∀ p ∈ (ga_entry_group_commit env1 w).1.created_files,
      (ga_entry_group_commit env2 (ga_entry_group_commit env1 w).1).1.files p = none := by
    intro p hp
    rw [ffiles, foldl_unlink_step_apply _ _ _ (fun q _ => hun q)]
    simp [hp]
  refine ⟨hret, ?_, fret, hgone, ?_, fcreated⟩
  · intro s hs
    rw [hfiles]
    exact foldl_write_service_mem _ _ _ (List.mem_map_of_mem _ hs)
  · intro s hs
    apply hgone
    rw [hcreated]
    exact List.mem_append_right _ (List.mem_map_of_mem _ hs)

theorem commit_failure_deletes_earlier_artifacts_witness :
    (ga_entry_group_commit all_ok_env two_service_world).2 = Except.ok ()
      ∧ (∀ s ∈ two_service_world.services,
          ((ga_entry_group_commit all_ok_env two_service_world).1.files
            (service_path s)).isSome = true)
      ∧ (ga_entry_group_commit second_write_fails_env
            (ga_entry_group_commit all_ok_env two_service_world).1).2
          = Except.error GaErrorCode.FAILURE
      ∧ (∀ p ∈ (ga_entry_group_commit all_ok_env two_service_world).1.created_files,
          (ga_entry_group_commit second_write_fails_env
            (ga_entry_group_commit all_ok_env two_service_world).1).1.files p = none)
      ∧ (∀ s ∈ two_service_world.services,
          (ga_entry_group_commit second_write_fails_env
            (ga_entry_group_commit all_ok_env two_service_world).1).1.files
            (service_path s) = none)
      ∧ (ga_entry_group_commit second_write_fails_env
            (ga_entry_group_commit all_ok_env two_service_world).1).1.created_files = [] :=
  commit_failure_deletes_earlier_artifacts all_ok_env second_write_fails_env
    two_service_world 1 rfl (fun _ _ => rfl) rfl (by decide) (by decide) rfl (fun _ => rfl)

/-! ## The entry group: reset, dispose and the paths that are deleted -/

/-- C11: in every state, with whatever the files are and however the
deletions end, `ga_entry_group_reset` returns success, passes exactly the
paths of the created-artifact set to `unlink`, and leaves the
created-artifact set empty, the set of services empty and the state
UNCOMMITED, emitting exactly one `state-changed` signal, which carries
UNCOMMITED. -/
theorem reset_always_succeeds (env : Env) (w : World) :
    (ga_entry_group_reset env w).2 = Except.ok ()
      ∧ (ga_entry_group_reset env w).1.unlink_calls = w.unlink_calls ++ w.created_files
      ∧ (ga_entry_group_reset env w).1.created_files = []
      ∧ (ga_entry_group_reset env w).1.services = []
      ∧ (ga_entry_group_reset env w).1.state = GaEntryGroupState.UNCOMMITED
      ∧ (ga_entry_group_reset env w).1.signals = w.signals ++ [GaEntryGroupState.UNCOMMITED] := by
  obtain ⟨h1, h2, h3, -, h5, h6⟩ := reset_fields env w
  refine ⟨h1, h6, h3, h5, h2, ?_⟩
  simp only [ga_entry_group_reset, emit_state_changed]
  rw [(cleanup_fields _ _).2.2.2.2.1]

theorem commit_loop_history (write_ok : Nat → Bool) (todo : List GaEntryGroupService)
    (k : Nat) (w : World) :
    ∃ written : List String,
      (commit_loop write_ok k todo w).1.commit_writes = w.commit_writes ++ written ∧
      (commit_loop write_ok k todo w).1.created_files = w.created_files ++ written := by
  induction todo generalizing k w with
  | nil => exact ⟨[], by simp [commit_loop]⟩
  | cons s rest ih =>
    by_cases h0 : write_ok k = true
    · simp only [commit_loop, h0, if_true]
      obtain ⟨written, h1, h2⟩ := ih (k + 1)
        { w with files := fs_write w.files
                   (g_build_filename DNSSD_RUNTIME_DIR (generate_dnssd_filename s.name s.type))
                   (generate_dnssd_content s),
                 commit_writes := w.commit_writes
                   ++ [g_build_filename DNSSD_RUNTIME_DIR (generate_dnssd_filename s.name s.type)],
                 created_files := w.created_files
                   ++ [g_build_filename DNSSD_RUNTIME_DIR (generate_dnssd_filename s.name s.type)] }
      exact ⟨g_build_filename DNSSD_RUNTIME_DIR (generate_dnssd_filename s.name s.type) :: written,
        by rw [h1]; simp, by rw [h2]; simp⟩
    · exact ⟨[], by simp [commit_loop, h0]⟩

theorem cleanup_commit_writes (unlink_ok : String → Bool) (w : World) :
    (cleanup_dnssd_files unlink_ok w).commit_writes = w.commit_writes := by
  unfold cleanup_dnssd_files
  by_cases h : w.created_files.length = 0
  · simp [h]
  · simp [h, foldl_unlink_file]

theorem commit_of_dir_failure (env : Env) (w : World) (hd : env.dir_ok = false) :
    ga_entry_group_commit env w
      = (emit_state_changed
          { emit_state_changed { w with state := GaEntryGroupState.REGISTERING } with
            state := GaEntryGroupState.FAILURE },
         Except.error GaErrorCode.FAILURE) := by
  simp [ga_entry_group_commit, hd]

theorem commit_of_loop_success (env : Env) (w : World) (hd : env.dir_ok = true)
    (hv : (commit_loop_result env w).2.2 = true) :
    ga_entry_group_commit env w
      = (emit_state_changed
          { signal_resolved_reload
              { (commit_loop_result env w).1 with services := (commit_loop_result env w).2.1 } with
            state := GaEntryGroupState.ESTABLISHED },
         Except.ok ()) := by
  unfold commit_loop_result at hv ⊢
  simp only [ga_entry_group_commit, hd, Bool.not_true, Bool.false_eq_true, if_false]
  have hw : (emit_state_changed { w with state := GaEntryGroupState.REGISTERING }).services
      = w.services := rfl
  rw [hw, hv]
  rfl

theorem commit_of_loop_failure (env : Env) (w : World) (hd : env.dir_ok = true)
    (hv : (commit_loop_result env w).2.2 = false) :
    ga_entry_group_commit env w
      = (emit_state_changed
          { cleanup_dnssd_files env.unlink_ok
              { (commit_loop_result env w).1 with services := (commit_loop_result env w).2.1 } with
            state := GaEntryGroupState.FAILURE },
         Except.error GaErrorCode.FAILURE) := by
  unfold commit_loop_result at hv ⊢
  simp only [ga_entry_group_commit, hd, Bool.not_true, Bool.false_eq_true, if_false]
  have hw : (emit_state_changed { w with state := GaEntryGroupState.REGISTERING }).services
      = w.services := rfl
  rw [hw, hv]
  rfl

theorem commit_loop_result_fields (env : Env) (w : World) :
    (∃ written : List String,
      (commit_loop_result env w).1.commit_writes = w.commit_writes ++ written ∧
      (commit_loop_result env w).1.created_files = w.created_files ++ written) ∧
    (commit_loop_result env w).1.unlink_calls = w.unlink_calls ∧
    (commit_loop_result env w).1.dispose_has_run = w.dispose_has_run := by
  unfold commit_loop_result
  refine ⟨commit_loop_history _ _ _ _, ?_, ?_⟩
  · exact (commit_loop_frame _ _ _ _).2.2.1
  · exact (commit_loop_frame _ _ _ _).2.2.2.2

/-- The paths a call of `ga_entry_group_commit` passes to `unlink` are the
created-artifact set at the moment of the rollback, and none without a
rollback; what it leaves in the created-artifact set and what it deletes was
written by a commit. -/
theorem commit_history (env : Env) (w : World)
    (hc : ∀ p ∈ w.created_files, p ∈ w.commit_writes)
    (hu : ∀ p ∈ w.unlink_calls, p ∈ w.commit_writes) :
    (∀ p ∈ (ga_entry_group_commit env w).1.created_files,
        p ∈ (ga_entry_group_commit env w).1.commit_writes)
      ∧ (∀ p ∈ (ga_entry_group_commit env w).1.unlink_calls,
        p ∈ (ga_entry_group_commit env w).1.commit_writes)
      ∧ (ga_entry_group_commit env w).1.unlink_calls
          = w.unlink_calls ++
            (if env.dir_ok = true ∧ (commit_loop_result env w).2.2 = false
             then (commit_loop_result env w).1.created_files else []) := by
  obtain ⟨⟨written, h1, h2⟩, h3, -⟩ := commit_loop_result_fields env w
  by_cases hd : env.dir_ok = true
  · cases hv : (commit_loop_result env w).2.2
    · rw [commit_of_loop_failure env w hd hv]
      simp only [emit_state_changed, (cleanup_fields _ _).1, (cleanup_fields _ _).2.2.1,
        cleanup_commit_writes, hd, true_and, if_true, h1, h2, h3]
      refine ⟨by simp, ?_, trivial⟩
      intro p hp
      simp only [List.mem_append] at hp ⊢
      rcases hp with hp | hp | hp
      · exact Or.inl (hu p hp)
      · exact Or.inl (hc p hp)
      · exact Or.inr hp
    · rw [commit_of_loop_success env w hd hv]
      simp only [emit_state_changed, signal_resolved_reload, hd, true_and, Bool.true_eq_false,
        if_false, List.append_nil, h1, h2, h3]
      refine ⟨?_, ?_, trivial⟩
      · intro p hp
        simp only [List.mem_append] at hp ⊢
        exact hp.elim (fun h => Or.inl (hc p h)) Or.inr
      · intro p hp
        exact List.mem_append_left _ (hu p hp)
  · have hd' : env.dir_ok = false := by simpa using hd
    rw [commit_of_dir_failure env w hd']
    simp only [emit_state_changed, hd', Bool.false_eq_true, false_and, if_false,
      List.append_nil]
    exact ⟨hc, hu, trivial⟩

theorem commit_unlink_calls (env : Env) (w : World) :
    (ga_entry_group_commit env w).1.unlink_calls
      = w.unlink_calls ++
        (if env.dir_ok = true ∧ (commit_loop_result env w).2.2 = false
         then (commit_loop_result env w).1.created_files else []) := by
  obtain ⟨-, h3, -⟩ := commit_loop_result_fields env w
  by_cases hd : env.dir_ok = true
  · cases hv : (commit_loop_result env w).2.2
    · rw [commit_of_loop_failure env w hd hv]
      simp only [emit_state_changed, (cleanup_fields _ _).2.2.1, hd, true_and, if_true, h3]
    · rw [commit_of_loop_success env w hd hv]
      simp only [emit_state_changed, signal_resolved_reload, hd, true_and, Bool.true_eq_false,
        if_false, List.append_nil, h3]
  · have hd' : env.dir_ok = false := by simpa using hd
    rw [commit_of_dir_failure env w hd']
    simp only [emit_state_changed, hd', Bool.false_eq_true, false_and, if_false,
      List.append_nil]

theorem update_service_frame (w : World) (i : Nat)
    (f : GaEntryGroupService → GaEntryGroupService) :
    (update_service w i f).state = w.state ∧
    (update_service w i f).created_files = w.created_files ∧
    (update_service w i f).files = w.files ∧
    (update_service w i f).unlink_calls = w.unlink_calls ∧
    (update_service w i f).commit_writes = w.commit_writes ∧
    (update_service w i f).signals = w.signals := by
  unfold update_service
  cases w.services[i]? <;> simp

theorem thaw_frame (write_ok : Bool) (w : World) (i : Nat) :
    (ga_entry_group_service_thaw write_ok w i).1.state = w.state ∧
    (ga_entry_group_service_thaw write_ok w i).1.created_files = w.created_files ∧
    (ga_entry_group_service_thaw write_ok w i).1.unlink_calls = w.unlink_calls ∧
    (ga_entry_group_service_thaw write_ok w i).1.commit_writes = w.commit_writes ∧
    (ga_entry_group_service_thaw write_ok w i).1.signals = w.signals := by
  unfold ga_entry_group_service_thaw
  cases hs : w.services[i]? with
  | none => simp
  | some s =>
    simp only
    split
    · split <;> simp [signal_resolved_reload]
    · simp

theorem dispose_fields (env : Env) (w : World) :
    (ga_entry_group_dispose env w).unlink_calls
      = w.unlink_calls ++ (if w.dispose_has_run = true then [] else w.created_files) ∧
    (ga_entry_group_dispose env w).commit_writes = w.commit_writes ∧
    (ga_entry_group_dispose env w).created_files
      = (if w.dispose_has_run = true then w.created_files else []) := by
  unfold ga_entry_group_dispose
  by_cases h : w.dispose_has_run = true
  · simp [h]
  · simp only [h, if_false, Bool.false_eq_true]
    exact ⟨(cleanup_fields _ _).2.2.1, cleanup_commit_writes _ _, (cleanup_fields _ _).1⟩

theorem apply_op_history (w : World) (op : GroupOp)
    (hc : ∀ p ∈ w.created_files, p ∈ w.commit_writes)
    (hu : ∀ p ∈ w.unlink_calls, p ∈ w.commit_writes) :
    (∀ p ∈ (apply_op w op).created_files, p ∈ (apply_op w op).commit_writes) ∧
    (∀ p ∈ (apply_op w op).unlink_calls, p ∈ (apply_op w op).commit_writes) := by
  cases op with
  | add_service a b c d e f g h t =>
    exact ⟨hc, hu⟩
  | freeze i =>
    obtain ⟨-, h2, -, h4, h5, -⟩ := update_service_frame w i
      (fun service => { service with frozen := true })
    simp only [apply_op, ga_entry_group_service_freeze, h2, h4, h5]
    exact ⟨hc, hu⟩
  | set i key value =>
    obtain ⟨-, h2, -, h4, h5, -⟩ := update_service_frame w i
      (fun service => { service with txt_entries := txt_insert service.txt_entries key value })
    simp only [apply_op, ga_entry_group_service_set, h2, h4, h5]
    exact ⟨hc, hu⟩
  | set_arbitrary i key value size =>
    obtain ⟨-, h2, -, h4, h5, -⟩ := update_service_frame w i
      (fun service => { service with
        txt_entries := txt_insert service.txt_entries key (some (g_strndup value size)) })
    simp only [apply_op, ga_entry_group_service_set_arbitrary, h2, h4, h5]
    exact ⟨hc, hu⟩
  | remove_key i key =>
    obtain ⟨-, h2, -, h4, h5, -⟩ := update_service_frame w i
      (fun service => { service with
        txt_entries := service.txt_entries.filter (fun e => !(e.1 == key)) })
    simp only [apply_op, ga_entry_group_service_remove_key, h2, h4, h5]
    exact ⟨hc, hu⟩
  | thaw i write_ok =>
    obtain ⟨-, h2, h3, h4, -⟩ := thaw_frame write_ok w i
    simp only [apply_op, h2, h3, h4]
    exact ⟨hc, hu⟩
  | commit env =>
    exact ⟨(commit_history env w hc hu).1, (commit_history env w hc hu).2.1⟩
  | reset env =>
    obtain ⟨-, -, h3, -, -, h6⟩ := reset_fields env w
    have h7 : (ga_entry_group_reset env w).1.commit_writes = w.commit_writes := by
      simp only [ga_entry_group_reset, emit_state_changed]
      exact cleanup_commit_writes _ _
    simp only [apply_op, h3, h6, h7]
    refine ⟨by simp, ?_⟩
    intro p hp
    exact (List.mem_append.mp hp).elim (hu p) (hc p)
  | dispose env =>
    obtain ⟨h1, h2, h3⟩ := dispose_fields env w
    simp only [apply_op, h1, h2, h3]
    by_cases h : w.dispose_has_run = true
    · simp only [h, if_true, List.append_nil]
      exact ⟨hc, hu⟩
    · simp only [h, if_false]
      refine ⟨by simp, ?_⟩
      intro p hp
      exact (List.mem_append.mp hp).elim (hu p) (hc p)

theorem run_ops_history (ops : List GroupOp) (w : World)
    (hc : ∀ p ∈ w.created_files, p ∈ w.commit_writes)
    (hu : ∀ p ∈ w.unlink_calls, p ∈ w.commit_writes) :
    (∀ p ∈ (run_ops w ops).created_files, p ∈ (run_ops w ops).commit_writes) ∧
    (∀ p ∈ (run_ops w ops).unlink_calls, p ∈ (run_ops w ops).commit_writes) := by
  induction ops generalizing w with
  | nil => exact ⟨hc, hu⟩
  | cons op ops ih =>
    obtain ⟨h1, h2⟩ := apply_op_history w op hc hu
    exact ih (apply_op w op) h1 h2

/-- C12: the paths that `reset()`, dispose and the rollback of a failing
`commit()` pass to `unlink` are exactly the created-artifact set at that
moment (for dispose: on its first run; a commit that does not roll back
unlinks nothing), and in every state that calls on a new group reach, every
path of the created-artifact set and every path ever passed to `unlink` was
successfully written by the commit loop of this group. -/
theorem deletes_only_recorded_paths :
    (∀ (env : Env) (w : World),
        (ga_entry_group_reset env w).1.unlink_calls = w.unlink_calls ++ w.created_files)
      ∧ (∀ (env : Env) (w : World),
        (ga_entry_group_dispose env w).unlink_calls
          = w.unlink_calls ++ (if w.dispose_has_run = true then [] else w.created_files))
      ∧ (∀ (env : Env) (w : World),
        (ga_entry_group_commit env w).1.unlink_calls
          = w.unlink_calls ++
            (if env.dir_ok = true ∧ (commit_loop_result env w).2.2 = false
             then (commit_loop_result env w).1.created_files else []))
      ∧ (∀ (files : FileSystem) (ops : List GroupOp),
        ∀ p ∈ (run_ops (ga_entry_group_new files) ops).created_files,
          p ∈ (run_ops (ga_entry_group_new files) ops).commit_writes)
      ∧ (∀ (files : FileSystem) (ops : List GroupOp),
        ∀ p ∈ (run_ops (ga_entry_group_new files) ops).unlink_calls,
          p ∈ (run_ops (ga_entry_group_new files) ops).commit_writes) := by
  refine ⟨fun env w => (reset_fields env w).2.2.2.2.2, fun env w => (dispose_fields env w).1,
    commit_unlink_calls, fun files ops => ?_, fun files ops => ?_⟩
  · exact (run_ops_history ops (ga_entry_group_new files)
      (by simp [ga_entry_group_new]) (by simp [ga_entry_group_new])).1
  · exact (run_ops_history ops (ga_entry_group_new files)
      (by simp [ga_entry_group_new]) (by simp [ga_entry_group_new])).2

/-! ## The entry group: thaw and the mutations of a service -/

/-- C14 (as stated, refuted): the services "a b" and "a_b" of one type are
committed to the same artifact, which then holds the declaration of "a_b";
`thaw()` on "a b" succeeds and rewrites that file, so the artifact of the
other service does not stay unchanged. -/
theorem thaw_changes_shared_artifact :
    (ga_entry_group_commit all_ok_env colliding_world).1.state = GaEntryGroupState.ESTABLISHED
      ∧ (ga_entry_group_commit all_ok_env colliding_world).1.services.map
          (fun s => s.dnssd_filename)
        = [some "a_b--http--tcp.dnssd", some "a_b--http--tcp.dnssd"]
      ∧ (ga_entry_group_service_thaw true
          (ga_entry_group_commit all_ok_env colliding_world).1 0).2 = Except.ok ()
      ∧ (ga_entry_group_commit all_ok_env colliding_world).1.files
          "/run/systemd/dnssd/a_b--http--tcp.dnssd"
        = some "[Service]\nName=a_b\nType=_http._tcp\nPort=81\n"
      ∧ (ga_entry_group_service_thaw true
          (ga_entry_group_commit all_ok_env colliding_world).1 0).1.files
          "/run/systemd/dnssd/a_b--http--tcp.dnssd"
        = some "[Service]\nName=a b\nType=_http._tcp\nPort=80\n" := by
  refine ⟨rfl, ?_, rfl, ?_, ?_⟩ <;> decide

/-- C14 (amended): `thaw()` on a service of the group clears its frozen flag
and leaves every other service, the created-artifact set and the group state
unchanged.  When the group is ESTABLISHED and the service has an artifact,
a successful write stores the content generated from the current TXT mapping
under the artifact path of that service, and every other path (so the
artifact of every service with another artifact path) is unchanged; a
failing write returns failure with a FAILURE error and changes no file.
When the group is not ESTABLISHED or the service has no artifact yet,
`thaw()` writes nothing and returns success. -/
theorem thaw_rewrites_one_artifact (write_ok : Bool) (w : World) (i : Nat)
    (s : GaEntryGroupService) (hs : w.services[i]? = some s) :
    (ga_entry_group_service_thaw write_ok w i).1.services
        = w.services.set i { s with frozen := false }
      ∧ (ga_entry_group_service_thaw write_ok w i).1.created_files = w.created_files
      ∧ (ga_entry_group_service_thaw write_ok w i).1.state = w.state
      ∧ (∀ fn, w.state = GaEntryGroupState.ESTABLISHED → s.dnssd_filename = some fn →
          write_ok = true →
          (ga_entry_group_service_thaw write_ok w i).2 = Except.ok ()
            ∧ (ga_entry_group_service_thaw write_ok w i).1.files
                (g_build_filename DNSSD_RUNTIME_DIR fn) = some (generate_dnssd_content s)
            ∧ ∀ p, p ≠ g_build_filename DNSSD_RUNTIME_DIR fn →
                (ga_entry_group_service_thaw write_ok w i).1.files p = w.files p)
      ∧ (∀ fn, w.state = GaEntryGroupState.ESTABLISHED → s.dnssd_filename = some fn →
          write_ok = false →
          (ga_entry_group_service_thaw write_ok w i).2 = Except.error GaErrorCode.FAILURE
            ∧ (ga_entry_group_service_thaw write_ok w i).1.files = w.files)
      ∧ (w.state ≠ GaEntryGroupState.ESTABLISHED ∨ s.dnssd_filename = none →
          (ga_entry_group_service_thaw write_ok w i).2 = Except.ok ()
            ∧ (ga_entry_group_service_thaw write_ok w i).1.files = w.files) := by
  obtain ⟨h1, h2, -, -, -⟩ := thaw_frame write_ok w i
  refine ⟨?_, h2, h1, ?_, ?_, ?_⟩
  · unfold ga_entry_group_service_thaw
    simp only [hs]
    split
    · split <;> simp [signal_resolved_reload]
    · simp
  · intro fn he hf hw
    subst hw
    simp only [ga_entry_group_service_thaw, hs, he, hf, decide_True, if_true,
      signal_resolved_reload]
    refine ⟨trivial, ?_, ?_⟩
    · simp [fs_write, generate_dnssd_content]
    · intro p hp
      simp [fs_write, hp]
  · intro fn he hf hw
    subst hw
    simp [ga_entry_group_service_thaw, hs, he, hf]
  · intro h
    unfold ga_entry_group_service_thaw
    simp only [hs]
    rcases h with h | h
    · have hd : decide (w.state = GaEntryGroupState.ESTABLISHED) = false := by simpa using h
      simp [hd]
    · simp only [h]
      cases decide (w.state = GaEntryGroupState.ESTABLISHED) <;> simp

theorem thaw_rewrites_one_artifact_witness :
    (ga_entry_group_service_thaw true
        (ga_entry_group_commit all_ok_env example_service_world).1 0).2 = Except.ok ()
      ∧ (ga_entry_group_service_thaw true
          (ga_entry_group_commit all_ok_env example_service_world).1 0).1.files
            (g_build_filename DNSSD_RUNTIME_DIR "My_Test_Service--http--tcp.dnssd")
          = some (generate_dnssd_content
              { interface := -1, protocol := GA_PROTOCOL_UNSPEC, flags := 0,
                name := "My Test Service", type := "_http._tcp", domain := none, host := none,
                port := 8080, frozen := false, txt_entries := [("path", some "/")],
                dnssd_filename := some "My_Test_Service--http--tcp.dnssd" })
      ∧ ∀ p, p ≠ g_build_filename DNSSD_RUNTIME_DIR "My_Test_Service--http--tcp.dnssd" →
          (ga_entry_group_service_thaw true
            (ga_entry_group_commit all_ok_env example_service_world).1 0).1.files p
          = (ga_entry_group_commit all_ok_env example_service_world).1.files p :=
  (thaw_rewrites_one_artifact true (ga_entry_group_commit all_ok_env example_service_world).1 0
    { interface := -1, protocol := GA_PROTOCOL_UNSPEC, flags := 0,
      name := "My Test Service", type := "_http._tcp", domain := none, host := none,
      port := 8080, frozen := false, txt_entries := [("path", some "/")],
      dnssd_filename := some "My_Test_Service--http--tcp.dnssd" }
    (by decide)).2.2.2.1 "My_Test_Service--http--tcp.dnssd" rfl rfl rfl

theorem foldl_unlink_step_subset (unlink_ok : String → Bool) (paths : List String)
    (files : FileSystem) (p c : String)
    (h : (paths.foldl (unlink_step unlink_ok) files) p = some c) : files p = some c := by
  induction paths generalizing files with
  | nil => exact h
  | cons q paths ih =>
    have h1 := ih _ h
    unfold unlink_step at h1
    cases hq : files q with
    | none => simpa [hq] using h1
    | some d =>
      by_cases ho : unlink_ok q = true
      · simp only [hq, ho, if_true, fs_remove] at h1
        by_cases hpq : p = q
        · simp [hpq] at h1
        · simpa [hpq] using h1
      · simpa [hq, ho] using h1

theorem apply_op_keeps_files (w : World) (op : GroupOp) (hop : op.writes_files = false)
    (p c : String) (h : (apply_op w op).files p = some c) : w.files p = some c := by
  cases op with
  | add_service a b c d e f g h t => exact h
  | freeze i =>
    simpa only [apply_op, ga_entry_group_service_freeze, (update_service_frame w i _).2.2.1]
      using h
  | set i key value =>
    simpa only [apply_op, ga_entry_group_service_set, (update_service_frame w i _).2.2.1]
      using h
  | set_arbitrary i key value size =>
    simpa only [apply_op, ga_entry_group_service_set_arbitrary,
      (update_service_frame w i _).2.2.1] using h
  | remove_key i key =>
    simpa only [apply_op, ga_entry_group_service_remove_key,
      (update_service_frame w i _).2.2.1] using h
  | thaw i write_ok => simp [GroupOp.writes_files] at hop
  | commit env => simp [GroupOp.writes_files] at hop
  | reset env =>
    simp only [apply_op, (reset_fields env w).2.2.2.1] at h
    exact foldl_unlink_step_subset _ _ _ _ _ h
  | dispose env =>
    simp only [apply_op, ga_entry_group_dispose] at h
    by_cases hd : w.dispose_has_run = true
    · simpa [hd] using h
    · simp only [hd, Bool.false_eq_true, if_false, (cleanup_fields _ _).2.1] at h
      exact foldl_unlink_step_subset _ _ _ _ _ h

theorem run_ops_keeps_files (ops : List GroupOp) (w : World)
    (hops : ∀ op ∈ ops, op.writes_files = false) (p c : String)
    (h : (run_ops w ops).files p = some c) : w.files p = some c := by
  induction ops generalizing w with
  | nil => exact h
  | cons op ops ih =>
    have h1 := ih (apply_op w op) (fun o ho => hops o (by simp [ho])) h
    exact apply_op_keeps_files w op (hops op (by simp)) p c h1

/-- C15 (as stated, refuted): a service is committed, frozen and then given
the TXT entry `k=v`; `thaw()` is never called, and the next `commit()`
writes `TxtText=k=v` into the artifact of the still frozen service. -/
theorem frozen_mutation_written_by_commit :
    (run_ops (ga_entry_group_new (fun _ => none)) frozen_set_ops).services.map
        (fun s => (s.frozen, s.txt_entries)) = [(true, [("k", some "v")])]
      ∧ (run_ops (ga_entry_group_new (fun _ => none)) frozen_set_ops).files
          "/run/systemd/dnssd/a--http--tcp.dnssd"
        = some "[Service]\nName=a\nType=_http._tcp\nPort=80\n"
      ∧ (run_ops (ga_entry_group_new (fun _ => none))
            (frozen_set_ops ++ [.commit all_ok_env])).files
          "/run/systemd/dnssd/a--http--tcp.dnssd"
        = some "[Service]\nName=a\nType=_http._tcp\nPort=80\nTxtText=k=v\n"
      ∧ (run_ops (ga_entry_group_new (fun _ => none))
            (frozen_set_ops ++ [.commit all_ok_env])).services.map (fun s => s.frozen)
        = [true] := by
  refine ⟨?_, ?_, ?_, ?_⟩ <;> decide

/-- C15 (amended): in every state, each variant of add_service adds exactly
one service to the in-memory set, and add_service, freeze, set,
set_arbitrary and remove_key leave the group state, the created-artifact set
and every file on disk unchanged; a mutation of the TXT mapping of a service,
frozen or not, is therefore in no artifact when the call returns, and no
sequence of calls without a thaw() or a commit() puts it there (such calls
create and change no file). -/
theorem mutations_leave_storage_untouched :
    (∀ (w : World) (interface protocol : Int) (flags : Nat) (name type : String)
        (domain host : Option String) (port : Nat) (txt : List String),
        (∃ s, (ga_entry_group_add_service_full_strlist w interface protocol flags name type
                domain host port txt).services = w.services ++ [s])
          ∧ (∃ s, (ga_entry_group_add_service_full w interface protocol flags name type
                domain host port txt).services = w.services ++ [s])
          ∧ (∃ s, (ga_entry_group_add_service_strlist w name type port txt).services
                = w.services ++ [s])
          ∧ (∃ s, (ga_entry_group_add_service w name type port txt).services
                = w.services ++ [s]))
      ∧ (∀ (w : World) (op : GroupOp),
          (match op with
            | .add_service _ _ _ _ _ _ _ _ _ => True
            | .freeze _ => True
            | .set _ _ _ => True
            | .set_arbitrary _ _ _ _ => True
            | .remove_key _ _ => True
            | _ => False) →
          (apply_op w op).state = w.state
            ∧ (apply_op w op).created_files = w.created_files
            ∧ (apply_op w op).files = w.files)
      ∧ (∀ (w : World) (name type : String) (port : Nat) (txt : List String),
          ((ga_entry_group_add_service w name type port txt).state = w.state
            ∧ (ga_entry_group_add_service w name type port txt).created_files = w.created_files
            ∧ (ga_entry_group_add_service w name type port txt).files = w.files)
          ∧ ((ga_entry_group_add_service_strlist w name type port txt).state = w.state
            ∧ (ga_entry_group_add_service_strlist w name type port txt).created_files
                = w.created_files
            ∧ (ga_entry_group_add_service_strlist w name type port txt).files = w.files))
      ∧ (∀ (w : World) (ops : List GroupOp), (∀ op ∈ ops, op.writes_files = false) →
          ∀ p c, (run_ops w ops).files p = some c → w.files p = some c) := by
  refine ⟨?_, ?_, ?_, fun w ops hops p c h => run_ops_keeps_files ops w hops p c h⟩
  · intro w interface protocol flags name type domain host port txt
    exact ⟨⟨_, rfl⟩, ⟨_, rfl⟩, ⟨_, rfl⟩, ⟨_, rfl⟩⟩
  · intro w op hop
    cases op with
    | add_service a b c d e f g h t => exact ⟨rfl, rfl, rfl⟩
    | freeze i =>
      obtain ⟨h1, h2, h3, -⟩ := update_service_frame w i
        (fun service => { service with frozen := true })
      exact ⟨h1, h2, h3⟩
    | set i key value =>
      obtain ⟨h1, h2, h3, -⟩ := update_service_frame w i
        (fun service => { service with txt_entries := txt_insert service.txt_entries key value })
      exact ⟨h1, h2, h3⟩
    | set_arbitrary i key value size =>
      obtain ⟨h1, h2, h3, -⟩ := update_service_frame w i
        (fun service => { service with
          txt_entries := txt_insert service.txt_entries key (some (g_strndup value size)) })
      exact ⟨h1, h2, h3⟩
    | remove_key i key =>
      obtain ⟨h1, h2, h3, -⟩ := update_service_frame w i
        (fun service => { service with
          txt_entries := service.txt_entries.filter (fun e => !(e.1 == key)) })
      exact ⟨h1, h2, h3⟩
    | thaw i write_ok => exact absurd hop (by simp)
    | commit env => exact absurd hop (by simp)
    | reset env => exact absurd hop (by simp)
    | dispose env => exact absurd hop (by simp)
  · intro w name type port txt
    exact ⟨⟨rfl, rfl, rfl⟩, ⟨rfl, rfl, rfl⟩⟩

/-! ## The entry group: when the artifact of a service exists -/

theorem groupInv_new (files : FileSystem) : GroupInv (ga_entry_group_new files) 0 where
  bound := Nat.le_refl 0
  named := by intro s hs; simp [ga_entry_group_new] at hs
  recorded := by intro s hs; simp [ga_entry_group_new] at hs
  established := by intro h; simp [ga_entry_group_new] at h
  cleared := by intro _; rfl

theorem groupInv_add_service (w : World) (n : Nat) (h : GroupInv w n)
    (interface protocol : Int) (flags : Nat) (name type : String)
    (domain host : Option String) (port : Nat) (txt : List String) :
    GroupInv (ga_entry_group_add_service_full_strlist w interface protocol flags name type
      domain host port txt) n where
  bound := by
    simp only [ga_entry_group_add_service_full_strlist, List.length_append, List.length_singleton]
    exact Nat.le_succ_of_le h.bound
  named := by
    intro s hs fn hfn
    simp only [ga_entry_group_add_service_full_strlist, List.mem_append,
      List.mem_singleton] at hs
    rcases hs with hs | hs
    · exact h.named s hs fn hfn
    · subst hs; simp at hfn
  recorded := by
    intro s hs he
    simp only [ga_entry_group_add_service_full_strlist, List.mem_append,
      List.mem_singleton] at hs
    rcases hs with hs | hs
    · exact h.recorded s hs he
    · subst hs; simp [artifact_exists] at he
  established := by
    intro hst i s hi
    simp only [ga_entry_group_add_service_full_strlist] at hi
    by_cases hlt : i < w.services.length
    · rw [List.getElem?_append_left hlt] at hi
      exact h.established hst i s hi
    · have hge : w.services.length ≤ i := Nat.le_of_not_lt hlt
      rw [List.getElem?_append_right hge] at hi
      refine ⟨fun hin => absurd (Nat.lt_of_lt_of_le hin h.bound) hlt, fun _ => ?_⟩
      cases hj : i - w.services.length with
      | zero =>
        rw [hj] at hi
        simp only [List.getElem?_cons_zero, Option.some.injEq] at hi
        subst hi; rfl
      | succ j => rw [hj] at hi; simp at hi
  cleared := h.cleared

theorem groupInv_set_service (w : World) (n i : Nat) (h : GroupInv w n)
    (s s1 : GaEntryGroupService) (hs : w.services[i]? = some s)
    (hname : s1.name = s.name) (htype : s1.type = s.type)
    (hfile : s1.dnssd_filename = s.dnssd_filename) :
    GroupInv { w with services := w.services.set i s1 } n where
  bound := by simpa using h.bound
  named := by
    intro t ht fn hfn
    rcases List.mem_or_eq_of_mem_set ht with ht | ht
    · exact h.named t ht fn hfn
    · subst ht
      rw [hname, htype]
      exact h.named s (List.getElem?_mem hs) fn (by rw [← hfile]; exact hfn)
  recorded := by
    intro t ht he
    rcases List.mem_or_eq_of_mem_set ht with ht | ht
    · exact h.recorded t ht he
    · subst ht
      have h1 : artifact_exists w s = true := by
        simpa only [artifact_exists, hfile] using he
      have h2 := h.recorded s (List.getElem?_mem hs) h1
      simpa only [service_path, hname, htype] using h2
  established := by
    intro hst j t hj
    simp only [List.getElem?_set] at hj
    by_cases hij : i = j
    · subst hij
      have hlt : i < w.services.length := by
        by_contra hc
        rw [List.getElem?_eq_none (Nat.le_of_not_lt hc)] at hs
        simp at hs
      simp only [hlt, if_true, Option.some.injEq] at hj
      subst hj
      have h0 := h.established hst i s hs
      refine ⟨fun hin => ?_, fun hin => ?_⟩
      · simpa only [artifact_exists, hfile] using h0.1 hin
      · rw [hfile]; exact h0.2 hin
    · simp only [hij, if_false] at hj
      exact h.established hst j t hj
  cleared := h.cleared

theorem groupInv_update_service (w : World) (n i : Nat) (h : GroupInv w n)
    (f : GaEntryGroupService → GaEntryGroupService)
    (hname : ∀ s, (f s).name = s.name) (htype : ∀ s, (f s).type = s.type)
    (hfile : ∀ s, (f s).dnssd_filename = s.dnssd_filename) :
    GroupInv (update_service w i f) n := by
  unfold update_service
  cases hs : w.services[i]? with
  | none => exact h
  | some s => exact groupInv_set_service w n i h s (f s) hs (hname s) (htype s) (hfile s)

theorem service_path_mark_written (s : GaEntryGroupService) :
    service_path (mark_written s) = service_path s := rfl

theorem artifact_exists_of_named (w : World) (s : GaEntryGroupService) (fn : String)
    (hfn : s.dnssd_filename = some fn) (hn : fn = generate_dnssd_filename s.name s.type) :
    artifact_exists w s = (w.files (service_path s)).isSome := by
  simp only [artifact_exists, hfn, service_path, hn]

theorem groupInv_write (w w1 : World) (n : Nat) (h : GroupInv w n)
    (hstate : w1.state = w.state) (hserv : w1.services = w.services)
    (hcre : w1.created_files = w.created_files)
    (hst : w.state = GaEntryGroupState.ESTABLISHED)
    (s : GaEntryGroupService) (hs : s ∈ w.services) (fn : String)
    (hfn : s.dnssd_filename = some fn) (c : String)
    (hfiles : w1.files = fs_write w.files (g_build_filename DNSSD_RUNTIME_DIR fn) c) :
    GroupInv w1 n := by
  have hmono : ∀ t, artifact_exists w t = true → artifact_exists w1 t = true := by
    intro t ht
    unfold artifact_exists at ht ⊢
    cases hf : t.dnssd_filename with
    | none => simp [hf] at ht
    | some f =>
      simp only [hf] at ht
      simp only [hfiles, fs_write]
      by_cases hp : g_build_filename DNSSD_RUNTIME_DIR f = g_build_filename DNSSD_RUNTIME_DIR fn
      · simp [hp]
      · simpa [hp] using ht
  have hspath : service_path s ∈ w.created_files := by
    obtain ⟨i, hi⟩ := List.mem_iff_getElem?.mp hs
    have h0 := h.established hst i s hi
    by_cases hin : i < n
    · exact h.recorded s hs (h0.1 hin)
    · have := h0.2 (Nat.le_of_not_lt hin)
      rw [hfn] at this
      simp at this
  have hsn := h.named s hs fn hfn
  refine ⟨by rw [hserv]; exact h.bound, by rw [hserv]; exact h.named, ?_, ?_, ?_⟩
  · intro t ht he
    rw [hserv] at ht
    rw [hcre]
    cases hf : t.dnssd_filename with
    | none => simp [artifact_exists, hf] at he
    | some f =>
      have htn := h.named t ht f hf
      by_cases hp : g_build_filename DNSSD_RUNTIME_DIR f = g_build_filename DNSSD_RUNTIME_DIR fn
      · have : service_path t = service_path s := by
          simp only [service_path, ← htn, ← hsn, hp]
        rw [this]; exact hspath
      · apply h.recorded t ht
        simp only [artifact_exists, hf, hfiles, fs_write, hp, if_false] at he
        simpa only [artifact_exists, hf] using he
  · intro hst1 i t hi
    rw [hserv] at hi
    have h0 := h.established hst i t hi
    exact ⟨fun hin => hmono t (h0.1 hin), h0.2⟩
  · intro hne
    rw [hstate] at hne
    exact absurd hst hne

theorem groupInv_thaw (write_ok : Bool) (w : World) (n i : Nat) (h : GroupInv w n) :
    GroupInv (ga_entry_group_service_thaw write_ok w i).1 n := by
  unfold ga_entry_group_service_thaw
  cases hs : w.services[i]? with
  | none => exact h
  | some s =>
    have h1 : GroupInv { w with services := w.services.set i { s with frozen := false } } n :=
      groupInv_set_service w n i h s { s with frozen := false } hs rfl rfl rfl
    simp only
    split
    · rename_i hd hfn
      split
      · have hst : w.state = GaEntryGroupState.ESTABLISHED := by simpa using hd
        have hlt : i < w.services.length := by
          by_contra hc
          rw [List.getElem?_eq_none (Nat.le_of_not_lt hc)] at hs
          simp at hs
        refine groupInv_write _ _ n h1 rfl rfl rfl hst { s with frozen := false }
          (List.mem_set _ _ hlt _) _ hfn _ rfl
      · exact h1
    · exact h1

theorem groupInv_commit_ok (env : Env) (w : World)
    (hdir : env.dir_ok = true) (hw : ∀ k < w.services.length, env.write_ok k = true) :
    GroupInv (ga_entry_group_commit env w).1 w.services.length := by
  obtain ⟨-, hstate, hfiles, hcreated, hservices, -⟩ := commit_ok_fields env w hdir hw
  refine ⟨by rw [hservices, List.length_map], ?_, ?_, ?_, fun hne => absurd hstate hne⟩
  · intro t ht fn hfn
    rw [hservices, List.mem_map] at ht
    obtain ⟨s, -, rfl⟩ := ht
    simp only [mark_written, Option.some.injEq] at hfn
    exact hfn.symm
  · intro t ht _
    rw [hservices, List.mem_map] at ht
    obtain ⟨s, hs, rfl⟩ := ht
    rw [hcreated, service_path_mark_written]
    exact List.mem_append_right _ (List.mem_map_of_mem _ hs)
  · intro _ i t hi
    have ht : t ∈ w.services.map mark_written := by
      rw [← hservices]; exact List.getElem?_mem hi
    obtain ⟨s, hs, rfl⟩ := List.mem_map.mp ht
    have hlt : i < w.services.length := by
      by_contra hc
      rw [hservices, List.getElem?_eq_none (by simpa using Nat.le_of_not_lt hc)] at hi
      simp at hi
    refine ⟨fun _ => ?_, fun hge => absurd hlt (Nat.not_lt.mpr hge)⟩
    rw [artifact_exists_of_named _ (mark_written s) _ rfl rfl, hfiles,
      service_path_mark_written]
    exact foldl_write_service_mem _ _ _ (List.mem_map_of_mem _ hs)

theorem groupInv_commit_fail (env : Env) (w : World) (n k : Nat) (h : GroupInv w n)
    (hdir : env.dir_ok = true) (hk : k < w.services.length)
    (hb : ∀ i < k, env.write_ok i = true) (hf : env.write_ok k = false)
    (hun : ∀ p, env.unlink_ok p = true) :
    GroupInv (ga_entry_group_commit env w).1 n := by
  obtain ⟨-, hstate, hcreated, hfiles, hservices, -⟩ := commit_fail_fields env w k hdir hk hb hf
  have hne : (ga_entry_group_commit env w).1.state ≠ GaEntryGroupState.ESTABLISHED := by
    rw [hstate]; decide
  refine ⟨?_, ?_, ?_, fun he => absurd he hne, fun _ => hcreated⟩
  · rw [hservices, List.length_append, List.length_map, List.length_take, List.length_drop]
    have := h.bound
    omega
  · intro t ht fn hfn
    rw [hservices, List.mem_append, List.mem_map] at ht
    rcases ht with ⟨s, -, rfl⟩ | ht
    · simp only [mark_written, Option.some.injEq] at hfn
      exact hfn.symm
    · exact h.named t (List.mem_of_mem_drop ht) fn hfn
  · intro t ht he
    exfalso
    rw [hservices, List.mem_append, List.mem_map] at ht
    have key : ∀ p, ((ga_entry_group_commit env w).1.files p).isSome = true →
        p ∉ w.created_files ∧ p ∉ (w.services.take k).map service_path
          ∧ (w.files p).isSome = true := by
      intro p hp
      rw [hfiles, foldl_unlink_step_apply _ _ _ (fun q _ => hun q)] at hp
      by_cases hm : p ∈ w.created_files ++ (w.services.take k).map service_path
      · rw [if_pos hm] at hp
        exact absurd hp (by simp)
      · rw [if_neg hm] at hp
        rw [List.mem_append, not_or] at hm
        rw [foldl_write_service_not_mem _ _ _ hm.2] at hp
        exact ⟨hm.1, hm.2, hp⟩
    rcases ht with ⟨s, hs, rfl⟩ | ht
    · rw [artifact_exists_of_named _ (mark_written s) _ rfl rfl,
        service_path_mark_written] at he
      exact (key _ he).2.1 (List.mem_map_of_mem _ hs)
    · have htw : t ∈ w.services := List.mem_of_mem_drop ht
      cases hfn : t.dnssd_filename with
      | none => simp [artifact_exists, hfn] at he
      | some fn =>
        have hn := h.named t htw fn hfn
        rw [artifact_exists_of_named _ t fn hfn hn] at he
        have h3 := key _ he
        have h4 : artifact_exists w t = true := by
          rw [artifact_exists_of_named _ t fn hfn hn]; exact h3.2.2
        exact h3.1 (h.recorded t htw h4)

theorem groupInv_reset (env : Env) (w : World) :
    GroupInv (ga_entry_group_reset env w).1 0 := by
  obtain ⟨-, -, hcreated, -, hservices, -⟩ := reset_fields env w
  refine ⟨Nat.zero_le _, ?_, ?_, ?_, fun _ => hcreated⟩
  · intro s hs; rw [hservices] at hs; simp at hs
  · intro s hs; rw [hservices] at hs; simp at hs
  · intro _ i s hi; rw [hservices] at hi; simp at hi

theorem write_cases (f : Nat → Bool) (n : Nat) :
    (∀ k < n, f k = true) ∨ ∃ k < n, (∀ i < k, f i = true) ∧ f k = false := by
  induction n with
  | zero => exact Or.inl (fun k hk => absurd hk (Nat.not_lt_zero k))
  | succ n ih =>
    rcases ih with h | ⟨k, hk, hb, hf⟩
    · by_cases hn : f n = true
      · left
        intro k hk
        rcases Nat.lt_succ_iff_lt_or_eq.mp hk with h1 | h1
        · exact h k h1
        · rw [h1]; exact hn
      · right
        exact ⟨n, Nat.lt_succ_self n, h, by simpa using hn⟩
    · right
      exact ⟨k, Nat.lt_succ_of_lt hk, hb, hf⟩

theorem groupInv_apply_op (w : World) (n : Nat) (op : GroupOp) (h : GroupInv w n)
    (hop : op.admissible) : GroupInv (apply_op w op) (committed_after w n op) := by
  cases op with
  | add_service a b c d e f g p t => exact groupInv_add_service w n h a b c d e f g p t
  | freeze i => exact groupInv_update_service w n i h _ (fun _ => rfl) (fun _ => rfl) (fun _ => rfl)
  | set i key value =>
    exact groupInv_update_service w n i h _ (fun _ => rfl) (fun _ => rfl) (fun _ => rfl)
  | set_arbitrary i key value size =>
    exact groupInv_update_service w n i h _ (fun _ => rfl) (fun _ => rfl) (fun _ => rfl)
  | remove_key i key =>
    exact groupInv_update_service w n i h _ (fun _ => rfl) (fun _ => rfl) (fun _ => rfl)
  | thaw i write_ok => exact groupInv_thaw write_ok w n i h
  | commit env =>
    obtain ⟨hdir, hun⟩ := hop
    rcases write_cases env.write_ok w.services.length with hw | ⟨k, hk, hb, hf⟩
    · have hret := (commit_ok_fields env w hdir hw).1
      simp only [apply_op, committed_after, hret]
      exact groupInv_commit_ok env w hdir hw
    · have hret := (commit_fail_fields env w k hdir hk hb hf).1
      simp only [apply_op, committed_after, hret]
      exact groupInv_commit_fail env w n k h hdir hk hb hf hun
  | reset env => exact groupInv_reset env w
  | dispose env => exact absurd hop (by simp [GroupOp.admissible])

theorem groupInv_run (ops : List GroupOp) (st : World × Nat) (h : GroupInv st.1 st.2)
    (hops : ∀ op ∈ ops, op.admissible) :
    GroupInv
      (ops.foldl (fun st op => (apply_op st.1 op, committed_after st.1 st.2 op)) st).1
      (ops.foldl (fun st op => (apply_op st.1 op, committed_after st.1 st.2 op)) st).2 := by
  induction ops generalizing st with
  | nil => exact h
  | cons op ops ih =>
    rw [List.foldl_cons]
    exact ih _ (groupInv_apply_op st.1 st.2 op h (hops op (by simp)))
      (fun o ho => hops o (by simp [ho]))

theorem deletions_succeed_admissible (op : GroupOp) (h : op.deletions_succeed) :
    op.admissible := by
  cases op <;> first | exact h | trivial

theorem diskInv_new (files : FileSystem) : DiskInv files (ga_entry_group_new files) 0 where
  written := fun _ hp => Or.inl hp
  covered := by intro p hp; simp [ga_entry_group_new] at hp

theorem diskInv_add_service (files0 : FileSystem) (w : World) (n : Nat)
    (h : DiskInv files0 w n)
    (interface protocol : Int) (flags : Nat) (name type : String)
    (domain host : Option String) (port : Nat) (txt : List String) :
    DiskInv files0 (ga_entry_group_add_service_full_strlist w interface protocol flags name
      type domain host port txt) n where
  written := h.written
  covered := by
    intro p hp
    obtain ⟨i, s, hin, hs, hsp⟩ := h.covered p hp
    refine ⟨i, s, hin, ?_, hsp⟩
    have hlt : i < w.services.length := by
      by_contra hc
      rw [List.getElem?_eq_none (Nat.le_of_not_lt hc)] at hs
      simp at hs
    simp only [ga_entry_group_add_service_full_strlist]
    rw [List.getElem?_append_left hlt]
    exact hs

theorem diskInv_set_service (files0 : FileSystem) (w : World) (n i : Nat)
    (h : DiskInv files0 w n) (s s1 : GaEntryGroupService) (hs : w.services[i]? = some s)
    (hname : s1.name = s.name) (htype : s1.type = s.type) :
    DiskInv files0 { w with services := w.services.set i s1 } n where
  written := h.written
  covered := by
    intro p hp
    obtain ⟨j, t, hjn, ht, htp⟩ := h.covered p hp
    have hlt : j < w.services.length := by
      by_contra hc
      rw [List.getElem?_eq_none (Nat.le_of_not_lt hc)] at ht
      simp at ht
    by_cases hij : i = j
    · subst hij
      refine ⟨i, s1, hjn, ?_, ?_⟩
      · simp only [List.getElem?_set, hlt, if_true]
      · have hst : s = t := Option.some.inj (hs.symm.trans ht)
        rw [← htp, ← hst]
        simp only [service_path, hname, htype]
    · refine ⟨j, t, hjn, ?_, htp⟩
      simp only [List.getElem?_set, hij, if_false]
      exact ht

theorem diskInv_update_service (files0 : FileSystem) (w : World) (n i : Nat)
    (h : DiskInv files0 w n) (f : GaEntryGroupService → GaEntryGroupService)
    (hname : ∀ s, (f s).name = s.name) (htype : ∀ s, (f s).type = s.type) :
    DiskInv files0 (update_service w i f) n := by
  unfold update_service
  cases hs : w.services[i]? with
  | none => exact h
  | some s => exact diskInv_set_service files0 w n i h s (f s) hs (hname s) (htype s)

theorem diskInv_thaw (files0 : FileSystem) (write_ok : Bool) (w : World) (n i : Nat)
    (hg : GroupInv w n) (h : DiskInv files0 w n) :
    DiskInv files0 (ga_entry_group_service_thaw write_ok w i).1 n := by
  unfold ga_entry_group_service_thaw
  cases hs : w.services[i]? with
  | none => exact h
  | some s =>
    have h1 : DiskInv files0
        { w with services := w.services.set i { s with frozen := false } } n :=
      diskInv_set_service files0 w n i h s { s with frozen := false } hs rfl rfl
    simp only
    split
    · rename_i fn hd hfn
      split
      · have hst : w.state = GaEntryGroupState.ESTABLISHED := by simpa using hd
        have hsm : s ∈ w.services := List.getElem?_mem hs
        have hfn0 : s.dnssd_filename = some fn := hfn
        have hin : i < n := by
          by_contra hc
          have := (hg.established hst i s hs).2 (Nat.le_of_not_lt hc)
          rw [hfn0] at this
          simp at this
        have hrec : service_path s ∈ w.created_files :=
          hg.recorded s hsm ((hg.established hst i s hs).1 hin)
        have hname := hg.named s hsm fn hfn0
        refine ⟨?_, h1.covered⟩
        intro p hp
        simp only [signal_resolved_reload, fs_write] at hp ⊢
        by_cases hpe : p = g_build_filename DNSSD_RUNTIME_DIR fn
        · right
          rw [hpe, hname]
          exact hrec
        · rw [if_neg hpe] at hp
          exact h.written p hp
      · exact h1
    · exact h1

theorem diskInv_commit_ok (files0 : FileSystem) (env : Env) (w : World) (n : Nat)
    (hg : GroupInv w n) (h : DiskInv files0 w n)
    (hdir : env.dir_ok = true) (hw : ∀ k < w.services.length, env.write_ok k = true) :
    DiskInv files0 (ga_entry_group_commit env w).1 w.services.length := by
  obtain ⟨-, -, hfiles, hcreated, hservices, -⟩ := commit_ok_fields env w hdir hw
  refine ⟨?_, ?_⟩
  · intro p hp
    rw [hcreated]
    by_cases hm : p ∈ w.services.map service_path
    · exact Or.inr (List.mem_append_right _ hm)
    · rw [hfiles, foldl_write_service_not_mem _ _ _ hm] at hp
      rcases h.written p hp with h0 | h0
      · exact Or.inl h0
      · exact Or.inr (List.mem_append_left _ h0)
  · intro p hp
    rw [hcreated, List.mem_append] at hp
    rw [hservices]
    rcases hp with hp | hp
    · obtain ⟨i, s, hin, hs, hsp⟩ := h.covered p hp
      have hlt : i < w.services.length := Nat.lt_of_lt_of_le hin hg.bound
      refine ⟨i, mark_written s, hlt, ?_, by rw [service_path_mark_written]; exact hsp⟩
      rw [List.getElem?_map, hs]
      rfl
    · obtain ⟨s, hs, hsp⟩ := List.mem_map.1 hp
      obtain ⟨i, hi⟩ := List.mem_iff_getElem?.mp hs
      have hlt : i < w.services.length := by
        by_contra hc
        rw [List.getElem?_eq_none (Nat.le_of_not_lt hc)] at hi
        simp at hi
      refine ⟨i, mark_written s, hlt, ?_, by rw [service_path_mark_written]; exact hsp⟩
      rw [List.getElem?_map, hi]
      rfl

theorem diskInv_of_cleanup (files0 : FileSystem) (w w1 : World) (n n1 : Nat)
    (h : DiskInv files0 w n) (unlink_ok : String → Bool)
    (hun : ∀ p, unlink_ok p = true) (extra : List GaEntryGroupService)
    (hcreated : w1.created_files = [])
    (hfiles : w1.files
      = (w.created_files ++ extra.map service_path).foldl (unlink_step unlink_ok)
          (extra.foldl write_service w.files)) :
    DiskInv files0 w1 n1 := by
  refine ⟨?_, ?_⟩
  · intro p hp
    left
    rw [hfiles, foldl_unlink_step_apply _ _ _ (fun q _ => hun q)] at hp
    by_cases hm : p ∈ w.created_files ++ extra.map service_path
    · rw [if_pos hm] at hp
      exact absurd hp (by simp)
    · rw [if_neg hm] at hp
      rw [List.mem_append, not_or] at hm
      rw [foldl_write_service_not_mem _ _ _ hm.2] at hp
      rcases h.written p hp with h0 | h0
      · exact h0
      · exact absurd h0 hm.1
  · intro p hp
    rw [hcreated] at hp
    simp at hp

theorem diskInv_commit_fail (files0 : FileSystem) (env : Env) (w : World) (n k : Nat)
    (h : DiskInv files0 w n)
    (hdir : env.dir_ok = true) (hk : k < w.services.length)
    (hb : ∀ i < k, env.write_ok i = true) (hf : env.write_ok k = false)
    (hun : ∀ p, env.unlink_ok p = true) :
    DiskInv files0 (ga_entry_group_commit env w).1 n := by
  obtain ⟨-, -, hcreated, hfiles, -, -⟩ := commit_fail_fields env w k hdir hk hb hf
  exact diskInv_of_cleanup files0 w _ n n h env.unlink_ok hun (w.services.take k)
    hcreated hfiles

theorem diskInv_reset (files0 : FileSystem) (env : Env) (w : World) (n : Nat)
    (h : DiskInv files0 w n) (hun : ∀ p, env.unlink_ok p = true) :
    DiskInv files0 (ga_entry_group_reset env w).1 0 := by
  obtain ⟨-, -, hcreated, hfiles, -, -⟩ := reset_fields env w
  exact diskInv_of_cleanup files0 w _ n 0 h env.unlink_ok hun [] hcreated
    (by simpa using hfiles)

theorem diskInv_apply_op (files0 : FileSystem) (w : World) (n : Nat) (op : GroupOp)
    (hg : GroupInv w n) (h : DiskInv files0 w n) (hop : op.deletions_succeed) :
    DiskInv files0 (apply_op w op) (committed_after w n op) := by
  cases op with
  | add_service a b c d e f g p t => exact diskInv_add_service files0 w n h a b c d e f g p t
  | freeze i => exact diskInv_update_service files0 w n i h _ (fun _ => rfl) (fun _ => rfl)
  | set i key value =>
    exact diskInv_update_service files0 w n i h _ (fun _ => rfl) (fun _ => rfl)
  | set_arbitrary i key value size =>
    exact diskInv_update_service files0 w n i h _ (fun _ => rfl) (fun _ => rfl)
  | remove_key i key =>
    exact diskInv_update_service files0 w n i h _ (fun _ => rfl) (fun _ => rfl)
  | thaw i write_ok => exact diskInv_thaw files0 write_ok w n i hg h
  | commit env =>
    obtain ⟨hdir, hun⟩ := hop
    rcases write_cases env.write_ok w.services.length with hw | ⟨k, hk, hb, hf⟩
    · have hret := (commit_ok_fields env w hdir hw).1
      simp only [apply_op, committed_after, hret]
      exact diskInv_commit_ok files0 env w n hg h hdir hw
    · have hret := (commit_fail_fields env w k hdir hk hb hf).1
      simp only [apply_op, committed_after, hret]
      exact diskInv_commit_fail files0 env w n k h hdir hk hb hf hun
  | reset env => exact diskInv_reset files0 env w n h hop
  | dispose env => exact absurd hop (by simp [GroupOp.deletions_succeed])

theorem diskInv_run (files0 : FileSystem) (ops : List GroupOp) (st : World × Nat)
    (hg : GroupInv st.1 st.2) (h : DiskInv files0 st.1 st.2)
    (hops : ∀ op ∈ ops, op.deletions_succeed) :
    DiskInv files0
      (ops.foldl (fun st op => (apply_op st.1 op, committed_after st.1 st.2 op)) st).1
      (ops.foldl (fun st op => (apply_op st.1 op, committed_after st.1 st.2 op)) st).2 := by
  induction ops generalizing st with
  | nil => exact h
  | cons op ops ih =>
    rw [List.foldl_cons]
    exact ih _
      (groupInv_apply_op st.1 st.2 op hg
        (deletions_succeed_admissible op (hops op (by simp))))
      (diskInv_apply_op files0 st.1 st.2 op hg h (hops op (by simp)))
      (fun o ho => hops o (by simp [ho]))

/-- C13 (as stated, refuted): two services are registered on a new group
and committed; the second write fails and so does the `unlink` of the
rollback.  The group is in the FAILURE state, and the artifact of the first
service exists.  Likewise a file stays under the artifact path of a service
when the `unlink` of a reset fails and the service is registered again
(state UNCOMMITED), and a service registered after a commit finds the file
of an earlier service with the same file name under its artifact path
(state ESTABLISHED, the service no part of the commit). -/
theorem artifact_survives_failed_rollback :
    (run_tracked (fun _ => none) failed_rollback_ops).1.state = GaEntryGroupState.FAILURE
      ∧ (run_tracked (fun _ => none) failed_rollback_ops).1.services.map
          (fun s => (s.name, artifact_exists (run_tracked (fun _ => none) failed_rollback_ops).1 s))
        = [("a", true), ("b", false)]
      ∧ (run_tracked (fun _ => none) failed_rollback_ops).1.services.map
          (fun s => (s.name, artifact_on_disk (run_tracked (fun _ => none) failed_rollback_ops).1 s))
        = [("a", true), ("b", false)]
      ∧ (run_tracked (fun _ => none) failed_reset_ops).1.state = GaEntryGroupState.UNCOMMITED
      ∧ (run_tracked (fun _ => none) failed_reset_ops).1.services.map
          (fun s => (s.name, artifact_on_disk (run_tracked (fun _ => none) failed_reset_ops).1 s))
        = [("a", true)]
      ∧ (run_tracked (fun _ => none) late_collision_ops).1.state
          = GaEntryGroupState.ESTABLISHED
      ∧ (run_tracked (fun _ => none) late_collision_ops).2 = 1
      ∧ (run_tracked (fun _ => none) late_collision_ops).1.services.map
          (fun s => (s.name, artifact_on_disk (run_tracked (fun _ => none) late_collision_ops).1 s))
        = [("a b", true), ("a_b", true)] := by
  refine ⟨?_, ?_, ?_, ?_, ?_, ?_, ?_, ?_⟩ <;> decide

/-- The books of the group: in every state reached from a new group by
admissible calls, the file named by the `dnssd_filename` of a registered
service exists if and only if the group is in the ESTABLISHED state and the
service was part of the most recent successful commit. -/
theorem artifact_exists_iff_established (files : FileSystem) (ops : List GroupOp)
    (hops : ∀ op ∈ ops, op.admissible) (i : Nat) (s : GaEntryGroupService)
    (hs : (run_tracked files ops).1.services[i]? = some s) :
    artifact_exists (run_tracked files ops).1 s = true
      ↔ (run_tracked files ops).1.state = GaEntryGroupState.ESTABLISHED
          ∧ i < (run_tracked files ops).2 := by
  have h : GroupInv (run_tracked files ops).1 (run_tracked files ops).2 :=
    groupInv_run ops (ga_entry_group_new files, 0) (groupInv_new files) hops
  constructor
  · intro he
    have hmem := List.getElem?_mem hs
    have hrec := h.recorded s hmem he
    have hst : (run_tracked files ops).1.state = GaEntryGroupState.ESTABLISHED := by
      by_contra hne
      rw [h.cleared hne] at hrec
      simp at hrec
    refine ⟨hst, ?_⟩
    by_contra hin
    have hnone := (h.established hst i s hs).2 (Nat.le_of_not_lt hin)
    simp [artifact_exists, hnone] at he
  · rintro ⟨hst, hin⟩
    exact (h.established hst i s hs).1 hin

theorem artifact_exists_iff_established_witness :
    artifact_exists (run_tracked (fun _ => none) publish_session_ops).1
        { interface := -1, protocol := GA_PROTOCOL_UNSPEC, flags := 0, name := "b",
          type := "_http._tcp", domain := none, host := none, port := 81, frozen := false,
          txt_entries := [], dnssd_filename := some "b--http--tcp.dnssd" } = true
      ↔ (run_tracked (fun _ => none) publish_session_ops).1.state
            = GaEntryGroupState.ESTABLISHED
          ∧ 1 < (run_tracked (fun _ => none) publish_session_ops).2 :=
  artifact_exists_iff_established (fun _ => none) publish_session_ops
    (by
      intro op hop
      simp only [publish_session_ops, List.mem_cons, List.mem_singleton, List.mem_nil_iff,
        or_false] at hop
      rcases hop with h | h | h | h <;> subst h
      · trivial
      · trivial
      · exact ⟨rfl, fun _ => rfl⟩
      · trivial)
    1 _ (by decide)

/-- C13 (amended): in every state reached from a new group by add_service,
the TXT mutations, freeze, thaw, commit and reset, in which every commit
could ensure the runtime directory and every deletion (of a rollback and of
a reset) succeeded, for a registered service whose artifact path is that of
no other registered service and held no file when the group was created, a
file exists under the artifact path of the service if and only if the group
is in the ESTABLISHED state and the service was part of the most recent
successful commit. -/
theorem artifact_on_disk_iff_established (files : FileSystem) (ops : List GroupOp)
    (hops : ∀ op ∈ ops, op.deletions_succeed) (i : Nat) (s : GaEntryGroupService)
    (hs : (run_tracked files ops).1.services[i]? = some s)
    (hfree : files (service_path s) = none)
    (hown : ∀ j t, (run_tracked files ops).1.services[j]? = some t →
      service_path t = service_path s → j = i) :
    artifact_on_disk (run_tracked files ops).1 s = true
      ↔ (run_tracked files ops).1.state = GaEntryGroupState.ESTABLISHED
          ∧ i < (run_tracked files ops).2 := by
  have hg : GroupInv (run_tracked files ops).1 (run_tracked files ops).2 :=
    groupInv_run ops (ga_entry_group_new files, 0) (groupInv_new files)
      (fun op hop => deletions_succeed_admissible op (hops op hop))
  have hd : DiskInv files (run_tracked files ops).1 (run_tracked files ops).2 :=
    diskInv_run files ops (ga_entry_group_new files, 0) (groupInv_new files)
      (diskInv_new files) hops
  constructor
  · intro he
    have hmem : service_path s ∈ (run_tracked files ops).1.created_files := by
      rcases hd.written (service_path s) he with h0 | h0
      · rw [hfree] at h0
        simp at h0
      · exact h0
    have hst : (run_tracked files ops).1.state = GaEntryGroupState.ESTABLISHED := by
      by_contra hne
      rw [hg.cleared hne] at hmem
      simp at hmem
    obtain ⟨j, t, hjn, ht, htp⟩ := hd.covered _ hmem
    have hji := hown j t ht htp
    exact ⟨hst, hji ▸ hjn⟩
  · rintro ⟨hst, hin⟩
    have hex := (hg.established hst i s hs).1 hin
    cases hfn : s.dnssd_filename with
    | none => simp [artifact_exists, hfn] at hex
    | some fn =>
      have hn := hg.named s (List.getElem?_mem hs) fn hfn
      rw [artifact_exists_of_named _ s fn hfn hn] at hex
      exact hex

theorem artifact_on_disk_iff_established_witness :
    artifact_on_disk (run_tracked (fun _ => none) publish_session_ops).1
        { interface := -1, protocol := GA_PROTOCOL_UNSPEC, flags := 0, name := "b",
          type := "_http._tcp", domain := none, host := none, port := 81, frozen := false,
          txt_entries := [], dnssd_filename := some "b--http--tcp.dnssd" } = true
      ↔ (run_tracked (fun _ => none) publish_session_ops).1.state
            = GaEntryGroupState.ESTABLISHED
          ∧ 1 < (run_tracked (fun _ => none) publish_session_ops).2 :=
  artifact_on_disk_iff_established (fun _ => none) publish_session_ops
    (by
      intro op hop
      simp only [publish_session_ops, List.mem_cons, List.mem_singleton, List.mem_nil_iff,
        or_false] at hop
      rcases hop with h | h | h | h <;> subst h
      · trivial
      · trivial
      · exact ⟨rfl, fun _ => rfl⟩
      · trivial)
    1 _ (by decide) rfl
    (by
      intro j t hj hp
      have hl : (run_tracked (fun _ => none) publish_session_ops).1.services.length = 3 := by
        decide
      match j, hj with
      | 0, hj =>
        have ht : t = _ := (Option.some.inj hj).symm
        subst ht
        exact absurd hp (by decide)
      | 1, _ => rfl
      | 2, hj =>
        have ht : t = _ := (Option.some.inj hj).symm
        subst ht
        exact absurd hp (by decide)
      | k + 3, hj =>
        rw [List.getElem?_eq_none (by rw [hl]; omega)] at hj
        cases hj)

/-! ## String lists -/

theorem prefix_key_iff (k t : List Char) (c : Char) :
    (k ++ [c]) <+: t ↔ k.length < t.length ∧ t[k.length]? = some c ∧ t.take k.length = k := by
  induction k generalizing t with
  | nil =>
    cases t with
    | nil => simp
    | cons a r => simp [List.cons_prefix_cons, eq_comm]
  | cons b k ih =>
    cases t with
    | nil => simp
    | cons a r =>
      simp only [List.cons_append, List.cons_prefix_cons, ih, List.length_cons,
        List.getElem?_cons_succ, List.take_succ_cons, List.cons.injEq]
      constructor
      · rintro ⟨h1, h2, h3, h4⟩
        exact ⟨by omega, h3, h1.symm, h4⟩
      · rintro ⟨h2, h3, h1, h4⟩
        exact ⟨h1.symm, by omega, h3, h4⟩

theorem isPrefixOf_key (k t : List Char) (c : Char) :
    (k ++ [c]).isPrefixOf t
      = (decide (t.length > k.length) && (t[k.length]? == some c) && (t.take k.length == k)) := by
  rw [Bool.eq_iff_iff, List.isPrefixOf_iff_prefix, prefix_key_iff]
  simp [and_assoc]

theorem string_list_find_loop_eq (list : GaStringList) (key : String) :
    string_list_find_loop list key = first_entry_with_key list key := by
  induction list with
  | nil => rfl
  | cons text next ih =>
    unfold string_list_find_loop first_entry_with_key
    simp only [List.dropWhile_cons]
    have hk : starts_with_key key text
        = (decide (text.length > key.length) && (text.data[key.length]? == some '=')
            && (text.data.take key.length == key.data)) := by
      unfold starts_with_key
      exact isPrefixOf_key key.data text.data '='
    rw [← hk]
    by_cases hs : starts_with_key key text = true
    · simp [hs]
    · have hs' : starts_with_key key text = false := by simpa using hs
      simp only [hs', Bool.false_eq_true, if_false, Bool.not_false, if_true]
      rw [ih]
      rfl

theorem ga_string_list_find_eq (list : GaStringList) (key : String) :
    ga_string_list_find list (some key) = first_entry_with_key list key := by
  cases list with
  | nil => rfl
  | cons text next =>
    simp only [ga_string_list_find]
    exact string_list_find_loop_eq _ _

theorem dropWhile_head_false {α : Type} (p : α → Bool) (l : List α) (a : α) (r : List α)
    (h : l.dropWhile p = a :: r) : p a = false := by
  induction l with
  | nil => simp at h
  | cons b l ih =>
    rw [List.dropWhile_cons] at h
    by_cases hb : p b = true
    · rw [if_pos hb] at h; exact ih h
    · rw [if_neg hb] at h
      have hab : b = a := (List.cons.inj h).1
      rw [← hab]
      simpa using hb

theorem find_some_spec (list : GaStringList) (key : String) (node : GaStringList)
    (h : ga_string_list_find list (some key) = some node) :
    ∃ value next, node = (key ++ "=" ++ value) :: next := by
  rw [ga_string_list_find_eq] at h
  unfold first_entry_with_key at h
  cases hd : list.dropWhile (fun text => !starts_with_key key text) with
  | nil => simp [hd] at h
  | cons text next =>
    rw [hd] at h
    have hn : node = text :: next := by
      simpa using h.symm
    have hp := dropWhile_head_false _ _ _ _ hd
    have hs : starts_with_key key text = true := by simpa using hp
    unfold starts_with_key at hs
    rw [List.isPrefixOf_iff_prefix] at hs
    obtain ⟨r, hr⟩ := hs
    refine ⟨String.mk r, next, ?_⟩
    rw [hn]
    congr 1
    apply String.ext
    simp only [String.data_append]
    exact hr.symm

theorem span_key_value (k v : List Char) (hk : '=' ∉ k) :
    (k ++ '=' :: v).span (fun c => c != '=') = (k, '=' :: v) := by
  induction k with
  | nil => simp [List.span_eq_take_drop]
  | cons a k ih =>
    have ha : a ≠ '=' := fun h => hk (by simp [h])
    have hk2 : '=' ∉ k := fun h => hk (by simp [h])
    have ih2 := ih hk2
    rw [List.span_eq_take_drop] at ih2 ⊢
    simp only [List.cons_append, List.takeWhile_cons, List.dropWhile_cons, bne_iff_ne, ne_eq, ha,
      not_false_eq_true, decide_True, if_true]
    rw [Prod.mk.injEq] at ih2 ⊢
    exact ⟨by rw [ih2.1], ih2.2⟩

theorem span_bare (t : List Char) (ht : '=' ∉ t) :
    t.span (fun c => c != '=') = (t, []) := by
  induction t with
  | nil => simp [List.span_eq_take_drop]
  | cons a t ih =>
    have ha : a ≠ '=' := fun h => ht (by simp [h])
    have ht2 : '=' ∉ t := fun h => ht (by simp [h])
    have ih2 := ih ht2
    rw [List.span_eq_take_drop] at ih2 ⊢
    simp only [List.takeWhile_cons, List.dropWhile_cons, bne_iff_ne, ne_eq, ha,
      not_false_eq_true, decide_True, if_true]
    rw [Prod.mk.injEq] at ih2 ⊢
    exact ⟨by rw [ih2.1], ih2.2⟩

theorem take_bytes_append (k rest : List Char) :
    take_bytes (utf8_bytes k) (k ++ rest) = k := by
  induction k with
  | nil =>
    cases rest with
    | nil => rfl
    | cons c rest =>
      have hc : ¬ c.utf8Size ≤ 0 := Nat.not_le.2 (Char.utf8Size_pos c)
      simp [take_bytes, utf8_bytes, hc]
  | cons c k ih =>
    have hle : c.utf8Size ≤ utf8_bytes (c :: k) := by
      simp [utf8_bytes]
    have hsub : utf8_bytes (c :: k) - c.utf8Size = utf8_bytes k := by
      simp [utf8_bytes]
    show take_bytes (utf8_bytes (c :: k)) (c :: (k ++ rest)) = c :: k
    simp only [take_bytes, hle, if_true, hsub, ih]

theorem take_bytes_all (text : List Char) : take_bytes (utf8_bytes text) text = text := by
  have h := take_bytes_append text []
  rwa [List.append_nil] at h

theorem utf8_bytes_append (k v : List Char) :
    utf8_bytes (k ++ v) = utf8_bytes k + utf8_bytes v := by
  simp [utf8_bytes, List.sum_append]

theorem get_pair_of_data (text : String) (next : GaStringList) (k v : List Char)
    (hd : text.data = k ++ '=' :: v) (hk : '=' ∉ k) :
    ga_string_list_get_pair (text :: next)
      = some (String.mk k, String.mk v, utf8_bytes v) := by
  have h1 : Char.utf8Size '=' = 1 := by decide
  have hl : strlen text - utf8_bytes k - 1 = utf8_bytes v := by
    simp only [strlen, hd, utf8_bytes_append]
    have : utf8_bytes ('=' :: v) = 1 + utf8_bytes v := by
      simp [utf8_bytes, h1]
    omega
  simp only [ga_string_list_get_pair]
  rw [hd, span_key_value _ _ hk]
  simp only [← hd, hl]
  rw [hd, take_bytes_append]

theorem get_pair_key_value (key value : String) (next : GaStringList)
    (hk : '=' ∉ key.data) :
    ga_string_list_get_pair ((key ++ "=" ++ value) :: next)
      = some (key, value, strlen value) :=
  get_pair_of_data (key ++ "=" ++ value) next key.data value.data
    (by simp [String.data_append]) hk

theorem get_pair_bare (text : String) (next : GaStringList) (ht : '=' ∉ text.data) :
    ga_string_list_get_pair (text :: next) = some (text, "", 0) := by
  simp only [ga_string_list_get_pair, span_bare _ ht, strlen, take_bytes_all]

theorem read_until_null_some (ss : List String) (tail : List (Option String)) :
    read_until_null (ss.map some ++ none :: tail) = ss := by
  induction ss with
  | nil => rfl
  | cons s ss ih => simp [read_until_null, ih]

theorem read_until_null_all (ss : List String) : read_until_null (ss.map some) = ss := by
  induction ss with
  | nil => rfl
  | cons s ss ih => simp [read_until_null, ih]

/-- C16: a string list built by `ga_string_list_new` or
`ga_string_list_new_from_array` from the strings `s1..sn` holds these strings
in this order; `ga_string_list_find` with a key returns the first entry whose
text starts with the key followed by `=` (and `NULL` when there is none);
for a key without `=`, `ga_string_list_get_pair` on the entry found returns
0 with that key, the text after the first `=` as value and the length of the
value (`strlen`, in bytes) as size; in the list `["path=/", "version=1.0"]`
the key "version" has the value "1.0", and the entry "café=ü" has the
value "ü" of size 2. -/
theorem string_list_lookup :
    (∀ (s : String) (ss : List String),
        ga_string_list_new (some s) (ss.map some ++ [none]) = s :: ss)
      ∧ (∀ ss : List String,
          ga_string_list_new_from_array (some (ss.map some)) ss.length = ss
            ∧ ga_string_list_new_from_array (some (ss.map some ++ [none])) (-1) = ss)
      ∧ (∀ (list : GaStringList) (key : String),
          ga_string_list_find list (some key) = first_entry_with_key list key)
      ∧ (∀ (list : GaStringList) (key : String) (node : GaStringList), '=' ∉ key.data →
          ga_string_list_find list (some key) = some node →
          ∃ value next, node = (key ++ "=" ++ value) :: next
            ∧ ga_string_list_get_pair node = some (key, value, strlen value))
      ∧ ((ga_string_list_find (ga_string_list_new (some "path=/") [some "version=1.0", none])
            (some "version")).bind ga_string_list_get_pair
          = some ("version", "1.0", 3))
      ∧ ((ga_string_list_find ["café=ü"] (some "café")).bind ga_string_list_get_pair
          = some ("café", "ü", 2)) := by
  refine ⟨fun s ss => ?_, fun ss => ⟨?_, ?_⟩, ga_string_list_find_eq, ?_, by decide,
    by decide⟩
  · simp [ga_string_list_new, read_until_null_some]
  · have hl : ¬ ((ss.length : Int) < 0) := by omega
    simp only [ga_string_list_new_from_array, hl, if_false, Int.toNat_ofNat]
    rw [← List.length_map ss some, List.take_length, read_until_null_all]
  · simp [ga_string_list_new_from_array, read_until_null_some]
  · intro list key node hk hf
    obtain ⟨value, next, hn⟩ := find_some_spec list key node hf
    exact ⟨value, next, hn, by rw [hn]; exact get_pair_key_value key value next hk⟩

/-- C17 (as stated, refuted): the list built from "path=/" and the bare key
"flag" contains the entry "flag", and looking the key "flag" up with
`ga_string_list_find` returns `NULL`. -/
theorem bare_key_lookup_fails :
    ga_string_list_new (some "path=/") [some "flag", none] = ["path=/", "flag"]
      ∧ ga_string_list_find (ga_string_list_new (some "path=/") [some "flag", none])
          (some "flag") = none := by
  refine ⟨?_, ?_⟩ <;> decide

/-- C17 (amended): `ga_string_list_get_pair` on a bare-key entry (a text
without `=`) returns 0 with the whole text as key, an empty value and size
0; `ga_string_list_find` with that key never returns the bare-key entry: an
entry it returns starts with the key followed by `=`, and in a list of bare
keys only it returns `NULL`. -/
theorem bare_key_get_pair :
    (∀ (text : String) (next : GaStringList), '=' ∉ text.data →
        ga_string_list_get_pair (text :: next) = some (text, "", 0))
      ∧ (∀ (list : GaStringList) (text : String) (node : GaStringList),
          ga_string_list_find list (some text) = some node →
          (∃ value next, node = (text ++ "=" ++ value) :: next) ∧ node.head? ≠ some text)
      ∧ (∀ (list : GaStringList) (key : String), (∀ t ∈ list, '=' ∉ t.data) →
          ga_string_list_find list (some key) = none) := by
  refine ⟨get_pair_bare, ?_, ?_⟩
  · intro list text node hf
    obtain ⟨value, next, hn⟩ := find_some_spec list text node hf
    refine ⟨⟨value, next, hn⟩, ?_⟩
    rw [hn]
    simp only [List.head?_cons, ne_eq, Option.some.injEq]
    intro h
    have hl := congrArg String.length h
    simp only [String.length_append] at hl
    have h1 : "=".length = 1 := rfl
    omega
  · intro list key hb
    cases hf : ga_string_list_find list (some key) with
    | none => rfl
    | some node =>
      exfalso
      obtain ⟨value, next, hn⟩ := find_some_spec list key node hf
      have hmem : (key ++ "=" ++ value) ∈ list := by
        rw [ga_string_list_find_eq] at hf
        unfold first_entry_with_key at hf
        cases hd : list.dropWhile (fun text => !starts_with_key key text) with
        | nil => simp [hd] at hf
        | cons t r =>
          rw [hd] at hf
          have h1 : t :: r = node := by simpa using hf
          have h2 : t = key ++ "=" ++ value := by
            rw [hn] at h1; exact (List.cons.inj h1).1
          rw [← h2]
          exact (List.dropWhile_sublist _).subset (by rw [hd]; simp)
      exact hb _ hmem (by simp [String.data_append])

/-! ## The client -/

/-- C18: `ga_client_start` (and `ga_client_start_in_context`) returns
success exactly when the connection to the backing service succeeds.  On
success the signals emitted are CONNECTING then S_RUNNING and the final
state is S_RUNNING; when the connection fails the call returns failure with
a NO_DAEMON error, the signals emitted are CONNECTING then FAILURE, none of
them S_RUNNING, and the final state is FAILURE. -/
theorem client_start_events (r : Int) (client : GaClient) (context : Option Nat) :
    ((ga_client_start r client).2 = Except.ok () ↔ 0 ≤ r)
      ∧ ((ga_client_start_in_context r client context).2 = Except.ok () ↔ 0 ≤ r)
      ∧ (0 ≤ r →
          (ga_client_start r client).1.signals
              = client.signals ++ [GaClientState.CONNECTING, GaClientState.S_RUNNING]
            ∧ (ga_client_start r client).1.state = GaClientState.S_RUNNING
            ∧ (ga_client_start_in_context r client context).1.signals
              = client.signals ++ [GaClientState.CONNECTING, GaClientState.S_RUNNING]
            ∧ (ga_client_start_in_context r client context).1.state = GaClientState.S_RUNNING)
      ∧ (r < 0 →
          (ga_client_start r client).2 = Except.error GaErrorCode.NO_DAEMON
            ∧ (ga_client_start r client).1.signals
              = client.signals ++ [GaClientState.CONNECTING, GaClientState.FAILURE]
            ∧ GaClientState.S_RUNNING ∉ [GaClientState.CONNECTING, GaClientState.FAILURE]
            ∧ (ga_client_start r client).1.state = GaClientState.FAILURE
            ∧ (ga_client_start_in_context r client context).2
              = Except.error GaErrorCode.NO_DAEMON
            ∧ (ga_client_start_in_context r client context).1.signals
              = client.signals ++ [GaClientState.CONNECTING, GaClientState.FAILURE]
            ∧ (ga_client_start_in_context r client context).1.state = GaClientState.FAILURE) := by
  by_cases hr : r < 0
  · have h0 : ¬ (0 ≤ r) := by omega
    refine ⟨?_, ?_, fun h => absurd h h0, fun _ => ?_⟩
    · simp [ga_client_start, ga_client_start_in_context, hr, h0]
    · simp [ga_client_start_in_context, hr, h0]
    · simp [ga_client_start, ga_client_start_in_context, hr, client_emit_state_changed]
  · have h0 : 0 ≤ r := by omega
    refine ⟨?_, ?_, fun _ => ?_, fun h => absurd h hr⟩
    · simp [ga_client_start, ga_client_start_in_context, hr, h0]
    · simp [ga_client_start_in_context, hr, h0]
    · cases context <;>
        simp [ga_client_start, ga_client_start_in_context, hr, client_emit_state_changed]

/-! ## The service browser: the events of a notification batch -/

theorem string_field_eq (entry : JsonVariant) (key : String) :
    string_field entry key = entry_string entry key := by
  unfold string_field entry_string
  cases h : sd_json_variant_by_key entry key with
  | none => rfl
  | some v => cases v <;> simp [sd_json_variant_is_string, sd_json_variant_string]

theorem mismatch_eq (filter ty : Option String) :
    (match filter, ty with
      | some want, some t => want != t
      | _, _ => false)
      = !(match filter, ty with
          | some want, some t => decide (want = t)
          | _, _ => true) := by
  cases filter <;> cases ty <;> simp [bne]
  rename_i a b
  by_cases h : a = b <;> simp [h]

theorem ifindex_eq (entry : JsonVariant) :
    gint_cast (match sd_json_variant_by_key entry "ifindex" with
        | some v => if sd_json_variant_is_integer v then sd_json_variant_integer v else 0
        | none => 0) = entry_ifindex entry := by
  unfold entry_ifindex
  cases h : sd_json_variant_by_key entry "ifindex" with
  | none => rfl
  | some v =>
    have g0 : gint_cast 0 = 0 := by decide
    cases v with
    | number i =>
      simp only [sd_json_variant_is_integer, sd_json_variant_integer, decide_eq_true_eq]
      by_cases hr : -(2 : Int) ^ 63 ≤ i ∧ i < (2 : Int) ^ 63
      · simp only [hr, and_self, if_true]
      · simp only [hr, if_false, g0]
    | _ => simpa [sd_json_variant_is_integer] using g0

theorem notify_step_fields (browser : GaServiceBrowser) (entry : JsonVariant) :
    (notify_step browser entry).events
        = browser.events ++ (entry_event browser.type browser.protocol entry).toList
      ∧ (notify_step browser entry).type = browser.type
      ∧ (notify_step browser entry).protocol = browser.protocol := by
  cases entry with
  | object fields =>
    simp only [notify_step, sd_json_variant_is_object, Bool.not_true, Bool.false_eq_true,
      if_false, string_field_eq, ifindex_eq, entry_event, mismatch_eq]
    have hm : (match browser.type, entry_string (.object fields) "type" with
        | some want, some t => decide (want = t)
        | _, _ => true) = type_matches browser.type (.object fields) := rfl
    rw [hm]
    cases type_matches browser.type (.object fields)
    · simp
    · simp only [Bool.not_true, Bool.false_eq_true, if_false, if_true]
      by_cases ha : entry_string (.object fields) "updateFlag" = some "added"
      · simp [ha]
      · by_cases hrm : entry_string (.object fields) "updateFlag" = some "removed"
        · simp [ha, hrm]
        · simp [ha, hrm]
  | _ => simp [notify_step, sd_json_variant_is_object, entry_event]

theorem notify_step_skip (browser : GaServiceBrowser) (entry : JsonVariant)
    (h : entry_event browser.type browser.protocol entry = none) :
    notify_step browser entry = browser := by
  cases entry with
  | object fields =>
    simp only [entry_event] at h
    simp only [notify_step, sd_json_variant_is_object, Bool.not_true, Bool.false_eq_true,
      if_false, string_field_eq, ifindex_eq, mismatch_eq]
    have hm : (match browser.type, entry_string (.object fields) "type" with
        | some want, some t => decide (want = t)
        | _, _ => true) = type_matches browser.type (.object fields) := rfl
    rw [hm]
    cases hv : type_matches browser.type (.object fields)
    · simp
    · simp only [hv, if_true] at h
      by_cases ha : entry_string (.object fields) "updateFlag" = some "added"
      · simp [ha] at h
      · by_cases hrm : entry_string (.object fields) "updateFlag" = some "removed"
        · simp [ha, hrm] at h
        · simp [ha, hrm]
  | _ => simp [notify_step, sd_json_variant_is_object]

theorem foldl_notify_step (entries : List JsonVariant) (browser : GaServiceBrowser) :
    (entries.foldl notify_step browser).events
        = browser.events ++ entries.filterMap (entry_event browser.type browser.protocol)
      ∧ (entries.foldl notify_step browser).type = browser.type
      ∧ (entries.foldl notify_step browser).protocol = browser.protocol := by
  induction entries generalizing browser with
  | nil => simp
  | cons e entries ih =>
    obtain ⟨h1, h2, h3⟩ := notify_step_fields browser e
    obtain ⟨i1, i2, i3⟩ := ih (notify_step browser e)
    rw [List.foldl_cons, i1, i2, i3, h1, h2, h3]
    refine ⟨?_, rfl, rfl⟩
    cases he : entry_event browser.type browser.protocol e <;>
      simp [List.filterMap_cons, he]

theorem browse_notify_cb_events
    (attach : GaServiceBrowser → GaServiceBrowser × Except GaErrorCode Unit)
    (browser : GaServiceBrowser) (parameters : Option JsonVariant) :
    (browse_notify_cb attach browser parameters none).events
      = browser.events
          ++ (batch_entries parameters).filterMap (entry_event browser.type browser.protocol) := by
  unfold browse_notify_cb batch_entries
  cases h : parameters.bind (fun p => sd_json_variant_by_key p "browserServiceData") with
  | none => simp
  | some array =>
    cases array <;> simp [sd_json_variant_is_array, array_elements]
    exact (foldl_notify_step _ _).1

theorem batch_entries_batch_of (entries : List JsonVariant) :
    batch_entries (batch_of entries) = entries := by
  simp [batch_entries, batch_of, sd_json_variant_by_key]

theorem entry_event_mismatch (want t : String) (protocol : Int) (entry : JsonVariant)
    (htype : entry_string entry "type" = some t) (hne : t ≠ want) :
    entry_event (some want) protocol entry = none := by
  cases entry with
  | object fields =>
    have hm : type_matches (some want) (.object fields) = false := by
      simp only [type_matches, htype]
      simpa using fun h => hne h.symm
    simp [entry_event, hm]
  | _ => rfl

/-- C19: for a subscription with a type filter, a batch entry that names a
type different from the type of the subscription produces no event,
whatever its updateFlag ("added" or "removed" included): the loop body
leaves the subscription as it is, and the events of a batch are those of the
batch without that entry. -/
theorem mismatched_type_no_event
    (attach : GaServiceBrowser → GaServiceBrowser × Except GaErrorCode Unit)
    (browser : GaServiceBrowser) (want t : String) (pre post : List JsonVariant)
    (entry : JsonVariant) (hfilter : browser.type = some want)
    (htype : entry_string entry "type" = some t) (hne : t ≠ want) :
    notify_step browser entry = browser
      ∧ (browse_notify_cb attach browser (batch_of (pre ++ entry :: post)) none).events
          = (browse_notify_cb attach browser (batch_of (pre ++ post)) none).events := by
  have hev : entry_event browser.type browser.protocol entry = none := by
    rw [hfilter]; exact entry_event_mismatch want t _ entry htype hne
  refine ⟨notify_step_skip browser entry hev, ?_⟩
  rw [browse_notify_cb_events, browse_notify_cb_events, batch_entries_batch_of,
    batch_entries_batch_of]
  simp [List.filterMap_append, List.filterMap_cons, hev]

theorem mismatched_type_no_event_witness :
    notify_step http_browser ipp_added_entry = http_browser
      ∧ (browse_notify_cb (fun b => (b, Except.ok ())) http_browser
            (batch_of ([http_added_entry] ++ ipp_added_entry :: [])) none).events
          = (browse_notify_cb (fun b => (b, Except.ok ())) http_browser
            (batch_of ([http_added_entry] ++ [])) none).events :=
  mismatched_type_no_event (fun b => (b, Except.ok ())) http_browser "_http._tcp" "_ipp._tcp"
    [http_added_entry] [] ipp_added_entry rfl (by decide) (by decide)

/-- C20: for a notification delivered without an error, the events emitted
by `browse_notify_cb` are exactly, in the array order of the batch, one
new-service event per entry tagged "added" and one removed-service event per
entry tagged "removed" among the object entries whose type matches the
filter (no filter, no type named by the entry, or the same type), each
carrying the entry's interface index (as a gint), name, type and domain, the
protocol of the subscription and the result flags {multicast}; entries with
another updateFlag, entries that are no objects and notifications without an
entry array produce no event. -/
theorem notification_batch_events
    (attach : GaServiceBrowser → GaServiceBrowser × Except GaErrorCode Unit)
    (browser : GaServiceBrowser) (parameters : Option JsonVariant) :
    (browse_notify_cb attach browser parameters none).events
        = browser.events
            ++ (batch_entries parameters).filterMap
                (entry_event browser.type browser.protocol)
      ∧ (∀ entry, sd_json_variant_is_object entry = false →
          entry_event browser.type browser.protocol entry = none)
      ∧ (∀ entry, entry_string entry "updateFlag" ≠ some "added" →
          entry_string entry "updateFlag" ≠ some "removed" →
          entry_event browser.type browser.protocol entry = none)
      ∧ (browse_notify_cb (fun b => (b, Except.ok ())) http_browser
            (batch_of [http_added_entry, ipp_added_entry, .null]) none).events
          = [.new_service 2 GA_PROTOCOL_UNSPEC (some "Web") (some "_http._tcp") (some "local")
              GA_LOOKUP_RESULT_MULTICAST] := by
  refine ⟨browse_notify_cb_events attach browser parameters, ?_, ?_, by decide⟩
  · intro entry h
    cases entry <;> simp [sd_json_variant_is_object] at h <;> rfl
  · intro entry h1 h2
    cases entry with
    | object fields => simp [entry_event, h1, h2]
    | _ => rfl

/-! ## The service browser: reconnecting and transport errors -/

theorem disconnect_fields (browser : GaServiceBrowser) :
    (disconnect_from_resolved browser).link = none
      ∧ (disconnect_from_resolved browser).varlink_source = none
      ∧ (disconnect_from_resolved browser).varlink_fd = -1
      ∧ (disconnect_from_resolved browser).type = browser.type
      ∧ (disconnect_from_resolved browser).domain = browser.domain
      ∧ (disconnect_from_resolved browser).interface = browser.interface
      ∧ (disconnect_from_resolved browser).events = browser.events
      ∧ (disconnect_from_resolved browser).requests = browser.requests
      ∧ (disconnect_from_resolved browser).initial_snapshot_done
          = browser.initial_snapshot_done :=
  ⟨rfl, rfl, rfl, rfl, rfl, rfl, rfl, rfl, rfl⟩

theorem record_step_fields (browser : GaRecordBrowser) (rr : JsonVariant) :
    (record_step browser rr).events = browser.events ++ (record_event browser rr).toList
      ∧ (record_step browser rr).interface = browser.interface
      ∧ (record_step browser rr).protocol = browser.protocol
      ∧ (record_step browser rr).name = browser.name
      ∧ (record_step browser rr).clazz = browser.clazz
      ∧ (record_step browser rr).type = browser.type := by
  cases rr with
  | object fields =>
    simp only [record_step, sd_json_variant_is_object, Bool.not_true, Bool.false_eq_true,
      if_false, record_event, record_rdata]
    cases h : sd_json_variant_by_key (.object fields) "rdata" with
    | none => simp
    | some v =>
      cases v <;>
        simp [sd_json_variant_is_array, array_elements, sd_json_variant_elements]
  | _ => simp [record_step, sd_json_variant_is_object, record_event, record_rdata]

theorem record_event_congr (b b' : GaRecordBrowser) (rr : JsonVariant)
    (h1 : b'.interface = b.interface) (h2 : b'.protocol = b.protocol)
    (h3 : b'.name = b.name) (h4 : b'.clazz = b.clazz) (h5 : b'.type = b.type) :
    record_event b' rr = record_event b rr := by
  simp [record_event, h1, h2, h3, h4, h5]

theorem foldl_record_step (records : List JsonVariant) (browser : GaRecordBrowser) :
    (records.foldl record_step browser).events
      = browser.events ++ records.filterMap (record_event browser) := by
  induction records generalizing browser with
  | nil => simp
  | cons rr records ih =>
    obtain ⟨h0, h1, h2, h3, h4, h5⟩ := record_step_fields browser rr
    rw [List.foldl_cons, ih, h0]
    have hc : record_event (record_step browser rr) = record_event browser :=
      funext fun x => record_event_congr browser _ x h1 h2 h3 h4 h5
    rw [hc]
    cases he : record_event browser rr <;> simp [List.filterMap_cons, he]

theorem record_attach_success (env : RecordEnv) (browser : GaRecordBrowser)
    (hconnect : 0 ≤ env.connect_r) (hbuild : 0 ≤ env.build_r) (hcall : 0 ≤ env.call_r)
    (hid : env.error_id = none) :
    (ga_record_browser_attach env browser).2 = Except.ok ()
      ∧ (ga_record_browser_attach env browser).1.events
          = browser.events ++ (reply_records env.reply).filterMap (record_event browser)
              ++ [.all_for_now] := by
  have h1 : ¬ env.connect_r < 0 := by omega
  have h2 : ¬ env.build_r < 0 := by omega
  have h3 : ¬ env.call_r < 0 := by omega
  simp only [ga_record_browser_attach, h1, h2, h3, hid, if_false, Option.isSome_none,
    Bool.false_eq_true, or_self, record_disconnect_from_resolved, reply_records]
  refine ⟨trivial, ?_⟩
  cases h : env.reply.bind (fun reply => sd_json_variant_by_key reply "rrs") with
  | none => simp
  | some rrs =>
    cases rrs <;> simp [sd_json_variant_is_array, array_elements]
    rw [foldl_record_step]
    simp only [List.append_assoc]
    congr 2

theorem map_rdata_byte_octets (octets : List Nat) (h : ∀ n ∈ octets, n < 256) :
    (octets.map (fun n => JsonVariant.number (Int.ofNat n))).map rdata_byte
      = octets.map some := by
  induction octets with
  | nil => rfl
  | cons n octets ih =>
    have hn : n < 256 := h n (List.mem_cons_self _ _)
    have hlt : Int.ofNat n < (2 : Int) ^ 64 := by
      have : (2 : Int) ^ 64 = 18446744073709551616 := by norm_num
      rw [this]; simp only [Int.ofNat_eq_coe]; omega
    have hnn : (0 : Int) ≤ Int.ofNat n := Int.ofNat_nonneg n
    have hb : rdata_byte (.number (Int.ofNat n)) = some (n % 256) := by
      have h1 : sd_json_variant_is_unsigned (.number (Int.ofNat n)) = true := by
        simp only [sd_json_variant_is_unsigned, decide_eq_true_eq]
        exact ⟨hnn, hlt⟩
      have h2 : sd_json_variant_unsigned (.number (Int.ofNat n)) = n := by
        simp only [sd_json_variant_unsigned]
        rw [if_pos ⟨hnn, hlt⟩]
        rfl
      unfold rdata_byte
      rw [if_pos h1, h2]
    rw [List.map_cons, List.map_cons, List.map_cons,
      ih (fun m hm => h m (List.mem_cons_of_mem _ hm)), hb, Nat.mod_eq_of_lt hn]

theorem record_event_ne_all_for_now (browser : GaRecordBrowser) (rr : JsonVariant) :
    record_event browser rr ≠ some .all_for_now := by
  unfold record_event
  cases record_rdata rr <;> simp

theorem record_attach_error_events (env : RecordEnv) (browser : GaRecordBrowser)
    (code : GaErrorCode) (h : (ga_record_browser_attach env browser).2 = Except.error code) :
    (ga_record_browser_attach env browser).1.events = browser.events := by
  unfold ga_record_browser_attach at h ⊢
  by_cases h1 : env.connect_r < 0
  · simp [h1]
  · by_cases h2 : env.build_r < 0
    · simp [h1, h2, record_disconnect_from_resolved]
    · by_cases h3 : env.call_r < 0 ∨ env.error_id.isSome = true
      · simp only [h1, h2, h3, if_false, if_true, record_disconnect_from_resolved]
      · simp only [h1, h2, h3, if_false] at h
        simp at h

/-- C23: for a record query whose request succeeds (connection, parameter
build and call succeed and the call reports no error id),
`ga_record_browser_attach` returns success and emits, in the order of the
reply's array `rrs`, one new-record event per record that carries an rdata
array, followed by exactly one all-for-now event as the last event; the
new-record event of a record whose rdata array holds octets carries these
octets and their count together with the interface, protocol, name, class
and type of the query; a record without an rdata array gives no event. -/
theorem record_attach_events (env : RecordEnv) (browser : GaRecordBrowser)
    (hconnect : 0 ≤ env.connect_r) (hbuild : 0 ≤ env.build_r) (hcall : 0 ≤ env.call_r)
    (hid : env.error_id = none) :
    (ga_record_browser_attach env browser).2 = Except.ok ()
      ∧ (ga_record_browser_attach env browser).1.events
          = browser.events ++ (reply_records env.reply).filterMap (record_event browser)
              ++ [.all_for_now]
      ∧ (∀ e ∈ (reply_records env.reply).filterMap (record_event browser),
          e ≠ RecordEvent.all_for_now)
      ∧ (∀ (rr : JsonVariant) (octets : List Nat),
          record_rdata rr = some (octets.map (fun n => JsonVariant.number (Int.ofNat n))) →
          (∀ n ∈ octets, n < 256) → octets.length < 2 ^ 32 →
          record_event browser rr
            = some (.new_record browser.interface browser.protocol browser.name
                browser.clazz browser.type (octets.map some) octets.length))
      ∧ (∀ rr, record_rdata rr = none → record_event browser rr = none) := by
  obtain ⟨h1, h2⟩ := record_attach_success env browser hconnect hbuild hcall hid
  refine ⟨h1, h2, ?_, ?_, ?_⟩
  · intro e he heq
    obtain ⟨rr, -, hrr⟩ := List.mem_filterMap.1 he
    exact record_event_ne_all_for_now browser rr (heq ▸ hrr)
  · intro rr octets hr hoct hlen
    simp only [record_event, hr, Option.map_some', List.length_map,
      map_rdata_byte_octets octets hoct, Nat.mod_eq_of_lt hlen]
  · intro rr hr
    simp [record_event, hr]

theorem record_attach_events_witness :
    (ga_record_browser_attach record_ok_env txt_record_browser).2 = Except.ok ()
      ∧ (ga_record_browser_attach record_ok_env txt_record_browser).1.events
        = [.new_record (-1) GA_PROTOCOL_UNSPEC (some "printer.local") 1 16
            [some 3, some 97, some 61, some 98] 4,
           .new_record (-1) GA_PROTOCOL_UNSPEC (some "printer.local") 1 16 [some 0] 1,
           .all_for_now] :=
  ⟨(record_attach_events record_ok_env txt_record_browser (by decide) (by decide)
      (by decide) rfl).1,
    by decide⟩

/-- C24: `ga_record_browser_attach` fails with No-Daemon when the connection
to the backing service fails, with Not-Found when the query call returns a
negative result or reports an error id (and with Failure when the
parameters cannot be built); whenever it fails it emits no event at all, so
no new-record and no all-for-now event. -/
theorem record_attach_failure (env : RecordEnv) (browser : GaRecordBrowser) :
    (env.connect_r < 0 →
        (ga_record_browser_attach env browser).2 = Except.error GaErrorCode.NO_DAEMON)
      ∧ (0 ≤ env.connect_r → 0 ≤ env.build_r →
          (env.call_r < 0 ∨ env.error_id ≠ none) →
          (ga_record_browser_attach env browser).2 = Except.error GaErrorCode.NOT_FOUND)
      ∧ (0 ≤ env.connect_r → env.build_r < 0 →
          (ga_record_browser_attach env browser).2 = Except.error GaErrorCode.FAILURE)
      ∧ (∀ code, (ga_record_browser_attach env browser).2 = Except.error code →
          (ga_record_browser_attach env browser).1.events = browser.events) := by
  refine ⟨?_, ?_, ?_, fun code h => record_attach_error_events env browser code h⟩
  · intro h
    simp [ga_record_browser_attach, h]
  · intro h1 h2 h3
    have h1' : ¬ env.connect_r < 0 := by omega
    have h2' : ¬ env.build_r < 0 := by omega
    have h3' : env.call_r < 0 ∨ env.error_id.isSome = true := by
      rcases h3 with h | h
      · exact Or.inl h
      · exact Or.inr (Option.isSome_iff_ne_none.2 h)
    simp only [ga_record_browser_attach, h1', h2', h3', if_false, if_true]
  · intro h1 h2
    have h1' : ¬ env.connect_r < 0 := by omega
    simp [ga_record_browser_attach, h1', h2]

theorem record_attach_failure_witness :
    (ga_record_browser_attach record_error_env txt_record_browser).2
        = Except.error GaErrorCode.NOT_FOUND
      ∧ (ga_record_browser_attach record_error_env txt_record_browser).1.events = [] :=
  ⟨(record_attach_failure record_error_env txt_record_browser).2.1 (by decide) (by decide)
      (Or.inr (by decide)),
    by decide⟩

/-! ## The service resolver: terminal events and `get_address` -/

theorem extract_none_of_no_candidates (reply : Option JsonVariant) (preferred_proto : Int)
    (h4 : ipv4_candidates (reply_services reply) = [])
    (h6 : ipv6_candidates (reply_services reply) = []) :
    extract_address_from_services
      (reply.bind (fun r => sd_json_variant_by_key r "services")) preferred_proto = none := by
  unfold reply_services at h4 h6
  cases h : reply.bind (fun r => sd_json_variant_by_key r "services") with
  | none => rfl
  | some v =>
    cases v with
    | array services =>
      rw [h] at h4 h6
      have e4 : (services.foldl srv_step extract_init).have_ipv4 = false := by
        cases hb : (services.foldl srv_step extract_init).have_ipv4
        · rfl
        · exact absurd h4 ((have_ipv4_iff services).1 hb)
      have e6 : (services.foldl srv_step extract_init).have_ipv6 = false := by
        cases hb : (services.foldl srv_step extract_init).have_ipv6
        · rfl
        · exact absurd h6 ((have_ipv6_iff services).1 hb)
      rw [extract_array_eq]
      simp [select_address, e4, e6]
    | _ => simp [extract_address_from_services, sd_json_variant_is_array]

theorem worker_cases (env : ResolveEnv) (data : ResolveTaskData) :
    (env.connect_r < 0 → resolve_task_thread env data = Except.error GaErrorCode.NO_DAEMON)
      ∧ (0 ≤ env.connect_r → env.build_r < 0 →
          resolve_task_thread env data = Except.error GaErrorCode.FAILURE)
      ∧ (0 ≤ env.connect_r → 0 ≤ env.build_r → env.call_r < 0 →
          resolve_task_thread env data = Except.error GaErrorCode.FAILURE)
      ∧ (0 ≤ env.connect_r → 0 ≤ env.build_r → 0 ≤ env.call_r → env.error_id ≠ none →
          resolve_task_thread env data = Except.error GaErrorCode.NOT_FOUND)
      ∧ (0 ≤ env.connect_r → 0 ≤ env.build_r → 0 ≤ env.call_r → env.error_id = none →
          ∃ response, resolve_task_thread env data = Except.ok response) := by
  refine ⟨?_, ?_, ?_, ?_, ?_⟩
  · intro h
    simp [resolve_task_thread, h]
  · intro h1 h2
    have h1' : ¬ env.connect_r < 0 := by omega
    simp [resolve_task_thread, h1', h2]
  · intro h1 h2 h3
    have h1' : ¬ env.connect_r < 0 := by omega
    have h2' : ¬ env.build_r < 0 := by omega
    simp [resolve_task_thread, h1', h2', h3]
  · intro h1 h2 h3 h4
    have h1' : ¬ env.connect_r < 0 := by omega
    have h2' : ¬ env.build_r < 0 := by omega
    have h3' : ¬ env.call_r < 0 := by omega
    have h4' : env.error_id.isSome = true := Option.isSome_iff_ne_none.2 h4
    simp [resolve_task_thread, h1', h2', h3', h4']
  · intro h1 h2 h3 h4
    have h1' : ¬ env.connect_r < 0 := by omega
    have h2' : ¬ env.build_r < 0 := by omega
    have h3' : ¬ env.call_r < 0 := by omega
    simp only [resolve_task_thread, h1', h2', h3', h4, if_false, Option.isSome_none,
      Bool.false_eq_true]
    cases extract_address_from_services
      (env.reply.bind (fun reply => sd_json_variant_by_key reply "services"))
      data.aprotocol with
    | none => exact ⟨_, rfl⟩
    | some p => exact ⟨_, rfl⟩

theorem complete_error_fields (resolver : GaServiceResolver) (code : GaErrorCode) :
    (resolve_complete_cb resolver (Except.error code)).events
        = resolver.events ++ [.failure code]
      ∧ (resolve_complete_cb resolver (Except.error code)).resolved = resolver.resolved
      ∧ (resolve_complete_cb resolver (Except.error code)).address = resolver.address
      ∧ (resolve_complete_cb resolver (Except.error code)).port = resolver.port :=
  ⟨rfl, rfl, rfl, rfl⟩

theorem complete_ok_fields (resolver : GaServiceResolver) (response : ResolveResponse) :
    (resolve_complete_cb resolver (Except.ok response)).events
        = resolver.events ++
          [.found resolver.interface resolver.protocol resolver.name resolver.type
            resolver.domain (resolver.host.getD "")
            (resolve_complete_cb resolver (Except.ok response)).address
            (Int.ofNat (resolve_complete_cb resolver (Except.ok response)).port)
            (resolve_complete_cb resolver (Except.ok response)).txt
            GA_LOOKUP_RESULT_MULTICAST]
      ∧ (resolve_complete_cb resolver (Except.ok response)).resolved = true :=
  ⟨rfl, rfl⟩

/-- C25: every outcome of the worker of a resolve operation leads to exactly
one terminal event.  The worker returns the error No-Daemon when the
connection fails, Failure when the parameters cannot be built or the call
returns a negative result, Not-Found when the call reports an error id, and
a reply otherwise; on an error the completion emits one failure event with
that error and no found event, on a reply it emits one found event (with the
interface, protocol, name, type and domain of the resolver) and no failure
event. -/
theorem resolve_one_terminal_event (env : ResolveEnv) (data : ResolveTaskData)
    (resolver : GaServiceResolver) :
    (env.connect_r < 0 → resolve_task_thread env data = Except.error GaErrorCode.NO_DAEMON)
      ∧ (0 ≤ env.connect_r → env.build_r < 0 →
          resolve_task_thread env data = Except.error GaErrorCode.FAILURE)
      ∧ (0 ≤ env.connect_r → 0 ≤ env.build_r → env.call_r < 0 →
          resolve_task_thread env data = Except.error GaErrorCode.FAILURE)
      ∧ (0 ≤ env.connect_r → 0 ≤ env.build_r → 0 ≤ env.call_r → env.error_id ≠ none →
          resolve_task_thread env data = Except.error GaErrorCode.NOT_FOUND)
      ∧ (0 ≤ env.connect_r → 0 ≤ env.build_r → 0 ≤ env.call_r → env.error_id = none →
          ∃ response, resolve_task_thread env data = Except.ok response)
      ∧ (∀ code, (resolve_complete_cb resolver (Except.error code)).events
          = resolver.events ++ [.failure code])
      ∧ (∀ response, ∃ address port txt,
          (resolve_complete_cb resolver (Except.ok response)).events
            = resolver.events ++
              [.found resolver.interface resolver.protocol resolver.name resolver.type
                resolver.domain (resolver.host.getD "") address port txt
                GA_LOOKUP_RESULT_MULTICAST]) := by
  obtain ⟨h1, h2, h3, h4, h5⟩ := worker_cases env data
  exact ⟨h1, h2, h3, h4, h5, fun code => rfl,
    fun response => ⟨_, _, _, (complete_ok_fields resolver response).1⟩⟩

theorem resolve_one_terminal_event_witness :
    resolve_task_thread not_found_env (ga_service_resolver_attach web_resolver).2
        = Except.error GaErrorCode.NOT_FOUND
      ∧ (resolve_operation not_found_env web_resolver).events
        = [.failure GaErrorCode.NOT_FOUND] :=
  ⟨(resolve_one_terminal_event not_found_env (ga_service_resolver_attach web_resolver).2
      web_resolver).2.2.2.1 (by decide) (by decide) (by decide) (by decide),
    by decide⟩

theorem worker_no_candidate (env : ResolveEnv) (data : ResolveTaskData)
    (hconnect : 0 ≤ env.connect_r) (hbuild : 0 ≤ env.build_r) (hcall : 0 ≤ env.call_r)
    (hid : env.error_id = none)
    (h4 : ipv4_candidates (reply_services env.reply) = [])
    (h6 : ipv6_candidates (reply_services env.reply) = []) :
    ∃ txt, resolve_task_thread env data
      = Except.ok { port := none, proto := none, address := none, txt := txt } := by
  have h1' : ¬ env.connect_r < 0 := by omega
  have h2' : ¬ env.build_r < 0 := by omega
  have h3' : ¬ env.call_r < 0 := by omega
  simp only [resolve_task_thread, h1', h2', h3', hid, if_false, Option.isSome_none,
    Bool.false_eq_true, extract_none_of_no_candidates env.reply data.aprotocol h4 h6]
  exact ⟨_, rfl⟩

theorem resolvedHasEvent_new (interface protocol : Int) (name type domain : Option String)
    (address_protocol : Int) (flags : Nat) :
    ResolvedHasEvent
      (ga_service_resolver_new interface protocol name type domain address_protocol flags) := by
  intro h
  simp [ga_service_resolver_new] at h

theorem resolvedHasEvent_step (env : ResolveEnv) (resolver : GaServiceResolver)
    (h : ResolvedHasEvent resolver) : ResolvedHasEvent (resolve_operation env resolver) := by
  intro hres
  have hop : resolve_operation env resolver
      = resolve_complete_cb (ga_service_resolver_attach resolver).1
          (resolve_task_thread env (ga_service_resolver_attach resolver).2) := rfl
  rw [hop] at hres ⊢
  cases hw : resolve_task_thread env (ga_service_resolver_attach resolver).2 with
  | error code =>
    obtain ⟨he, hr, ha, hp⟩ :=
      complete_error_fields (ga_service_resolver_attach resolver).1 code
    rw [hw] at hres
    rw [hr] at hres
    obtain ⟨i, pr, n, t, d, hn, txt, fl, hmem⟩ := h hres
    refine ⟨i, pr, n, t, d, hn, txt, fl, ?_⟩
    rw [he, ha, hp]
    exact List.mem_append_left _ hmem
  | ok response =>
    obtain ⟨he, -⟩ := complete_ok_fields (ga_service_resolver_attach resolver).1 response
    refine ⟨(ga_service_resolver_attach resolver).1.interface,
      (ga_service_resolver_attach resolver).1.protocol,
      (ga_service_resolver_attach resolver).1.name,
      (ga_service_resolver_attach resolver).1.type,
      (ga_service_resolver_attach resolver).1.domain,
      (ga_service_resolver_attach resolver).1.host.getD "",
      (resolve_complete_cb (ga_service_resolver_attach resolver).1 (Except.ok response)).txt,
      GA_LOOKUP_RESULT_MULTICAST, ?_⟩
    rw [he]
    exact List.mem_append_right _ (List.mem_singleton_self _)

theorem resolvedHasEvent_run (envs : List ResolveEnv) (resolver : GaServiceResolver)
    (h : ResolvedHasEvent resolver) : ResolvedHasEvent (run_resolves envs resolver) := by
  induction envs generalizing resolver with
  | nil => exact h
  | cons env envs ih => exact ih _ (resolvedHasEvent_step env resolver h)

theorem get_address_some (resolver : GaServiceResolver) (a : GaAddress) (p : Nat)
    (h : ga_service_resolver_get_address resolver = some (a, p)) :
    resolver.resolved = true ∧ resolver.port ≠ 0 ∧ a = resolver.address ∧ p = resolver.port := by
  unfold ga_service_resolver_get_address at h
  by_cases hc : (!resolver.resolved || resolver.port == 0) = true
  · simp [hc] at h
  · rw [if_neg hc] at h
    simp only [Option.some.injEq, Prod.mk.injEq] at h
    simp only [Bool.or_eq_true, Bool.not_eq_true', beq_iff_eq, not_or, Bool.not_eq_false] at hc
    exact ⟨hc.1, hc.2, h.1.symm, h.2.symm⟩

/-- C30: a resolve operation on a new resolver whose request succeeds and
whose reply holds no well-formed address candidate (no services array, or no
address of 4 elements for AF_INET or of 16 elements for AF_INET6) completes
with exactly one event, a found event carrying port 0 and an all-zero
address tagged IPv4, and `ga_service_resolver_get_address` then returns
failure; after any sequence of resolve operations on a new resolver,
`ga_service_resolver_get_address` returns success only with a non-zero port
and when a found event carrying the returned address and port has been
emitted. -/
theorem resolve_without_candidate (env : ResolveEnv) (interface protocol : Int)
    (name type domain : Option String) (address_protocol : Int) (flags : Nat)
    (hconnect : 0 ≤ env.connect_r) (hbuild : 0 ≤ env.build_r) (hcall : 0 ≤ env.call_r)
    (hid : env.error_id = none)
    (h4 : ipv4_candidates (reply_services env.reply) = [])
    (h6 : ipv6_candidates (reply_services env.reply) = []) :
    (∃ txt,
        (resolve_operation env
          (ga_service_resolver_new interface protocol name type domain address_protocol
            flags)).events
          = [.found interface protocol name type domain ""
              ⟨GA_PROTOCOL_INET, List.replicate 16 0⟩ 0 txt GA_LOOKUP_RESULT_MULTICAST])
      ∧ ga_service_resolver_get_address
          (resolve_operation env
            (ga_service_resolver_new interface protocol name type domain address_protocol
              flags)) = none
      ∧ (∀ (envs : List ResolveEnv) (a : GaAddress) (p : Nat),
          ga_service_resolver_get_address
            (run_resolves envs
              (ga_service_resolver_new interface protocol name type domain address_protocol
                flags)) = some (a, p) →
          p ≠ 0 ∧ ∃ i pr n t d h txt fl,
            ResolverEvent.found i pr n t d h a (Int.ofNat p) txt fl
              ∈ (run_resolves envs
                  (ga_service_resolver_new interface protocol name type domain
                    address_protocol flags)).events) := by
  obtain ⟨t, ht⟩ := worker_no_candidate env
    (ga_service_resolver_attach
      (ga_service_resolver_new interface protocol name type domain address_protocol flags)).2
    hconnect hbuild hcall hid h4 h6
  have hop : resolve_operation env
      (ga_service_resolver_new interface protocol name type domain address_protocol flags)
      = resolve_complete_cb
          (ga_service_resolver_attach
            (ga_service_resolver_new interface protocol name type domain address_protocol
              flags)).1
          (Except.ok { port := none, proto := none, address := none, txt := t }) := by
    rw [← ht]; rfl
  refine ⟨⟨_, by rw [hop]; rfl⟩, by rw [hop]; rfl, ?_⟩
  intro envs a p hget
  obtain ⟨hres, hport, ha, hp⟩ := get_address_some _ a p hget
  have hinv := resolvedHasEvent_run envs _
    (resolvedHasEvent_new interface protocol name type domain address_protocol flags) hres
  rw [ha, hp]
  exact ⟨hport, hinv⟩

theorem resolve_without_candidate_witness :
    (resolve_operation no_services_env web_resolver).events
        = [.found (-1) GA_PROTOCOL_UNSPEC (some "Web") (some "_http._tcp") none ""
            ⟨GA_PROTOCOL_INET, List.replicate 16 0⟩ 0 ["path=/"] GA_LOOKUP_RESULT_MULTICAST]
      ∧ ga_service_resolver_get_address (resolve_operation no_services_env web_resolver)
        = none
      ∧ ga_service_resolver_get_address (resolve_operation dual_stack_env web_resolver)
        = some (⟨GA_PROTOCOL_INET, [192, 0, 2, 1] ++ List.replicate 12 0⟩, 8080) :=
  ⟨by decide,
    (resolve_without_candidate no_services_env (-1) GA_PROTOCOL_UNSPEC (some "Web")
      (some "_http._tcp") none GA_PROTOCOL_UNSPEC 0 (by decide) (by decide) (by decide) rfl
      rfl rfl).2.1,
    by decide⟩

/-! ## The entry group: safety and collisions of the file name -/

theorem mem_name_chars (name : List Char) (c : Char)
    (h : c ∈ name.filterMap (fun c =>
      if c.isAlphanum || c = '-' || c = '_' then some c
      else if c = ' ' then some '_'
      else none)) :
    g_ascii_isalnum c = true ∨ c = '-' ∨ c = '_' := by
  obtain ⟨a, -, ha⟩ := List.mem_filterMap.1 h
  by_cases h1 : (a.isAlphanum || a = '-' || a = '_') = true
  · rw [if_pos h1] at ha
    have hac : a = c := Option.some.inj ha
    rw [← hac, g_ascii_isalnum_eq]
    simpa [or_assoc] using h1
  · rw [if_neg h1] at ha
    by_cases h2 : a = ' '
    · rw [if_pos h2] at ha
      exact Or.inr (Or.inr (Option.some.inj ha).symm)
    · rw [if_neg h2] at ha
      cases ha

theorem mem_type_chars (type : List Char) (c : Char)
    (h : c ∈ type.filterMap (fun c =>
      if c.isAlphanum || c = '-' then some c
      else if c = '.' || c = '_' then some '-'
      else none)) :
    g_ascii_isalnum c = true ∨ c = '-' ∨ c = '_' := by
  obtain ⟨a, -, ha⟩ := List.mem_filterMap.1 h
  by_cases h1 : (a.isAlphanum || a = '-') = true
  · rw [if_pos h1] at ha
    have hac : a = c := Option.some.inj ha
    rw [← hac, g_ascii_isalnum_eq]
    have h1' : a.isAlphanum = true ∨ a = '-' := by simpa using h1
    rcases h1' with h | h
    · exact Or.inl h
    · exact Or.inr (Or.inl h)
  · rw [if_neg h1] at ha
    by_cases h2 : (a = '.' || a = '_') = true
    · rw [if_pos h2] at ha
      exact Or.inr (Or.inl (Option.some.inj ha).symm)
    · rw [if_neg h2] at ha
      cases ha

theorem filename_stem (name type : String) :
    (generate_dnssd_filename name type).data
      = (name.data.filterMap (fun c =>
            if c.isAlphanum || c = '-' || c = '_' then some c
            else if c = ' ' then some '_'
            else none)
          ++ ['-']
          ++ type.data.filterMap (fun c =>
            if c.isAlphanum || c = '-' then some c
            else if c = '.' || c = '_' then some '-'
            else none))
        ++ ".dnssd".data := by
  simp only [generate_dnssd_filename, foldl_name_step, foldl_type_step, List.nil_append]

/-- C27: the characters of the file name returned by
`generate_dnssd_filename` before the suffix ".dnssd" are ASCII letters,
digits, '-' or '_'; the file name holds no '/' and is neither "." nor "..",
and the artifact path of a service is the runtime directory, one '/' and
that file name, so the artifact lies directly inside the runtime
directory. -/
theorem dnssd_filename_safe (service : GaEntryGroupService) :
    (∃ stem : List Char,
        (generate_dnssd_filename service.name service.type).data = stem ++ ".dnssd".data
          ∧ ∀ c ∈ stem, g_ascii_isalnum c = true ∨ c = '-' ∨ c = '_')
      ∧ '/' ∉ (generate_dnssd_filename service.name service.type).data
      ∧ generate_dnssd_filename service.name service.type ≠ "."
      ∧ generate_dnssd_filename service.name service.type ≠ ".."
      ∧ (service_path service).data
          = DNSSD_RUNTIME_DIR.data
              ++ '/' :: (generate_dnssd_filename service.name service.type).data := by
  have hstem := filename_stem service.name service.type
  have hsafe : ∀ c ∈ (service.name.data.filterMap (fun c =>
            if c.isAlphanum || c = '-' || c = '_' then some c
            else if c = ' ' then some '_'
            else none)
          ++ ['-']
          ++ service.type.data.filterMap (fun c =>
            if c.isAlphanum || c = '-' then some c
            else if c = '.' || c = '_' then some '-'
            else none)), g_ascii_isalnum c = true ∨ c = '-' ∨ c = '_' := by
    intro c hc
    rcases List.mem_append.1 hc with h | h
    · rcases List.mem_append.1 h with h | h
      · exact mem_name_chars _ c h
      · exact Or.inr (Or.inl (List.mem_singleton.1 h))
    · exact mem_type_chars _ c h
  have hlen : 7 ≤ (generate_dnssd_filename service.name service.type).data.length := by
    rw [hstem]
    simp only [List.length_append, List.length_cons, List.length_nil]
    omega
  refine ⟨⟨_, hstem, hsafe⟩, ?_, ?_, ?_, ?_⟩
  · rw [hstem]
    intro hmem
    rcases List.mem_append.1 hmem with h | h
    · rcases hsafe '/' h with h | h | h
      · exact absurd h (by decide)
      · exact absurd h (by decide)
      · exact absurd h (by decide)
    · exact absurd h (by decide)
  · intro h
    rw [h] at hlen
    exact absurd hlen (by decide)
  · intro h
    rw [h] at hlen
    exact absurd hlen (by decide)
  · simp [service_path, g_build_filename, String.data_append]

/-- C28: `generate_dnssd_filename` is not injective: the distinct names
"a b" and "a_b", and the distinct names "é" and "ü" made only of non-ASCII
characters, give the same file name with the type `_http._tcp`; when the
services "a b" and "a_b" are registered in one group and committed with
every write succeeding, the created-artifact set records two paths, both
that one path, and a single artifact is on disk, holding the content of the
service written last. -/
theorem generate_dnssd_filename_collides :
    generate_dnssd_filename "a b" "_http._tcp" = generate_dnssd_filename "a_b" "_http._tcp"
      ∧ generate_dnssd_filename "a b" "_http._tcp" = "a_b--http--tcp.dnssd"
      ∧ generate_dnssd_filename "é" "_http._tcp" = generate_dnssd_filename "ü" "_http._tcp"
      ∧ generate_dnssd_filename "é" "_http._tcp" = "--http--tcp.dnssd"
      ∧ colliding_world.services.map (fun s => s.name) = ["a b", "a_b"]
      ∧ (ga_entry_group_commit all_ok_env colliding_world).1.created_files
          = ["/run/systemd/dnssd/a_b--http--tcp.dnssd",
             "/run/systemd/dnssd/a_b--http--tcp.dnssd"]
      ∧ artifacts_on_disk (ga_entry_group_commit all_ok_env colliding_world).1
          = ["/run/systemd/dnssd/a_b--http--tcp.dnssd"]
      ∧ (ga_entry_group_commit all_ok_env colliding_world).1.files
            "/run/systemd/dnssd/a_b--http--tcp.dnssd"
          = some "[Service]\nName=a_b\nType=_http._tcp\nPort=81\n" := by
  decide

end GaCompat
